import Mathlib

/-!
# easy-cli: retry primitive, rollback manager and the fresh-install saga

A shallow embedding of the Go packages `internal/retry`, `internal/rollback`,
`internal/resources`, `internal/envvars` and of `cmd.freshInstall`.

Conventions of the embedding:
* a Go `error` result is an `Option Error` (`none` is `nil`);
* a Go closure with hidden state is a state transformer `σ → Option Error × σ`;
* every call that leaves the modelled code (the retried operation, a select on the
  context, a compensating action, a provider method) is recorded in a trace, so that
  "is invoked", "exactly `n` times" and "in this order" are statements about the trace;
* `time.Duration` is a signed 64-bit integer: sums are reduced by `wrapInt64`;
* logging is not modelled.
-/

namespace EasyCli

/-! ## Errors -/

/-- Go error values, kept structured instead of rendered to text. -/
inductive Error where
  /-- An error whose origin is outside the modelled code, or `errors.New(msg)` /
  `fmt.Errorf(msg)` without a wrapped operand. -/
  | new (msg : String)
  /-- The value of `fmt.Errorf(msg + ": %w", inner)`. -/
  | wrapf (msg : String) (inner : Error)
  /-- The value of `fmt.Errorf("operation failed after %d attempts: %w", attempts, lastErr)`;
  `lastErr` may be `nil`. -/
  | failedAfter (attempts : Int) (lastErr : Option Error)
  /-- The value of `fmt.Errorf("failed to rollback %s: %w", name, inner)`. -/
  | rollbackOf (name : String) (inner : Error)
  /-- The value of `fmt.Errorf("%d rollback actions failed: %v", count, errs)`. -/
  | rollbackFailed (count : Nat) (errs : List Error)

/-- A `time.Duration`: a count of nanoseconds held in an `int64`. -/
abbrev Duration := Int

/-- Reduction of an integer to the `int64` range, as Go's wrapping arithmetic does. -/
def wrapInt64 (x : Int) : Int :=
  (x + 9223372036854775808) % 18446744073709551616 - 9223372036854775808

/-- The values an `int64` can hold. -/
def isInt64 (x : Int) : Prop :=
  -9223372036854775808 ≤ x ∧ x ≤ 9223372036854775807

instance (x : Int) : Decidable (isInt64 x) := by
  unfold isInt64; infer_instance

namespace retry

/-- The struct `retry.Config`. -/
structure Config where
  MaxAttempts : Int
  Delay : Duration
  Backoff : Duration

/-- The function `retry.DefaultConfig`: 3 attempts, 1 s delay, 2 s backoff. -/
def DefaultConfig : Config :=
  { MaxAttempts := 3, Delay := 1 * 1000000000, Backoff := 2 * 1000000000 }

/-- What `retry.Do` uses of a `context.Context`: for the `select` that precedes attempt
`attempt`, `Done attempt` tells whether the case `<-ctx.Done()` is the one taken
(`false`: the timer case is taken); `Err` is the value of `ctx.Err()` after that. -/
structure Context where
  Done : Nat → Bool
  Err : Error

/-- The observable steps of one run of `retry.Do`. -/
inductive Event where
  /-- The case `<-time.After(delay)` was taken before attempt `attempt`. -/
  | timer (attempt : Nat) (delay : Duration)
  /-- The case `<-ctx.Done()` was taken before attempt `attempt`, while waiting `delay`. -/
  | done (attempt : Nat) (delay : Duration)
  /-- The call `operation()` of attempt `attempt`. -/
  | call (attempt : Nat)
  deriving DecidableEq, Repr

/-- Whether the event is a call of the operation. -/
def Event.isCall : Event → Bool
  | .call _ => true
  | _ => false

/-- The duration handed to `time.After` when the event is a wait, with its attempt. -/
def Event.wait? : Event → Option (Nat × Duration)
  | .timer attempt delay => some (attempt, delay)
  | .done attempt delay => some (attempt, delay)
  | .call _ => none

/-- Result of a run of `retry.Do`: the returned error, the state the operation's closure
is left in, and the trace of the run. -/
structure Outcome (σ : Type) where
  err : Option Error
  state : σ
  trace : List Event

/-- Puts events in front of an outcome's trace. -/
def Outcome.after {σ : Type} (evs : List Event) (r : Outcome σ) : Outcome σ :=
  { r with trace := evs ++ r.trace }

/-- The `for` loop of `retry.Do` over the attempt numbers still to run. The list argument
holds the values `attempt` takes (`attempt`, `attempt+1`, ..., `MaxAttempts`); on the empty
list the loop condition is false and the final `return` is reached. The `continue` of the
source jumps to the loop increment, which the end of the body reaches as well. The counter
`attempt` is a natural number: `MaxAttempts` is taken below the largest `int`, so that
`attempt++` does not overflow. -/
def Do.loop {σ : Type} (ctx : Context) (config : Config) (operation : σ → Option Error × σ) :
    List Nat → Duration → Option Error → σ → Outcome σ
  | [], _, lastErr, s => ⟨some (.failedAfter config.MaxAttempts lastErr), s, []⟩
  | attempt :: rest, delay, _, s =>
    if 1 < attempt then
      if ctx.Done attempt then
        ⟨some ctx.Err, s, [.done attempt delay]⟩
      else
        match operation s with
        | (none, s1) => ⟨none, s1, [.timer attempt delay, .call attempt]⟩
        | (some e, s1) =>
          (Do.loop ctx config operation rest (wrapInt64 (delay + config.Backoff)) (some e) s1).after
            [.timer attempt delay, .call attempt]
    else
      match operation s with
      | (none, s1) => ⟨none, s1, [.call attempt]⟩
      | (some e, s1) =>
        (Do.loop ctx config operation rest delay (some e) s1).after [.call attempt]

/-- The function `retry.Do`. -/
def Do {σ : Type} (ctx : Context) (config : Config) (operation : σ → Option Error × σ)
    (s : σ) : Outcome σ :=
  Do.loop ctx config operation (List.range' 1 config.MaxAttempts.toNat) config.Delay none s

/-- State of the operation's closure after `j` calls made from state `s`. -/
def stateAfter {σ : Type} (operation : σ → Option Error × σ) : Nat → σ → σ
  | 0, s => s
  | j + 1, s => stateAfter operation j (operation s).2

/-- Result of the call number `j + 1` of the operation, the calls starting in state `s`. -/
def resultOf {σ : Type} (operation : σ → Option Error × σ) (j : Nat) (s : σ) : Option Error :=
  (operation (stateAfter operation j s)).1

/-- Number of calls of the operation in a trace. -/
def callCount (tr : List Event) : Nat :=
  (tr.filter Event.isCall).length

/-- The waits of a trace, in order: attempt number and duration waited for. -/
def waits (tr : List Event) : List (Nat × Duration) :=
  tr.filterMap Event.wait?

/-- An operation for examples: its state counts the calls made, and the call number `k`
succeeds while all others fail with an error that names the call. -/
def succeedsAt (k : Nat) : Nat → Option Error × Nat :=
  fun c => (if c + 1 = k then none else some (.new (toString (c + 1))), c + 1)

/-- A context that is never cancelled. -/
def background : Context :=
  { Done := fun _ => false, Err := .new "context canceled" }

/-- A context for examples, cancelled during the wait that precedes attempt `i`: the selects
of earlier attempts take the timer case, those from attempt `i` on take `<-ctx.Done()`. -/
def cancelledAt (i : Nat) : Context :=
  { Done := fun attempt => decide (i ≤ attempt), Err := .new "context canceled" }

end retry

/-! ## Package `rollback` -/

namespace rollback

/-- The struct `rollback.Action`; the closure `Rollback` acts on a state of type `S`. -/
structure Action (S : Type) where
  Name : String
  Rollback : S → Option Error × S

/-- The struct `rollback.Manager`. -/
structure Manager (S : Type) where
  actions : List (Action S)

/-- The function `rollback.NewManager`. -/
def NewManager {S : Type} : Manager S :=
  { actions := [] }

/-- The method `Manager.AddAction`; the receiver after the call is returned. -/
def Manager.AddAction {S : Type} (m : Manager S) (name : String)
    (rollbackFn : S → Option Error × S) : Manager S :=
  { actions := m.actions ++ [{ Name := name, Rollback := rollbackFn }] }

/-- One call `action.Rollback(ctx)` made by `ExecuteRollback`: the index `i` of the action
in `m.actions`, the action, and what the call returned. -/
structure Invocation (S : Type) where
  index : Nat
  action : Action S
  result : Option Error

/-- Result of `ExecuteRollback`: the returned error, the state the actions leave, the
receiver after the call, and the calls of `Rollback` made, in the order they were made. -/
structure Outcome (S : Type) where
  err : Option Error
  state : S
  manager : Manager S
  invoked : List (Invocation S)

/-- The loop `for i := len(m.actions) - 1; i >= 0; i--` of `ExecuteRollback`, entered with
`i = k - 1`; it yields `rollbackErrors`, the final state and the invocations made. -/
def ExecuteRollback.loop {S : Type} (m : Manager S) :
    (k : Nat) → k ≤ m.actions.length → List Error → S → List Error × S × List (Invocation S)
  | 0, _, rollbackErrors, s => (rollbackErrors, s, [])
  | i + 1, h, rollbackErrors, s =>
    let action := m.actions[i]
    match action.Rollback s with
    | (some err, s1) =>
      let r := ExecuteRollback.loop m i (Nat.le_of_succ_le h)
        (rollbackErrors ++ [Error.rollbackOf action.Name err]) s1
      (r.1, r.2.1, { index := i, action := action, result := some err } :: r.2.2)
    | (none, s1) =>
      let r := ExecuteRollback.loop m i (Nat.le_of_succ_le h) rollbackErrors s1
      (r.1, r.2.1, { index := i, action := action, result := none } :: r.2.2)

/-- The method `Manager.ExecuteRollback`. -/
def Manager.ExecuteRollback {S : Type} (m : Manager S) (s : S) : Outcome S :=
  let r := ExecuteRollback.loop m m.actions.length (Nat.le_refl _) [] s
  if 0 < r.1.length then
    { err := some (Error.rollbackFailed r.1.length r.1), state := r.2.1, manager := m,
      invoked := r.2.2 }
  else
    { err := none, state := r.2.1, manager := m, invoked := r.2.2 }

/-- Registers the actions of a list on a manager with `AddAction`, first to last. -/
def registerAll {S : Type} (m : Manager S) : List (Action S) → Manager S
  | [] => m
  | a :: rest => registerAll (m.AddAction a.Name a.Rollback) rest

/-- The errors `ExecuteRollback` collects for a list of invocations: one per failed call,
naming the action and wrapping the error the call returned. -/
def failuresOf {S : Type} (invoked : List (Invocation S)) : List Error :=
  invoked.filterMap (fun inv => inv.result.map (Error.rollbackOf inv.action.Name))

/-- An action for examples, on a state that logs the names of the actions run: it appends
its name and fails exactly when `fails` is set. -/
def logging (name : String) (fails : Bool) : Action (List String) :=
  { Name := name,
    Rollback := fun log =>
      (if fails then some (Error.new (name ++ " failed")) else none, log ++ [name]) }

end rollback

/-! ## Strings

A Go `string` is modelled by a Lean `String`, that is, by valid UTF-8 text. -/

/-- The builtin `len` on a string: the number of bytes of its UTF-8 encoding. -/
def len (s : String) : Nat :=
  s.utf8ByteSize

namespace strings

/-- The function `strings.Contains`. -/
def Contains (s substr : String) : Bool :=
  decide (substr.data <:+: s.data)

/-- The function `unicode.ToLower` on one rune: the ASCII letters are mapped here; above
ASCII the case table of Go's `unicode` package decides, and that table is the parameter
`unicodeLower`. -/
def toLowerRune (unicodeLower : Char → Char) (r : Char) : Char :=
  if r.toNat ≤ 127 then r.toLower else unicodeLower r

/-- The function `strings.ToLower`: every rune is mapped by `unicode.ToLower`. -/
def ToLower (unicodeLower : Char → Char) (s : String) : String :=
  String.mk (s.data.map (toLowerRune unicodeLower))

end strings

/-! ## Packages `types`, `config` and `godo` -/

namespace godo

/-- The struct `godo.AppVariableDefinition`, with the fields the program sets; the field
`Type` of the source is `Type_` here. -/
structure AppVariableDefinition where
  Key : String
  Value : String
  Scope : String
  Type_ : String
  deriving DecidableEq, Repr

/-- The constant `godo.AppVariableScope_RunAndBuildTime`. -/
def AppVariableScope_RunAndBuildTime : String := "RUN_AND_BUILD_TIME"

/-- The constant `godo.AppVariableType_General`. -/
def AppVariableType_General : String := "GENERAL"

end godo

namespace config

/-- The struct `config.DatabaseConfig`. -/
structure DatabaseConfig where
  Host : String
  Port : Int
  User : String
  Password : String
  DBName : String
  deriving DecidableEq, Repr

/-- The struct `config.VercelConfig`. -/
structure VercelConfig where
  Token : String
  TeamID : String
  FrontendRepoUuid : String
  deriving DecidableEq, Repr

/-- The struct `config.AWSConfig`. -/
structure AWSConfig where
  Region : String
  AccessKeyID : String
  SecretAccessKey : String
  deriving DecidableEq, Repr

/-- The struct `config.DOConfig`. -/
structure DOConfig where
  Token : String
  deriving DecidableEq, Repr

/-- The struct `config.SMTPConfig`. -/
structure SMTPConfig where
  Server : String
  Username : String
  DoNotReplyEmail : String
  DevEmail : String
  deriving DecidableEq, Repr

/-- The struct `config.RepositoryConfig`. -/
structure RepositoryConfig where
  Backend : String
  Frontend : String
  deriving DecidableEq, Repr

/-- The struct `config.ApplicationConfig`. -/
structure ApplicationConfig where
  NamePrefix : String
  deriving DecidableEq, Repr

/-- The struct `config.Config`. -/
structure Config where
  Database : DatabaseConfig
  Vercel : VercelConfig
  AWS : AWSConfig
  DO : DOConfig
  SMTP : SMTPConfig
  Repository : RepositoryConfig
  Application : ApplicationConfig
  deriving DecidableEq, Repr

end config

namespace types

/-- The struct `types.BackendInfo`. -/
structure BackendInfo where
  URL : String
  DatabasePassword : String
  deriving DecidableEq, Repr

/-- The struct `types.FrontendInfo`. -/
structure FrontendInfo where
  URL : String
  deriving DecidableEq, Repr

/-- The struct `types.SMTPInfo`. -/
structure SMTPInfo where
  Server : String
  Port : String
  Username : String
  Password : String
  DoNotReplyName : String
  DoNotReplyEmail : String
  DevEmail : String
  deriving DecidableEq, Repr

/-- The struct `types.Client`. -/
structure Client where
  Name : String
  SanitizedClientName : String
  Domain : String
  DatabaseHost : String
  DatabaseUser : String
  BackendBranch : String
  FrontendBranch : String
  SMTPInfo : SMTPInfo
  FrontendInfo : FrontendInfo
  BackendInfo : BackendInfo
  deriving DecidableEq, Repr

/-- The struct `types.ResourceNames`. -/
structure ResourceNames where
  S3Bucket : String
  DatabaseMain : String
  DatabaseHangfire : String
  DOApp : String
  VercelProject : String
  FrontendURL : String
  BackendURL : String
  deriving DecidableEq, Repr

/-- The struct `types.FrontendEnvironment`. -/
structure FrontendEnvironment where
  S3URL : String
  StrapiURL : String
  DefaultLanguage : String
  FrontURL : String
  ValidationTime : String
  AmazonEnv : String
  RevalidationToken : String
  ForcedLoginTimeInMs : String
  deriving DecidableEq, Repr

/-- The struct `types.BackendEnvironment`; a Go map with string keys is the list of its
entries, in the order the source writes them. -/
structure BackendEnvironment where
  AppLevelVars : List (String × godo.AppVariableDefinition)
  ComponentLevelVars : List (String × godo.AppVariableDefinition)
  deriving DecidableEq, Repr

/-- The struct `types.DeploymentEnvironment`. -/
structure DeploymentEnvironment where
  ResourceNames : ResourceNames
  Frontend : FrontendEnvironment
  Backend : BackendEnvironment
  deriving DecidableEq, Repr

/-- The struct `types.JWTDefaults`. -/
structure JWTDefaults where
  Issuer : String
  Audience : String
  Key : String
  ExpirationMinutes : String
  deriving DecidableEq, Repr

/-- The struct `types.FrontendDefaults`. -/
structure FrontendDefaults where
  DefaultLanguage : String
  ValidationTime : String
  AmazonEnv : String
  RevalidationToken : String
  ForcedLoginTimeInMs : String
  BuildCommand : String
  InstallCommand : String
  FrameworkPreset : String
  deriving DecidableEq, Repr

/-- The struct `types.GitRepositoryDefaults`. -/
structure GitRepositoryDefaults where
  BackendRepo : String
  FrontendRepo : String
  Branch : String
  deriving DecidableEq, Repr

/-- The struct `types.DeploymentDefaults`. -/
structure DeploymentDefaults where
  JWT : JWTDefaults
  Frontend : FrontendDefaults
  S3Path : String
  GitRepository : GitRepositoryDefaults
  deriving DecidableEq, Repr

/-- The struct `types.DigitalOceanEnvVars`. -/
structure DigitalOceanEnvVars where
  AppEnvs : List (String × godo.AppVariableDefinition)
  ComponentEnvs : List (String × godo.AppVariableDefinition)
  deriving DecidableEq, Repr

/-- The struct `types.VercelEnvVariable`; the field `Type` of the source is `Type_` here. -/
structure VercelEnvVariable where
  Key : String
  Target : String
  Value : String
  Type_ : String
  GitBranch : String
  deriving DecidableEq, Repr

end types

/-! ## Package `resources` -/

namespace resources

/-- The function `resources.generateS3BucketName`. -/
def generateS3BucketName (sanitizedClientName : String) (cfg : config.Config) : String :=
  cfg.Application.NamePrefix ++ "-" ++ sanitizedClientName

/-- The function `resources.generateDOAppName`. -/
def generateDOAppName (sanitizedClientName : String) (cfg : config.Config) : String :=
  cfg.Application.NamePrefix ++ "-" ++ sanitizedClientName

/-- The function `resources.generateFrontendURL`. -/
def generateFrontendURL (sanitizedClientName : String) (cfg : config.Config) : String :=
  "https://" ++ sanitizedClientName ++ "-" ++ cfg.Application.NamePrefix ++ ".vercel.app"

/-- The function `resources.GenerateResourceNames`. -/
def GenerateResourceNames (sanitizedClientName : String) (cfg : config.Config) :
    types.ResourceNames :=
  { S3Bucket := generateS3BucketName sanitizedClientName cfg,
    DatabaseMain := sanitizedClientName,
    DatabaseHangfire := sanitizedClientName ++ "-hf",
    DOApp := generateDOAppName sanitizedClientName cfg,
    VercelProject := sanitizedClientName,
    FrontendURL := generateFrontendURL sanitizedClientName cfg,
    BackendURL := "" }

/-- The function `resources.validateS3BucketName`. -/
def validateS3BucketName (unicodeLower : Char → Char) (bucketName : String) : Option Error :=
  if len bucketName < 3 ∨ len bucketName > 63 then
    some (Error.new "bucket name must be between 3 and 63 characters")
  else if strings.Contains bucketName "_" then
    some (Error.new "bucket name cannot contain underscores")
  else if strings.Contains bucketName " " then
    some (Error.new "bucket name cannot contain spaces")
  else if bucketName ≠ strings.ToLower unicodeLower bucketName then
    some (Error.new "bucket name must be lowercase")
  else
    none

/-- The function `resources.validateDatabaseName`. -/
def validateDatabaseName (dbName : String) : Option Error :=
  if len dbName = 0 then
    some (Error.new "database name cannot be empty")
  else if len dbName > 63 then
    some (Error.new "database name cannot exceed 63 characters")
  else
    none

/-- The function `resources.ValidateResourceNames`. -/
def ValidateResourceNames (unicodeLower : Char → Char) (names : types.ResourceNames) :
    Option Error :=
  match validateS3BucketName unicodeLower names.S3Bucket with
  | some err => some (Error.wrapf "invalid S3 bucket name" err)
  | none =>
    match validateDatabaseName names.DatabaseMain with
    | some err => some (Error.wrapf "invalid main database name" err)
    | none =>
      match validateDatabaseName names.DatabaseHangfire with
      | some err => some (Error.wrapf "invalid hangfire database name" err)
      | none => none

/-- The function `resources.GetDeploymentDefaults`. -/
def GetDeploymentDefaults (cfg : config.Config) : types.DeploymentDefaults :=
  { JWT :=
      { Issuer := "http://localhost",
        Audience := "http://localhost",
        Key := "SomeLongJWTKeyHere",
        ExpirationMinutes := "20" },
    Frontend :=
      { DefaultLanguage := "en",
        ValidationTime := "907200",
        AmazonEnv := "prod",
        RevalidationToken := "GP7goH9yvlNh2419midDws16hANf6Mvz",
        ForcedLoginTimeInMs := "5000",
        BuildCommand := "sh vercel-script.sh && npm run codegen && npm run build",
        InstallCommand := "npm install",
        FrameworkPreset := "nextjs" },
    S3Path := "public",
    GitRepository :=
      { BackendRepo := cfg.Repository.Backend,
        FrontendRepo := cfg.Repository.Frontend,
        Branch := "master" } }

end resources

/-! ## Package `envvars` -/

namespace envvars

/-- The function `envvars.generateFrontendEnvironment`. -/
def generateFrontendEnvironment (resourceNames : types.ResourceNames)
    (defaults : types.DeploymentDefaults) (client : types.Client) : types.FrontendEnvironment :=
  let backendURL :=
    if client.BackendInfo.URL ≠ "" then client.BackendInfo.URL else resourceNames.BackendURL
  let frontendURL :=
    if client.FrontendInfo.URL ≠ "" then client.FrontendInfo.URL else resourceNames.FrontendURL
  { S3URL := "https://" ++ resourceNames.S3Bucket ++ ".s3.amazonaws.com",
    StrapiURL := backendURL,
    DefaultLanguage := defaults.Frontend.DefaultLanguage,
    FrontURL := frontendURL,
    ValidationTime := defaults.Frontend.ValidationTime,
    AmazonEnv := defaults.Frontend.AmazonEnv,
    RevalidationToken := defaults.Frontend.RevalidationToken,
    ForcedLoginTimeInMs := defaults.Frontend.ForcedLoginTimeInMs }

/-- The loop of `generateBackendEnvironment` that turns a map of strings into a map of
`godo.AppVariableDefinition` with the same keys. -/
def toDefinitions (vars : List (String × String)) :
    List (String × godo.AppVariableDefinition) :=
  vars.map (fun kv =>
    (kv.1,
      { Key := kv.1,
        Value := kv.2,
        Scope := godo.AppVariableScope_RunAndBuildTime,
        Type_ := godo.AppVariableType_General }))

/-- The function `envvars.generateBackendEnvironment`. -/
def generateBackendEnvironment (resourceNames : types.ResourceNames)
    (defaults : types.DeploymentDefaults) (client : types.Client) : types.BackendEnvironment :=
  let appLevelVars : List (String × String) :=
    [ ("Security_JWT_Issuer", defaults.JWT.Issuer),
      ("Security_JWT_Audience", defaults.JWT.Audience),
      ("Security_JWT_Key", defaults.JWT.Key),
      ("Security_JWT_ExpirationMinutes", defaults.JWT.ExpirationMinutes) ]
  let appLevelEnvVars := toDefinitions appLevelVars
  let frontendURL :=
    if client.FrontendInfo.URL ≠ "" then client.FrontendInfo.URL else resourceNames.FrontendURL
  let backendURL :=
    if client.BackendInfo.URL ≠ "" then client.BackendInfo.URL else resourceNames.BackendURL
  let componentLevelVars : List (String × String) :=
    [ ("ConnectionStrings__NextGenDBContext",
        "Server=" ++ client.DatabaseHost ++ ";Database=" ++ resourceNames.DatabaseMain ++
          ";Username=" ++ client.DatabaseUser ++ ";Password=" ++
          client.BackendInfo.DatabasePassword ++ ";IncludeErrorDetail=true"),
      ("ConnectionStrings__Hangfire",
        "Server=" ++ client.DatabaseHost ++ ";Database=" ++ resourceNames.DatabaseHangfire ++
          ";Username=" ++ client.DatabaseUser ++ ";Password=" ++
          client.BackendInfo.DatabasePassword),
      ("SMTP_Server", client.SMTPInfo.Server),
      ("SMTP_Port", client.SMTPInfo.Port),
      ("SMTP_Username", client.SMTPInfo.Username),
      ("SMTP_Password", client.SMTPInfo.Password),
      ("SMTP_DoNotReplyName", client.SMTPInfo.DoNotReplyName),
      ("SMTP_DoNotReplyEmail", client.SMTPInfo.DoNotReplyEmail),
      ("SMTP_DevEmail", client.SMTPInfo.DevEmail),
      ("Paths_MediaPath", "https://" ++ resourceNames.S3Bucket ++ ".s3.amazonaws.com"),
      ("Paths_FrontEndPath", frontendURL),
      ("Paths_BackendPath", backendURL),
      ("AWS_S3_BUCKET", resourceNames.S3Bucket),
      ("AWS_BUCKET_NAME", resourceNames.S3Bucket),
      ("AWS_S3_PATH", defaults.S3Path) ]
  let componentLevelEnvVars := toDefinitions componentLevelVars
  { AppLevelVars := appLevelEnvVars, ComponentLevelVars := componentLevelEnvVars }

/-- The function `envvars.GenerateDeploymentEnvironment`. -/
def GenerateDeploymentEnvironment (unicodeLower : Char → Char) (client : types.Client)
    (cfg : config.Config) : Except Error types.DeploymentEnvironment :=
  let resourceNames := resources.GenerateResourceNames client.SanitizedClientName cfg
  let defaults := resources.GetDeploymentDefaults cfg
  match resources.ValidateResourceNames unicodeLower resourceNames with
  | some err => Except.error (Error.wrapf "invalid resource names" err)
  | none =>
    let frontend := generateFrontendEnvironment resourceNames defaults client
    let backend := generateBackendEnvironment resourceNames defaults client
    Except.ok { ResourceNames := resourceNames, Frontend := frontend, Backend := backend }

/-- The function `envvars.GenerateVercelEnvironmentVariables`. -/
def GenerateVercelEnvironmentVariables (unicodeLower : Char → Char) (client : types.Client)
    (cfg : config.Config) : Except Error (List types.VercelEnvVariable) :=
  let resourceNames := resources.GenerateResourceNames client.SanitizedClientName cfg
  let defaults := resources.GetDeploymentDefaults cfg
  match resources.ValidateResourceNames unicodeLower resourceNames with
  | some err => Except.error (Error.wrapf "invalid resource names" err)
  | none =>
    let frontend := generateFrontendEnvironment resourceNames defaults client
    Except.ok
      [ { Key := "NEXT_PUBLIC_S3_URL", Target := "production", Value := frontend.S3URL,
          Type_ := "plain", GitBranch := "" },
        { Key := "NEXT_PUBLIC_STRAPI", Target := "production", Value := frontend.StrapiURL,
          Type_ := "plain", GitBranch := "" },
        { Key := "NEXT_PUBLIC_DEFAULT_LANGUAGE", Target := "production",
          Value := frontend.DefaultLanguage, Type_ := "plain", GitBranch := "" },
        { Key := "NEXT_PUBLIC_FRONT", Target := "production", Value := frontend.FrontURL,
          Type_ := "plain", GitBranch := "" },
        { Key := "NEXT_PUBLIC_VALIDATION", Target := "production",
          Value := frontend.ValidationTime, Type_ := "encrypted", GitBranch := "" },
        { Key := "NEXT_PUBLIC_AMAZON_ENV", Target := "production", Value := frontend.AmazonEnv,
          Type_ := "plain", GitBranch := "" },
        { Key := "NEXT_PUBLIC_REVALIDATION_TOKEN", Target := "production",
          Value := frontend.RevalidationToken, Type_ := "encrypted", GitBranch := "" },
        { Key := "NEXT_PUBLIC_FORCED_LOGIN_TIME_IN_MS", Target := "production",
          Value := frontend.ForcedLoginTimeInMs, Type_ := "plain", GitBranch := "" } ]

end envvars

/-! ## Package `cmd`: the saga `freshInstall`

The provider services (`aws.S3Service`, `database.PostgresService`,
`digitalocean.AppService`, `vercel.ProjectService`) are the collaborators of the saga. Here
each of their methods is an arbitrary function of its arguments and of the state of the
outside world; every call is appended to the list of calls made. -/

namespace cmd

/-- A call of a provider method made by `freshInstall`, with its arguments (the context
apart). -/
inductive Call where
  | NewS3Service (region accessKeyID secretAccessKey : String)
  | CreateBucket (bucketName : String)
  | DeleteBucket (bucketName : String)
  | CreateClientDatabases (mainDBName hangfireDBName : String)
  | DeleteClientDatabases (mainDBName hangfireDBName : String)
  | CreateApp (client : types.Client) (envVars : types.DigitalOceanEnvVars)
      (cfg : config.Config)
  | DeleteApp (appName : String) (cfg : config.Config)
  | UpdateAppEnvironmentVariables (appName : String) (envVars : types.DigitalOceanEnvVars)
      (cfg : config.Config)
  | CreateProject (sanitizedClientName : String) (envVars : List types.VercelEnvVariable)
      (cfg : config.Config)
  | DeleteProject (projectName : String)
  | UpdateProjectEnvironmentVariables (projectName : String)
      (envVars : List types.VercelEnvVariable)
  | CreateDeployment (client : types.Client) (cfg : config.Config)
  deriving DecidableEq, Repr

/-- Whether the call is one of the four delete operations used as compensations. -/
def Call.isCompensation : Call → Bool
  | .DeleteBucket _ => true
  | .DeleteClientDatabases _ _ => true
  | .DeleteApp _ _ => true
  | .DeleteProject _ => true
  | _ => false

/-- The provider methods `freshInstall` calls, as functions of their arguments and of the
state `σ` of the outside world. A method returning `error` yields an `Option Error`; one
returning `(string, error)` yields an `Except Error String`. -/
structure Providers (σ : Type) where
  NewS3Service : String → String → String → σ → Option Error × σ
  CreateBucket : String → σ → Option Error × σ
  DeleteBucket : String → σ → Option Error × σ
  CreateClientDatabases : String → String → σ → Option Error × σ
  DeleteClientDatabases : String → String → σ → Option Error × σ
  CreateApp : types.Client → types.DigitalOceanEnvVars → config.Config → σ →
    Except Error String × σ
  DeleteApp : String → config.Config → σ → Option Error × σ
  UpdateAppEnvironmentVariables : String → types.DigitalOceanEnvVars → config.Config → σ →
    Option Error × σ
  CreateProject : String → List types.VercelEnvVariable → config.Config → σ →
    Except Error String × σ
  DeleteProject : String → σ → Option Error × σ
  UpdateProjectEnvironmentVariables : String → List types.VercelEnvVariable → σ →
    Option Error × σ
  CreateDeployment : types.Client → config.Config → σ → Option Error × σ

/-- The outside world during a run: the state of the providers and the calls made so far,
oldest first. -/
structure World (σ : Type) where
  state : σ
  calls : List Call

/-- Performs one provider call in a world: the call is recorded and the provider's state
advances. -/
def perform {σ α : Type} (c : Call) (f : σ → α × σ) (w : World σ) : α × World σ :=
  ((f w.state).1, { state := (f w.state).2, calls := w.calls ++ [c] })

/-- What `freshInstall` leaves behind: the returned error, the world, the rollback manager
as it stands at the return, the outcome of `ExecuteRollback` when it was called (`none`
when it was not), and the local value of `client` at the return. -/
structure Result (σ : Type) where
  err : Option Error
  world : World σ
  rollbackMgr : rollback.Manager (World σ)
  rollback : Option (rollback.Outcome (World σ))
  client : types.Client

/-- The compensating closure registered as "S3 bucket cleanup". -/
def s3BucketCleanup {σ : Type} (P : Providers σ) (bucketName : String) :
    World σ → Option Error × World σ :=
  fun w =>
    match perform (.DeleteBucket bucketName) (P.DeleteBucket bucketName) w with
    | (some err, w) => (some (Error.wrapf "failed to delete S3 bucket during rollback" err), w)
    | (none, w) => (none, w)

/-- The compensating closure registered as "Database cleanup". -/
def databaseCleanup {σ : Type} (P : Providers σ) (deploymentEnv : types.DeploymentEnvironment) :
    World σ → Option Error × World σ :=
  fun w =>
    match perform
      (.DeleteClientDatabases deploymentEnv.ResourceNames.DatabaseMain
        deploymentEnv.ResourceNames.DatabaseHangfire)
      (P.DeleteClientDatabases deploymentEnv.ResourceNames.DatabaseMain
        deploymentEnv.ResourceNames.DatabaseHangfire) w with
    | (some err, w) => (some (Error.wrapf "failed to delete databases during rollback" err), w)
    | (none, w) => (none, w)

/-- The compensating closure registered as "DigitalOcean app cleanup". -/
def digitalOceanAppCleanup {σ : Type} (P : Providers σ) (client : types.Client)
    (cfg : config.Config) : World σ → Option Error × World σ :=
  fun w =>
    match perform (.DeleteApp client.SanitizedClientName cfg)
      (P.DeleteApp client.SanitizedClientName cfg) w with
    | (some err, w) =>
      (some (Error.wrapf "failed to delete DigitalOcean app during rollback" err), w)
    | (none, w) => (none, w)

/-- The compensating closure registered as "Vercel project cleanup". -/
def vercelProjectCleanup {σ : Type} (P : Providers σ) (client : types.Client) :
    World σ → Option Error × World σ :=
  fun w =>
    match perform (.DeleteProject client.SanitizedClientName)
      (P.DeleteProject client.SanitizedClientName) w with
    | (some err, w) =>
      (some (Error.wrapf "failed to delete Vercel project during rollback" err), w)
    | (none, w) => (none, w)

/-- The function `cmd.freshInstall`, run in the world `w`. The local variable `client` is
updated as in the source once the backend URL and the frontend URL are known. -/
def freshInstall {σ : Type} (unicodeLower : Char → Char) (P : Providers σ)
    (client : types.Client) (cfg : config.Config) (w : World σ) : Result σ :=
  let rollbackMgr : rollback.Manager (World σ) := rollback.NewManager
  match envvars.GenerateDeploymentEnvironment unicodeLower client cfg with
  | .error err =>
    ⟨some (Error.wrapf "failed to generate deployment environment" err), w, rollbackMgr, none,
      client⟩
  | .ok deploymentEnv =>
  let bucketName := deploymentEnv.ResourceNames.S3Bucket
  match perform (.NewS3Service cfg.AWS.Region cfg.AWS.AccessKeyID cfg.AWS.SecretAccessKey)
    (P.NewS3Service cfg.AWS.Region cfg.AWS.AccessKeyID cfg.AWS.SecretAccessKey) w with
  | (some err, w) =>
    ⟨some (Error.wrapf "failed to create S3 service" err), w, rollbackMgr, none, client⟩
  | (none, w) =>
  match perform (.CreateBucket bucketName) (P.CreateBucket bucketName) w with
  | (some err, w) =>
    ⟨some (Error.wrapf "failed to setup AWS S3" err), w, rollbackMgr, none, client⟩
  | (none, w) =>
  let rollbackMgr := rollbackMgr.AddAction "S3 bucket cleanup" (s3BucketCleanup P bucketName)
  match perform
    (.CreateClientDatabases deploymentEnv.ResourceNames.DatabaseMain
      deploymentEnv.ResourceNames.DatabaseHangfire)
    (P.CreateClientDatabases deploymentEnv.ResourceNames.DatabaseMain
      deploymentEnv.ResourceNames.DatabaseHangfire) w with
  | (some err, w) =>
    let rb := rollbackMgr.ExecuteRollback w
    ⟨some (Error.wrapf "failed to setup database" err), rb.state, rb.manager, some rb, client⟩
  | (none, w) =>
  let rollbackMgr := rollbackMgr.AddAction "Database cleanup" (databaseCleanup P deploymentEnv)
  let backendEnvVars : types.DigitalOceanEnvVars :=
    { AppEnvs := deploymentEnv.Backend.AppLevelVars,
      ComponentEnvs := deploymentEnv.Backend.ComponentLevelVars }
  match perform (.CreateApp client backendEnvVars cfg) (P.CreateApp client backendEnvVars cfg)
    w with
  | (.error err, w) =>
    let rb := rollbackMgr.ExecuteRollback w
    ⟨some (Error.wrapf "failed to setup DigitalOcean" err), rb.state, rb.manager, some rb,
      client⟩
  | (.ok backendURL, w) =>
  let rollbackMgr :=
    rollbackMgr.AddAction "DigitalOcean app cleanup" (digitalOceanAppCleanup P client cfg)
  let client := { client with BackendInfo := { client.BackendInfo with URL := backendURL } }
  match envvars.GenerateVercelEnvironmentVariables unicodeLower client cfg with
  | .error err =>
    let rb := rollbackMgr.ExecuteRollback w
    ⟨some (Error.wrapf "failed to generate Vercel environment variables" err), rb.state,
      rb.manager, some rb, client⟩
  | .ok frontendEnvVars =>
  match perform (.CreateProject client.SanitizedClientName frontendEnvVars cfg)
    (P.CreateProject client.SanitizedClientName frontendEnvVars cfg) w with
  | (.error err, w) =>
    let rb := rollbackMgr.ExecuteRollback w
    ⟨some (Error.wrapf "failed to setup Vercel" err), rb.state, rb.manager, some rb, client⟩
  | (.ok frontendURL, w) =>
  let rollbackMgr :=
    rollbackMgr.AddAction "Vercel project cleanup" (vercelProjectCleanup P client)
  let client := { client with FrontendInfo := { client.FrontendInfo with URL := frontendURL } }
  match envvars.GenerateVercelEnvironmentVariables unicodeLower client cfg with
  | .error err =>
    ⟨some (Error.wrapf "failed to generate updated Vercel environment variables" err), w,
      rollbackMgr, none, client⟩
  | .ok updatedFrontendEnvVars =>
  match perform
    (.UpdateProjectEnvironmentVariables client.SanitizedClientName updatedFrontendEnvVars)
    (P.UpdateProjectEnvironmentVariables client.SanitizedClientName updatedFrontendEnvVars)
    w with
  | (some err, w) =>
    ⟨some (Error.wrapf "failed to update Vercel environment variables" err), w, rollbackMgr,
      none, client⟩
  | (none, w) =>
  match perform (.CreateDeployment client cfg) (P.CreateDeployment client cfg) w with
  | (some err, w) =>
    ⟨some (Error.wrapf "failed to create Vercel deployment" err), w, rollbackMgr, none, client⟩
  | (none, w) =>
  match envvars.GenerateDeploymentEnvironment unicodeLower client cfg with
  | .error err =>
    ⟨some (Error.wrapf "failed to generate updated deployment environment" err), w,
      rollbackMgr, none, client⟩
  | .ok updatedBackendEnv =>
  let updatedBackendEnvVars : types.DigitalOceanEnvVars :=
    { AppEnvs := updatedBackendEnv.Backend.AppLevelVars,
      ComponentEnvs := updatedBackendEnv.Backend.ComponentLevelVars }
  match perform
    (.UpdateAppEnvironmentVariables client.SanitizedClientName updatedBackendEnvVars cfg)
    (P.UpdateAppEnvironmentVariables client.SanitizedClientName updatedBackendEnvVars cfg)
    w with
  | (some err, w) =>
    ⟨some (Error.wrapf "failed to update DigitalOcean app environment variables" err), w,
      rollbackMgr, none, client⟩
  | (none, w) =>
    ⟨none, w, rollbackMgr, none, client⟩

/-- The compensations run, as provider calls: the delete calls of a list of calls, in
order. -/
def compensations (calls : List Call) : List Call :=
  calls.filter Call.isCompensation

/-- The names of the compensating actions `ExecuteRollback` invoked in a run, in order;
empty when `ExecuteRollback` was not called. -/
def Result.invokedNames {σ : Type} (r : Result σ) : List String :=
  match r.rollback with
  | none => []
  | some rb => rb.invoked.map (fun inv => inv.action.Name)

/-- The steps of `freshInstall` that call a provider. -/
inductive Step where
  | newS3Service
  | createBucket
  | createClientDatabases
  | createApp
  | createProject
  | updateProjectEnvironmentVariables
  | createDeployment
  | updateAppEnvironmentVariables
  | deleteBucket
  | deleteClientDatabases
  | deleteApp
  | deleteProject
  deriving DecidableEq, Repr

/-- The Go name of the method a step calls. -/
def Step.name : Step → String
  | .newS3Service => "NewS3Service"
  | .createBucket => "CreateBucket"
  | .createClientDatabases => "CreateClientDatabases"
  | .createApp => "CreateApp"
  | .createProject => "CreateProject"
  | .updateProjectEnvironmentVariables => "UpdateProjectEnvironmentVariables"
  | .createDeployment => "CreateDeployment"
  | .updateAppEnvironmentVariables => "UpdateAppEnvironmentVariables"
  | .deleteBucket => "DeleteBucket"
  | .deleteClientDatabases => "DeleteClientDatabases"
  | .deleteApp => "DeleteApp"
  | .deleteProject => "DeleteProject"

/-- Providers for examples, with no state of their own (`Unit`): the steps listed in
`failing` return an error that names the step, every other step succeeds; `CreateApp` and
`CreateProject` return fixed URLs. -/
def scripted (failing : List Step) : Providers Unit :=
  let res : Step → Option Error := fun st =>
    if st ∈ failing then some (Error.new st.name) else none
  let url : Step → String → Except Error String := fun st u =>
    if st ∈ failing then Except.error (Error.new st.name) else Except.ok u
  { NewS3Service := fun _ _ _ s => (res .newS3Service, s),
    CreateBucket := fun _ s => (res .createBucket, s),
    DeleteBucket := fun _ s => (res .deleteBucket, s),
    CreateClientDatabases := fun _ _ s => (res .createClientDatabases, s),
    DeleteClientDatabases := fun _ _ s => (res .deleteClientDatabases, s),
    CreateApp := fun _ _ _ s => (url .createApp "https://backend.example", s),
    DeleteApp := fun _ _ s => (res .deleteApp, s),
    UpdateAppEnvironmentVariables := fun _ _ _ s => (res .updateAppEnvironmentVariables, s),
    CreateProject := fun _ _ _ s => (url .createProject "https://frontend.example", s),
    DeleteProject := fun _ s => (res .deleteProject, s),
    UpdateProjectEnvironmentVariables := fun _ _ s =>
      (res .updateProjectEnvironmentVariables, s),
    CreateDeployment := fun _ _ s => (res .createDeployment, s) }

/-- A configuration for examples; the name prefix is "easy". -/
def exampleConfig : config.Config :=
  { Database :=
      { Host := "db.example", Port := 5432, User := "postgres", Password := "pw",
        DBName := "postgres" },
    Vercel := { Token := "vt", TeamID := "team", FrontendRepoUuid := "uuid" },
    AWS := { Region := "us-east-1", AccessKeyID := "id", SecretAccessKey := "key" },
    DO := { Token := "dt" },
    SMTP :=
      { Server := "smtp.example", Username := "user", DoNotReplyEmail := "no@x.io",
        DevEmail := "dev@x.io" },
    Repository := { Backend := "org/backend", Frontend := "org/frontend" },
    Application := { NamePrefix := "easy" } }

/-- A client for examples: "Acme Co", sanitized to "acme-co", no URL known yet. -/
def exampleClient : types.Client :=
  { Name := "Acme Co", SanitizedClientName := "acme-co", Domain := "",
    DatabaseHost := "db.example", DatabaseUser := "postgres", BackendBranch := "master",
    FrontendBranch := "master",
    SMTPInfo :=
      { Server := "smtp.example", Port := "587", Username := "user", Password := "pw",
        DoNotReplyName := "Do Not Reply", DoNotReplyEmail := "no@x.io",
        DevEmail := "dev@x.io" },
    FrontendInfo := { URL := "" },
    BackendInfo := { URL := "", DatabasePassword := "pw" } }

/-- The environment `GenerateDeploymentEnvironment` yields for the example client. -/
def exampleEnvironment : types.DeploymentEnvironment :=
  { ResourceNames := resources.GenerateResourceNames "acme-co" exampleConfig,
    Frontend :=
      envvars.generateFrontendEnvironment (resources.GenerateResourceNames "acme-co" exampleConfig)
        (resources.GetDeploymentDefaults exampleConfig) exampleClient,
    Backend :=
      envvars.generateBackendEnvironment (resources.GenerateResourceNames "acme-co" exampleConfig)
        (resources.GetDeploymentDefaults exampleConfig) exampleClient }

/-- The world before a run: no call made yet. -/
def World.fresh {σ : Type} (s : σ) : World σ :=
  { state := s, calls := [] }

end cmd

/-! ## Packages `unicode`, `strings` (continued) and `utils` -/

namespace unicode

/-- The function `unicode.IsSpace`: the runes with Unicode's White Space property. -/
def IsSpace (r : Char) : Bool :=
  (0x09 ≤ r.toNat ∧ r.toNat ≤ 0x0D) ∨ r.toNat = 0x20 ∨ r.toNat = 0x85 ∨ r.toNat = 0xA0 ∨
    r.toNat = 0x1680 ∨ (0x2000 ≤ r.toNat ∧ r.toNat ≤ 0x200A) ∨ r.toNat = 0x2028 ∨
    r.toNat = 0x2029 ∨ r.toNat = 0x202F ∨ r.toNat = 0x205F ∨ r.toNat = 0x3000

end unicode

namespace strings

/-- The function `strings.TrimSpace`: the string without its leading and trailing white
space. -/
def TrimSpace (s : String) : String :=
  String.mk ((s.data.dropWhile unicode.IsSpace).rdropWhile unicode.IsSpace)

/-- The scan of `strings.ReplaceAll` for a non-empty `old`: `skip` counts the runes of a
match still to pass over; with `skip = 0`, a match of `old` at the current position is
replaced by `new`, and any other rune is copied. -/
def replaceFrom (old new : List Char) : Nat → List Char → List Char
  | _, [] => []
  | skip + 1, _ :: cs => replaceFrom old new skip cs
  | 0, c :: cs =>
    if old.isPrefixOf (c :: cs) then new ++ replaceFrom old new (old.length - 1) cs
    else c :: replaceFrom old new 0 cs

/-- The function `strings.ReplaceAll`: the non-overlapping matches of `old`, leftmost
first, are replaced by `new`; an empty `old` matches before every rune and at the end. -/
def ReplaceAll (s old new : String) : String :=
  if old.data.isEmpty then
    String.mk (new.data ++ s.data.flatMap (fun c => c :: new.data))
  else
    String.mk (replaceFrom old.data new.data 0 s.data)

end strings

namespace utils

/-- The function `utils.SanitizeClientName`. -/
def SanitizeClientName (unicodeLower : Char → Char) (clientName : String) : String :=
  let sanitized := strings.TrimSpace clientName
  let sanitized := strings.ToLower unicodeLower sanitized
  strings.ReplaceAll sanitized " " "-"

end utils

/-! ## Package `digitalocean`: waiting for a deployment -/

namespace godo

/-- The struct `godo.Deployment`, with the fields the program reads. -/
structure Deployment where
  ID : String
  Phase : String
  deriving DecidableEq, Repr

/-- The struct `godo.AppServiceSpec`, with the fields the program sets; `Repo`, `Branch`
and `DeployOnPush` are those of its `Bitbucket` source. -/
structure AppServiceSpec where
  Name : String
  SourceDir : String
  DockerfilePath : String
  Repo : String
  Branch : String
  DeployOnPush : Bool
  HTTPPort : Int
  InstanceCount : Int
  InstanceSizeSlug : String
  Envs : List AppVariableDefinition
  deriving DecidableEq, Repr

/-- The struct `godo.AppSpec`, with the fields the program reads or sets; `Services` is a
slice of pointers, each of which may be nil. -/
structure AppSpec where
  Name : String
  Envs : List AppVariableDefinition
  Region : String
  Services : List (Option AppServiceSpec)
  deriving DecidableEq, Repr

/-- The struct `godo.App`, with what the program reads of it: `InProgressDeployment` and
`Spec` are pointers that may be nil, `LastDeploymentActiveAtIsZero` is the value of
`app.LastDeploymentActiveAt.IsZero()`, and `LiveURL` is what `GetLiveURL()` returns. An app
written without `ID` and `Spec` has the zero values: the empty identifier and a nil
`Spec`. -/
structure App where
  InProgressDeployment : Option Deployment
  LastDeploymentActiveAtIsZero : Bool
  LiveURL : String
  ID : String := ""
  Spec : Option AppSpec := none
  deriving DecidableEq, Repr

/-- The two methods of `godo.Client.Apps` that `WaitForAppDeploymentAndGetURL` calls, as
functions of their arguments (the context apart) and of the state `σ` of the provider. -/
structure AppsService (σ : Type) where
  Get : String → σ → Except Error App × σ
  GetDeployment : String → String → σ → Except Error Deployment × σ

end godo

namespace digitalocean

/-- A request sent to the provider while waiting. -/
inductive Poll where
  | Get (appID : String)
  | GetDeployment (appID deploymentID : String)
  deriving DecidableEq, Repr

/-- What the closure retried by `WaitForAppDeploymentAndGetURL` acts on: the state of the
provider, the captured variable `appURL`, and the requests sent so far, oldest first. -/
structure WaitState (σ : Type) where
  api : σ
  appURL : String
  polls : List Poll

/-- The end of the retried closure, from `liveURL := app.GetLiveURL()` on. -/
def waitOperation.finish {σ : Type} (app : godo.App) (st : WaitState σ) :
    Option Error × WaitState σ :=
  let liveURL := app.LiveURL
  if liveURL = "" then
    (some (Error.new "app URL not available yet"), st)
  else
    (none, { st with appURL := liveURL })

/-- The closure that `WaitForAppDeploymentAndGetURL` hands to `retry.Do`: one poll of the
deployment. -/
def waitOperation {σ : Type} (apps : godo.AppsService σ) (appID : String) :
    WaitState σ → Option Error × WaitState σ :=
  fun st =>
    match apps.Get appID st.api with
    | (.error err, s) =>
      (some (Error.wrapf "failed to get app" err),
        { st with api := s, polls := st.polls ++ [Poll.Get appID] })
    | (.ok app, s) =>
      let st : WaitState σ := { st with api := s, polls := st.polls ++ [Poll.Get appID] }
      if app.InProgressDeployment.isNone ∧ app.LastDeploymentActiveAtIsZero = true then
        (some (Error.new "app deployment not started yet"), st)
      else
        match app.InProgressDeployment with
        | none => waitOperation.finish app st
        | some inProgress =>
          if inProgress.ID ≠ "" then
            match apps.GetDeployment appID inProgress.ID st.api with
            | (.error err, s) =>
              (some (Error.wrapf "failed to get deployment" err),
                { st with api := s,
                          polls := st.polls ++ [Poll.GetDeployment appID inProgress.ID] })
            | (.ok deployment, s) =>
              let st : WaitState σ :=
                { st with api := s,
                          polls := st.polls ++ [Poll.GetDeployment appID inProgress.ID] }
              let phase := deployment.Phase
              if phase = "ERROR" ∨ phase = "CANCELED" then
                (some (Error.new ("deployment failed with phase: " ++ phase)), st)
              else if phase ≠ "ACTIVE" then
                (some (Error.new ("deployment still in progress, phase: " ++ phase)), st)
              else
                waitOperation.finish app st
          else
            waitOperation.finish app st

/-- The retry policy of `WaitForAppDeploymentAndGetURL`: 45 attempts, 20 s apart. -/
def waitRetryConfig : retry.Config :=
  { MaxAttempts := 45, Delay := 20 * 1000000000, Backoff := 0 }

/-- Result of `WaitForAppDeploymentAndGetURL`: the returned pair, the state the wait ends
in (provider state and requests sent), and the trace of the run of `retry.Do`. -/
structure WaitOutcome (σ : Type) where
  result : Except Error String
  state : WaitState σ
  trace : List retry.Event

/-- The method `AppService.WaitForAppDeploymentAndGetURL`, started in provider state `s`. -/
def WaitForAppDeploymentAndGetURL {σ : Type} (ctx : retry.Context)
    (apps : godo.AppsService σ) (appID : String) (s : σ) : WaitOutcome σ :=
  let retryConfig := waitRetryConfig
  let r := retry.Do ctx retryConfig (waitOperation apps appID)
    { api := s, appURL := "", polls := [] }
  match r.err with
  | some err =>
    { result := Except.error
        (Error.wrapf "app deployment did not complete within timeout" err),
      state := r.state, trace := r.trace }
  | none => { result := Except.ok r.state.appURL, state := r.state, trace := r.trace }

/-- A provider for examples. Its state counts the `Get` requests answered. Every `Get`
shows a deployment in progress, with identifier "d1", and the live URL
"https://backend.example"; the `GetDeployment` that follows the `Get` number `n` reports
the phase number `n` of the list `phases`, and "ACTIVE" once the list is exhausted. -/
def phased (phases : List String) : godo.AppsService Nat :=
  { Get := fun _ n =>
      (Except.ok
        { InProgressDeployment := some { ID := "d1", Phase := "" },
          LastDeploymentActiveAtIsZero := true,
          LiveURL := "https://backend.example" }, n + 1),
    GetDeployment := fun _ deploymentID n =>
      (Except.ok { ID := deploymentID, Phase := (phases.get? (n - 1)).getD "ACTIVE" }, n) }

end digitalocean

/-! ## Examples for `cmd.freshInstall` on its happy path -/

namespace cmd

/-- The example client once the URLs of the backend and of the frontend are known. -/
def exampleClientWith (backendURL frontendURL : String) : types.Client :=
  { exampleClient with
    FrontendInfo := { URL := frontendURL },
    BackendInfo := { exampleClient.BackendInfo with URL := backendURL } }

/-- The variables `GenerateVercelEnvironmentVariables` yields for a client under the example
configuration (the empty list if it fails). -/
def exampleVercelVariables (client : types.Client) : List types.VercelEnvVariable :=
  match envvars.GenerateVercelEnvironmentVariables id client exampleConfig with
  | .ok vars => vars
  | .error _ => []

/-- The environment `GenerateDeploymentEnvironment` yields for a client under the example
configuration (the initial example environment if it fails). -/
def exampleEnvironmentOf (client : types.Client) : types.DeploymentEnvironment :=
  match envvars.GenerateDeploymentEnvironment id client exampleConfig with
  | .ok env => env
  | .error _ => exampleEnvironment

end cmd

/-! ## Package `retry`: time spent waiting -/

namespace retry

end retry

/-! ## Package `validation` -/

namespace validation

/-- The class `[a-zA-Z0-9\s\-_]` of `clientNameRegex`. In the syntax of Go's `regexp`
package `\s` is the Perl class `[\t\n\f\r ]`. -/
def clientNameClass (r : Char) : Bool :=
  (0x61 ≤ r.toNat ∧ r.toNat ≤ 0x7A) ∨ (0x41 ≤ r.toNat ∧ r.toNat ≤ 0x5A) ∨
    (0x30 ≤ r.toNat ∧ r.toNat ≤ 0x39) ∨
    r.toNat = 0x09 ∨ r.toNat = 0x0A ∨ r.toNat = 0x0C ∨ r.toNat = 0x0D ∨ r.toNat = 0x20 ∨
    r.toNat = 0x2D ∨ r.toNat = 0x5F

/-- The call `clientNameRegex.MatchString(s)` for the pattern `^[a-zA-Z0-9\s\-_]+$`: the
whole text is one or more runes of the class. -/
def clientNameRegex.MatchString (s : String) : Bool :=
  !s.data.isEmpty && s.data.all clientNameClass

/-- The function `validation.validateClientName`. -/
def validateClientName (name : String) : Option Error :=
  if strings.TrimSpace name = "" then
    some (Error.new "client name cannot be empty")
  else if len name > 50 then
    some (Error.new "client name cannot exceed 50 characters")
  else if !clientNameRegex.MatchString name then
    some (Error.new ("client name contains invalid characters " ++
      "(only alphanumeric, spaces, hyphens, and underscores allowed)"))
  else
    none

/-- The characters the error message of `validateClientName` names as allowed: the ASCII
letters and digits, the space, the hyphen and the underscore. -/
def allowedByMessage (r : Char) : Bool :=
  (0x61 ≤ r.toNat ∧ r.toNat ≤ 0x7A) ∨ (0x41 ≤ r.toNat ∧ r.toNat ≤ 0x5A) ∨
    (0x30 ≤ r.toNat ∧ r.toNat ≤ 0x39) ∨ r.toNat = 0x20 ∨ r.toNat = 0x2D ∨ r.toNat = 0x5F

end validation

/-! ## Error messages -/

set_option linter.dupNamespace false in
mutual

/-- The method `Error()` of an error value: its message. -/
def Error.Error : Error → String
  | .new msg => msg
  | .wrapf msg inner => msg ++ ": " ++ inner.Error
  | .failedAfter attempts lastErr =>
    "operation failed after " ++ toString attempts ++ " attempts: " ++ Error.ErrorOrNil lastErr
  | .rollbackOf name inner => "failed to rollback " ++ name ++ ": " ++ inner.Error
  | .rollbackFailed count errs =>
    toString count ++ " rollback actions failed: [" ++ Error.ErrorList errs ++ "]"

/-- The text `%w` prints for an operand that may be nil. -/
def Error.ErrorOrNil : Option Error → String
  | none => "%!w(<nil>)"
  | some e => e.Error

/-- The messages of a slice of errors as `%v` prints them between the brackets. -/
def Error.ErrorList : List Error → String
  | [] => ""
  | [e] => e.Error
  | e :: es => e.Error ++ " " ++ Error.ErrorList es

end

/-! ## Package `database` -/

namespace sql

/-- The calls of `database/sql` the program makes, as functions of their arguments and of
the state `σ` of the database server: `sql.Open`, `db.Ping` and `db.Exec` (the query and
its arguments). -/
structure DB (σ : Type) where
  Open : String → String → σ → Option Error × σ
  Ping : σ → Option Error × σ
  Exec : String → List String → σ → Option Error × σ

end sql

namespace database

/-- A statement handed to `db.Exec`, with its arguments. -/
structure Statement where
  query : String
  args : List String
  deriving DecidableEq, Repr

/-- The state of a run against the database server: the state of the server and the
statements executed so far, oldest first. -/
structure Session (σ : Type) where
  server : σ
  executed : List Statement

/-- The call `db.Exec(query, args...)` in a session. -/
def exec {σ : Type} (db : sql.DB σ) (query : String) (args : List String) (n : Session σ) :
    Option Error × Session σ :=
  ((db.Exec query args n.server).1,
    { server := (db.Exec query args n.server).2,
      executed := n.executed ++ [{ query := query, args := args }] })

/-- The query of `killConnections`. -/
def killConnectionsQuery : String :=
  "SELECT pg_terminate_backend(pg_stat_activity.pid) \n\t\t\t  FROM pg_stat_activity \n" ++
    "\t\t\t  WHERE pg_stat_activity.datname = $1 AND pid <> pg_backend_pid()"

/-- The method `PostgresService.killConnections`. -/
def killConnections {σ : Type} (db : sql.DB σ) (templateDB : String) (n : Session σ) :
    Option Error × Session σ :=
  exec db killConnectionsQuery [templateDB] n

/-- The method `PostgresService.deleteDatabase`: a failure to terminate the connections is
logged and ignored. -/
def deleteDatabase {σ : Type} (db : sql.DB σ) (dbName : String) (n : Session σ) :
    Option Error × Session σ :=
  let n := (killConnections db dbName n).2
  let query := "DROP DATABASE IF EXISTS \"" ++ dbName ++ "\""
  match exec db query [] n with
  | (some err, n) => (some (Error.wrapf ("failed to drop database " ++ dbName) err), n)
  | (none, n) => (none, n)

/-- The method `PostgresService.isDatabaseNotFoundError`, on a non-nil error. -/
def isDatabaseNotFoundError (err : Error) : Bool :=
  let errMsg := err.Error
  strings.Contains errMsg "does not exist" || strings.Contains errMsg "database not found"

/-- The method `PostgresService.DeleteClientDatabases`, for the configuration `cfg` of the
service, started in the server state `s`. -/
def DeleteClientDatabases {σ : Type} (cfg : config.DatabaseConfig) (db : sql.DB σ)
    (mainDBName hangfireDBName : String) (s : σ) : Option Error × Session σ :=
  let psqlInfo := "host=" ++ cfg.Host ++ " port=" ++ toString cfg.Port ++ " user=" ++
    cfg.User ++ " password=" ++ cfg.Password ++ " dbname=" ++ cfg.DBName ++ " sslmode=disable"
  match db.Open "postgres" psqlInfo s with
  | (some err, s) =>
    (some (Error.wrapf "failed to connect to database" err), { server := s, executed := [] })
  | (none, s) =>
  match db.Ping s with
  | (some err, s) =>
    (some (Error.wrapf "failed to ping database" err), { server := s, executed := [] })
  | (none, s) =>
  let n : Session σ := { server := s, executed := [] }
  match deleteDatabase db mainDBName n with
  | (some err, n) =>
    if !isDatabaseNotFoundError err then
      (some (Error.wrapf ("failed to delete main database " ++ mainDBName) err), n)
    else
      match deleteDatabase db hangfireDBName n with
      | (some err, n) =>
        if !isDatabaseNotFoundError err then
          (some (Error.wrapf ("failed to delete hangfire database " ++ hangfireDBName) err), n)
        else (none, n)
      | (none, n) => (none, n)
  | (none, n) =>
    match deleteDatabase db hangfireDBName n with
    | (some err, n) =>
      if !isDatabaseNotFoundError err then
        (some (Error.wrapf ("failed to delete hangfire database " ++ hangfireDBName) err), n)
      else (none, n)
    | (none, n) => (none, n)

end database

/-! ## Package `vercel` -/

namespace types

/-- The struct `types.VercelGitRepo`; the field `Type` of the source is `Type_` here. -/
structure VercelGitRepo where
  Repo : String
  Type_ : String
  deriving DecidableEq, Repr

/-- The struct `types.CreateVercelProjectBody`. -/
structure CreateVercelProjectBody where
  Name : String
  BuildCommand : String
  InstallCommand : String
  FrameworkPreset : String
  GitRepository : VercelGitRepo
  EnvironmentVariables : List VercelEnvVariable
  deriving DecidableEq, Repr

end types

namespace vercel

/-- The value a request body encodes. The program builds every body with `json.Marshal`
from a value made of strings, for which `json.Marshal` returns no error; the body is kept
here as that value: the project to create, the map `value` / `target` / `type` of a
variable update, or the variable to create. -/
inductive Payload where
  | project (body : types.CreateVercelProjectBody)
  | envUpdate (value : String) (target : List String) (type_ : String)
  | envVar (envVar : types.VercelEnvVariable)
  deriving DecidableEq, Repr

/-- What `generateRequest` puts in a `*http.Request`: method, URL, the two headers it sets,
and the body (`none` for a nil reader). -/
structure Request where
  Method : String
  URL : String
  Authorization : String
  ContentType : String
  Body : Option Payload
  deriving DecidableEq, Repr

/-- What the program reads of a `*http.Response`: the status code and the pair
`io.ReadAll(resp.Body)` returns. -/
structure Response where
  StatusCode : Int
  Body : String
  BodyErr : Option Error

/-- An element of `Domains` in the response `GetProjectDomain` decodes. -/
structure Domain where
  Name : String
  ApexName : String
  ProjectID : String
  Redirect : String
  RedirectStatusCode : Int
  deriving DecidableEq, Repr

/-- An element of `Envs` in the response `UpdateProjectEnvironmentVariables` decodes; the
field `Type` of the source is `Type_` here. -/
structure ExistingEnvVar where
  ID : String
  Key : String
  Value : String
  Target : List String
  Type_ : String
  deriving DecidableEq, Repr

/-- The struct `vercel.ProjectService` with what its methods rely on: the configuration,
the call `p.client.Do(req)` as a function of the request and of the state `σ` of the
provider, the error `http.NewRequestWithContext` returns for a method and a URL (if any),
and the two calls of `json.Unmarshal`, each yielding the decoded list or the error. -/
structure ProjectService (σ : Type) where
  config : config.VercelConfig
  Do : Request → σ → Except Error Response × σ
  NewRequestWithContext : String → String → Option Error
  UnmarshalDomains : String → Except Error (List Domain)
  UnmarshalEnvs : String → Except Error (List ExistingEnvVar)

/-- The provider during a run: its state and the requests sent so far, oldest first. -/
structure Net (σ : Type) where
  state : σ
  sent : List Request

/-- The call `p.client.Do(req)`: the request is recorded and the provider's state
advances. -/
def ProjectService.send {σ : Type} (p : ProjectService σ) (req : Request) (n : Net σ) :
    Except Error Response × Net σ :=
  ((p.Do req n.state).1, { state := (p.Do req n.state).2, sent := n.sent ++ [req] })

/-- The method `ProjectService.generateRequest`. -/
def ProjectService.generateRequest {σ : Type} (p : ProjectService σ) (method path : String)
    (body : Option Payload) : Except Error Request :=
  let vercelAPIURL := "https://api.vercel.com" ++ path ++ "?teamId=" ++ p.config.TeamID
  match p.NewRequestWithContext method vercelAPIURL with
  | some err => .error err
  | none =>
    .ok { Method := method, URL := vercelAPIURL,
          Authorization := "Bearer " ++ p.config.Token,
          ContentType := "application/json", Body := body }

/-- The method `ProjectService.DeleteProject`. -/
def ProjectService.DeleteProject {σ : Type} (p : ProjectService σ) (projectName : String)
    (n : Net σ) : Option Error × Net σ :=
  match p.generateRequest "DELETE" ("/v9/projects/" ++ projectName) none with
  | .error err => (some (Error.wrapf "failed to generate delete request" err), n)
  | .ok req =>
  match p.send req n with
  | (.error err, n) => (some (Error.wrapf "failed to delete Vercel project" err), n)
  | (.ok resp, n) =>
    if resp.StatusCode = 404 then
      (none, n)
    else if resp.StatusCode ≥ 400 then
      (some (Error.new ("Vercel API error during deletion (status " ++
        toString resp.StatusCode ++ "): " ++ resp.Body)), n)
    else
      (none, n)

/-- The loop of `GetProjectDomain` over the domains: the name of the first domain without
redirect, the empty string if there is none. -/
def primaryDomainOf (domains : List Domain) : String :=
  match domains.find? (fun domain => domain.Redirect = "") with
  | some domain => domain.Name
  | none => ""

/-- The method `ProjectService.GetProjectDomain`. -/
def ProjectService.GetProjectDomain {σ : Type} (p : ProjectService σ) (projectName : String)
    (n : Net σ) : Except Error String × Net σ :=
  match p.generateRequest "GET" ("/v9/projects/" ++ projectName ++ "/domains") none with
  | .error err => (.error (Error.wrapf "failed to generate request" err), n)
  | .ok req =>
  match p.send req n with
  | (.error err, n) => (.error (Error.wrapf "failed to get Vercel project domains" err), n)
  | (.ok resp, n) =>
    if resp.StatusCode ≥ 400 then
      (.error (Error.new ("Vercel API error (status " ++ toString resp.StatusCode ++ "): " ++
        resp.Body)), n)
    else
      match resp.BodyErr with
      | some err => (.error (Error.wrapf "failed to read response body" err), n)
      | none =>
        match p.UnmarshalDomains resp.Body with
        | .error err => (.error (Error.wrapf "failed to unmarshal response" err), n)
        | .ok domains =>
          match domains with
          | [] => (.error (Error.new "no domains found for project"), n)
          | first :: _ =>
            let primaryDomain := primaryDomainOf domains
            let primaryDomain := if primaryDomain = "" then first.Name else primaryDomain
            (.ok ("https://" ++ primaryDomain), n)

/-- The method `ProjectService.CreateProject`. -/
def ProjectService.CreateProject {σ : Type} (p : ProjectService σ)
    (sanitizedClientName : String) (envVars : List types.VercelEnvVariable)
    (cfg : config.Config) (n : Net σ) : Except Error String × Net σ :=
  let defaults := resources.GetDeploymentDefaults cfg
  let createProjectBody : types.CreateVercelProjectBody :=
    { Name := sanitizedClientName,
      BuildCommand := defaults.Frontend.BuildCommand,
      InstallCommand := defaults.Frontend.InstallCommand,
      FrameworkPreset := defaults.Frontend.FrameworkPreset,
      GitRepository := { Repo := defaults.GitRepository.FrontendRepo, Type_ := "bitbucket" },
      EnvironmentVariables := envVars }
  match p.generateRequest "POST" "/v11/projects" (some (.project createProjectBody)) with
  | .error err => (.error (Error.wrapf "failed to generate request" err), n)
  | .ok req =>
  match p.send req n with
  | (.error err, n) => (.error (Error.wrapf "failed to create Vercel project" err), n)
  | (.ok resp, n) =>
    if resp.StatusCode ≥ 400 then
      (.error (Error.new ("Vercel API error (status " ++ toString resp.StatusCode ++ "): " ++
        resp.Body)), n)
    else
      match p.GetProjectDomain sanitizedClientName n with
      | (.error err, n) => (.error (Error.wrapf "failed to get project domain" err), n)
      | (.ok domain, n) => (.ok domain, n)

/-- The inner loop of `UpdateProjectEnvironmentVariables`: the `ID` of the first existing
variable with the key, the empty string if there is none. -/
def existingIDOf (existing : List ExistingEnvVar) (key : String) : String :=
  match existing.find? (fun e => e.Key = key) with
  | some e => e.ID
  | none => ""

/-- The outer loop of `UpdateProjectEnvironmentVariables` over the variables `envVars`,
given the decoded existing variables. -/
def ProjectService.UpdateProjectEnvironmentVariables.loop {σ : Type} (p : ProjectService σ)
    (projectName : String) (existing : List ExistingEnvVar) :
    List types.VercelEnvVariable → Net σ → Option Error × Net σ
  | [], n => (none, n)
  | envVar :: rest, n =>
    let existingID := existingIDOf existing envVar.Key
    if existingID ≠ "" then
      match p.generateRequest "PATCH"
        ("/v9/projects/" ++ projectName ++ "/env/" ++ existingID)
        (some (.envUpdate envVar.Value [envVar.Target] envVar.Type_)) with
      | .error err => (some (Error.wrapf "failed to generate update request" err), n)
      | .ok req =>
      match p.send req n with
      | (.error err, n) => (some (Error.wrapf "failed to update env var" err), n)
      | (.ok resp, n) =>
        if resp.StatusCode ≥ 400 then
          (some (Error.new ("Vercel API error updating env var (status " ++
            toString resp.StatusCode ++ "): " ++ resp.Body)), n)
        else
          loop p projectName existing rest n
    else
      match p.generateRequest "POST" ("/v10/projects/" ++ projectName ++ "/env?upsert=true")
        (some (.envVar envVar)) with
      | .error err => (some (Error.wrapf "failed to generate create request" err), n)
      | .ok req =>
      match p.send req n with
      | (.error err, n) => (some (Error.wrapf "failed to create env var" err), n)
      | (.ok resp, n) =>
        if resp.StatusCode ≥ 400 then
          (some (Error.new ("Vercel API error creating env var (status " ++
            toString resp.StatusCode ++ "): " ++ resp.Body)), n)
        else
          loop p projectName existing rest n

/-- The method `ProjectService.UpdateProjectEnvironmentVariables`. -/
def ProjectService.UpdateProjectEnvironmentVariables {σ : Type} (p : ProjectService σ)
    (projectName : String) (envVars : List types.VercelEnvVariable) (n : Net σ) :
    Option Error × Net σ :=
  match p.generateRequest "GET" ("/v10/projects/" ++ projectName ++ "/env") none with
  | .error err => (some (Error.wrapf "failed to generate request" err), n)
  | .ok req =>
  match p.send req n with
  | (.error err, n) => (some (Error.wrapf "failed to get Vercel project env vars" err), n)
  | (.ok resp, n) =>
    if resp.StatusCode ≥ 400 then
      (some (Error.new ("Vercel API error getting env vars (status " ++
        toString resp.StatusCode ++ "): " ++ resp.Body)), n)
    else
      match resp.BodyErr with
      | some err => (some (Error.wrapf "failed to read response body" err), n)
      | none =>
        match p.UnmarshalEnvs resp.Body with
        | .error err => (some (Error.wrapf "failed to unmarshal response" err), n)
        | .ok existing =>
          ProjectService.UpdateProjectEnvironmentVariables.loop p projectName existing envVars n

/-- A provider for examples: every request is answered with the given status and an empty
body, which decodes to the given domains and existing variables. -/
def answering (status : Int) (domains : List Domain) (existing : List ExistingEnvVar) :
    ProjectService Unit :=
  { config := { Token := "token", TeamID := "team", FrontendRepoUuid := "uuid" },
    Do := fun _ s => (.ok { StatusCode := status, Body := "", BodyErr := none }, s),
    NewRequestWithContext := fun _ _ => none,
    UnmarshalDomains := fun _ => .ok domains,
    UnmarshalEnvs := fun _ => .ok existing }

/-- The request `UpdateProjectEnvironmentVariables` writes a variable with, as a function
of the identifier found for its key: an update addressed to that identifier when it is not
empty, a create otherwise. -/
def writeRequest (cfg : config.VercelConfig) (projectName : String)
    (existing : List ExistingEnvVar) (envVar : types.VercelEnvVariable) : Request :=
  if existingIDOf existing envVar.Key ≠ "" then
    { Method := "PATCH",
      URL := "https://api.vercel.com" ++
        ("/v9/projects/" ++ projectName ++ "/env/" ++ existingIDOf existing envVar.Key) ++
        "?teamId=" ++ cfg.TeamID,
      Authorization := "Bearer " ++ cfg.Token, ContentType := "application/json",
      Body := some (.envUpdate envVar.Value [envVar.Target] envVar.Type_) }
  else
    { Method := "POST",
      URL := "https://api.vercel.com" ++
        ("/v10/projects/" ++ projectName ++ "/env?upsert=true") ++ "?teamId=" ++ cfg.TeamID,
      Authorization := "Bearer " ++ cfg.Token, ContentType := "application/json",
      Body := some (.envVar envVar) }

end vercel

/-! ## Panics -/

/-- How a call of a Go function ends: it returns its results, or it panics. -/
inductive Ending (α : Type) where
  | returns (results : α)
  | panics (reason : String)

/-- The reason of the panic raised by reading a field through a nil pointer. -/
def nilDereference : String :=
  "runtime error: invalid memory address or nil pointer dereference"

/-! ## Package `digitalocean`: creating, updating and deleting an app -/

namespace godo

/-- The struct `godo.AppCreateRequest`. -/
structure AppCreateRequest where
  Spec : AppSpec
  deriving DecidableEq, Repr

/-- The struct `godo.AppUpdateRequest`. -/
structure AppUpdateRequest where
  Spec : AppSpec
  deriving DecidableEq, Repr

/-- The methods of `godo.Client.Apps` the program calls: `Get` and `GetDeployment`, and
`Create`, `Update` (whose returned app the program ignores), `Delete` and `List`, as
functions of their arguments (the context and the list options apart) and of the state `σ`
of the provider. The app that `Get` or `Create` returns without error is a non-nil
`*godo.App`; the elements of a listing and the pointer fields of an app may be nil. -/
structure Apps (σ : Type) extends AppsService σ where
  Create : AppCreateRequest → σ → Except Error App × σ
  Update : String → AppUpdateRequest → σ → Option Error × σ
  Delete : String → σ → Option Error × σ
  List : σ → Except Error (List (Option App)) × σ

end godo

namespace digitalocean

/-- A request sent to the provider by `CreateApp`, `DeleteApp` or
`UpdateAppEnvironmentVariables`, the polls of the wait apart. -/
inductive ApiCall where
  | Create (req : godo.AppCreateRequest)
  | Update (appID : String) (req : godo.AppUpdateRequest)
  | Delete (appID : String)
  | List
  deriving DecidableEq, Repr

/-- The order in which the `for ... range` loops over the maps `envVars.AppEnvs` and
`envVars.ComponentEnvs` visit the entries. The Go runtime picks the order of a `range`
over a map, so it is a parameter: each field maps the entries of the map to the entries in
the order visited. -/
structure RangeOrder where
  AppEnvs : List (String × godo.AppVariableDefinition) →
    List (String × godo.AppVariableDefinition)
  ComponentEnvs : List (String × godo.AppVariableDefinition) →
    List (String × godo.AppVariableDefinition)

/-- That a `range` visits every entry of the map once. -/
def RangeOrder.VisitsEachOnce (order : RangeOrder) : Prop :=
  (∀ entries, (order.AppEnvs entries).Perm entries) ∧
    ∀ entries, (order.ComponentEnvs entries).Perm entries

/-- The order of a run in which the entries are visited as they are written. -/
def RangeOrder.asWritten : RangeOrder :=
  { AppEnvs := fun entries => entries, ComponentEnvs := fun entries => entries }

/-- Result of `DeleteApp` and of `UpdateAppEnvironmentVariables`: how the call ended (the
returned error, or a panic), the state of the provider, and the requests sent, oldest
first. -/
structure Outcome (σ : Type) where
  ending : Ending (Option Error)
  state : σ
  calls : List ApiCall

/-- Result of `CreateApp`: how the call ended (the returned pair, or a panic), the state of
the provider, the requests sent before the wait, and the outcome of the wait when it took
place. -/
structure CreateOutcome (σ : Type) where
  result : Ending (Except Error String)
  state : σ
  calls : List ApiCall
  wait : Option (WaitOutcome σ)

/-- The loop of `DeleteApp` and of `UpdateAppEnvironmentVariables` over the listed apps:
it reads `app.Spec.Name` of each app in turn, which panics on a nil app and on an app whose
`Spec` is nil, and stops at the first app whose name is the one looked for. -/
def targetAppOf : List (Option godo.App) → String → Ending (Option godo.App)
  | [], _ => .returns none
  | none :: _, _ => .panics nilDereference
  | some app :: rest, name =>
    match app.Spec with
    | none => .panics nilDereference
    | some spec => if spec.Name = name then .returns (some app) else targetAppOf rest name

/-- The method `AppService.CreateApp`. -/
def CreateApp {σ : Type} (ctx : retry.Context) (order : RangeOrder) (apps : godo.Apps σ)
    (client : types.Client) (envVars : types.DigitalOceanEnvVars) (cfg : config.Config)
    (s : σ) : CreateOutcome σ :=
  let appLevelEnvs := (order.AppEnvs envVars.AppEnvs).map (fun kv => kv.2)
  let createAppReq : godo.AppCreateRequest :=
    { Spec :=
        { Name := cfg.Application.NamePrefix ++ "-" ++ client.SanitizedClientName,
          Envs := appLevelEnvs, Region := "sfo", Services := [] } }
  match apps.Create createAppReq s with
  | (.error err, s) =>
    { result := .returns (.error (Error.wrapf "failed to create DigitalOcean app" err)),
      state := s, calls := [.Create createAppReq], wait := none }
  | (.ok app, s) =>
    let componentLevelEnvs := (order.ComponentEnvs envVars.ComponentEnvs).map (fun kv => kv.2)
    let component : godo.AppServiceSpec :=
      { Name := client.SanitizedClientName, SourceDir := "/", DockerfilePath := "Dockerfile",
        Repo := cfg.Repository.Backend, Branch := client.BackendBranch, DeployOnPush := true,
        HTTPPort := 80, InstanceCount := 1, InstanceSizeSlug := "basic-xxs",
        Envs := componentLevelEnvs }
    match app.Spec with
    | none =>
      { result := .panics nilDereference, state := s, calls := [.Create createAppReq],
        wait := none }
    | some appSpec =>
      let spec : godo.AppSpec :=
        { appSpec with Services := appSpec.Services ++ [some component] }
      let updateRequest : godo.AppUpdateRequest := { Spec := spec }
      match apps.Update app.ID updateRequest s with
      | (some err, s) =>
        { result :=
            .returns (.error (Error.wrapf "failed to update DigitalOcean app with service" err)),
          state := s, calls := [.Create createAppReq, .Update app.ID updateRequest],
          wait := none }
      | (none, s) =>
        let w := WaitForAppDeploymentAndGetURL ctx apps.toAppsService app.ID s
        match w.result with
        | .error err =>
          { result :=
              .returns
                (.error (Error.wrapf "failed to wait for app deployment and get URL" err)),
            state := w.state.api,
            calls := [.Create createAppReq, .Update app.ID updateRequest], wait := some w }
        | .ok appURL =>
          { result := .returns (.ok appURL), state := w.state.api,
            calls := [.Create createAppReq, .Update app.ID updateRequest], wait := some w }

/-- The part of `UpdateAppEnvironmentVariables` that rewrites the spec of the target app:
the app-level variables are replaced; when the spec has a service, the variables of the
first one are replaced and its empty `DockerfilePath` is set, which panics when that first
service is a nil pointer. -/
def withEnvironment (order : RangeOrder) (envVars : types.DigitalOceanEnvVars)
    (targetSpec : godo.AppSpec) : Ending godo.AppSpec :=
  let spec : godo.AppSpec :=
    { targetSpec with Envs := (order.AppEnvs envVars.AppEnvs).map (fun kv => kv.2) }
  match spec.Services with
  | [] => .returns spec
  | none :: _ => .panics nilDereference
  | some service :: services =>
    let service : godo.AppServiceSpec :=
      { service with Envs := (order.ComponentEnvs envVars.ComponentEnvs).map (fun kv => kv.2) }
    let service : godo.AppServiceSpec :=
      if service.DockerfilePath = "" then { service with DockerfilePath := "Dockerfile" }
      else service
    .returns { spec with Services := some service :: services }

/-- The method `AppService.UpdateAppEnvironmentVariables`. -/
def UpdateAppEnvironmentVariables {σ : Type} (order : RangeOrder) (apps : godo.Apps σ)
    (appName : String) (envVars : types.DigitalOceanEnvVars) (cfg : config.Config) (s : σ) :
    Outcome σ :=
  match apps.List s with
  | (.error err, s) =>
    { ending := .returns (some (Error.wrapf "failed to list apps" err)), state := s,
      calls := [.List] }
  | (.ok listed, s) =>
    match targetAppOf listed (cfg.Application.NamePrefix ++ "-" ++ appName) with
    | .panics reason => { ending := .panics reason, state := s, calls := [.List] }
    | .returns none =>
      { ending := .returns (some (Error.new ("app not found: " ++
          cfg.Application.NamePrefix ++ "-" ++ appName))),
        state := s, calls := [.List] }
    | .returns (some targetApp) =>
      match targetApp.Spec with
      | none => { ending := .panics nilDereference, state := s, calls := [.List] }
      | some targetSpec =>
        match withEnvironment order envVars targetSpec with
        | .panics reason => { ending := .panics reason, state := s, calls := [.List] }
        | .returns spec =>
          let updateRequest : godo.AppUpdateRequest := { Spec := spec }
          match apps.Update targetApp.ID updateRequest s with
          | (some err, s) =>
            { ending :=
                .returns (some (Error.wrapf "failed to update app environment variables" err)),
              state := s, calls := [.List, .Update targetApp.ID updateRequest] }
          | (none, s) =>
            { ending := .returns none, state := s,
              calls := [.List, .Update targetApp.ID updateRequest] }

/-- The method `AppService.DeleteApp`. -/
def DeleteApp {σ : Type} (apps : godo.Apps σ) (appName : String) (cfg : config.Config)
    (s : σ) : Outcome σ :=
  match apps.List s with
  | (.error err, s) =>
    { ending := .returns (some (Error.wrapf "failed to list apps" err)), state := s,
      calls := [.List] }
  | (.ok listed, s) =>
    match targetAppOf listed (cfg.Application.NamePrefix ++ "-" ++ appName) with
    | .panics reason => { ending := .panics reason, state := s, calls := [.List] }
    | .returns none => { ending := .returns none, state := s, calls := [.List] }
    | .returns (some targetApp) =>
      match apps.Delete targetApp.ID s with
      | (some err, s) =>
        { ending := .returns (some (Error.wrapf "failed to delete DigitalOcean app" err)),
          state := s, calls := [.List, .Delete targetApp.ID] }
      | (none, s) =>
        { ending := .returns none, state := s, calls := [.List, .Delete targetApp.ID] }

/-- A provider for examples. Its state is the list of the apps that exist. `Create` adds
an app with the requested spec, the identifier "app-1" and a live URL; `Update` replaces
the spec of the app with the identifier; `Delete` removes that app; `Get` returns it, its
deployment being over; `List` returns the apps. -/
def inMemory : godo.Apps (List godo.App) :=
  { Get := fun appID apps =>
      match apps.find? (fun app => app.ID = appID) with
      | some app => (.ok app, apps)
      | none => (.error (Error.new "not found"), apps),
    GetDeployment := fun _ _ apps => (.error (Error.new "not found"), apps),
    Create := fun req apps =>
      (.ok { InProgressDeployment := none, LastDeploymentActiveAtIsZero := false,
             LiveURL := "https://backend.example", ID := "app-1", Spec := some req.Spec },
        apps ++
          [{ InProgressDeployment := none, LastDeploymentActiveAtIsZero := false,
             LiveURL := "https://backend.example", ID := "app-1", Spec := some req.Spec }]),
    Update := fun appID req apps =>
      (none,
        apps.map (fun app => if app.ID = appID then { app with Spec := some req.Spec } else app)),
    Delete := fun appID apps => (none, apps.filter (fun app => app.ID ≠ appID)),
    List := fun apps => (.ok (apps.map some), apps) }

end digitalocean

/-! ## `cmd.freshInstall` with the app and static hosting services -/

namespace cmd

/-- What a provider method of `Providers` yields for a call of a service method that ended
as given. `Providers` has no panics: a panic of a service method, which aborts the program,
is turned into a returned error, so that a run in which a service panics never counts as a
run that returned nil. -/
def Providers.ofEnding {α : Type} (panicked : Error → α) : Ending α → α
  | .returns results => results
  | .panics reason => panicked (Error.new ("panic: " ++ reason))

/-- The providers of `freshInstall` when `doService` is the `AppService` over the `godo`
client `apps` and `vercelService` is the `ProjectService` `p`, both called with
`context.Background()`; the other provider methods are those of `P`. -/
def Providers.withHosting {σ : Type} (P : Providers σ) (order : digitalocean.RangeOrder)
    (apps : godo.Apps σ) (p : vercel.ProjectService σ) : Providers σ :=
  { P with
    CreateApp := fun client envVars cfg s =>
      (Providers.ofEnding Except.error
          (digitalocean.CreateApp retry.background order apps client envVars cfg s).result,
        (digitalocean.CreateApp retry.background order apps client envVars cfg s).state),
    DeleteApp := fun appName cfg s =>
      (Providers.ofEnding some (digitalocean.DeleteApp apps appName cfg s).ending,
        (digitalocean.DeleteApp apps appName cfg s).state),
    UpdateAppEnvironmentVariables := fun appName envVars cfg s =>
      (Providers.ofEnding some
          (digitalocean.UpdateAppEnvironmentVariables order apps appName envVars cfg s).ending,
        (digitalocean.UpdateAppEnvironmentVariables order apps appName envVars cfg s).state),
    CreateProject := fun sanitizedClientName envVars cfg s =>
      ((p.CreateProject sanitizedClientName envVars cfg { state := s, sent := [] }).1,
        (p.CreateProject sanitizedClientName envVars cfg { state := s, sent := [] }).2.state),
    DeleteProject := fun projectName s =>
      ((p.DeleteProject projectName { state := s, sent := [] }).1,
        (p.DeleteProject projectName { state := s, sent := [] }).2.state),
    UpdateProjectEnvironmentVariables := fun projectName envVars s =>
      ((p.UpdateProjectEnvironmentVariables projectName envVars { state := s, sent := [] }).1,
        (p.UpdateProjectEnvironmentVariables projectName envVars
          { state := s, sent := [] }).2.state) }

end cmd

/-! ## Identifiers of the compensating calls -/

namespace cmd

/-- Whether a delete call names the resource a create call named: the same bucket, the
same two databases, the sanitized name of the client whose app was created (under the same
configuration), the same project. -/
def Call.undoes : Call → Call → Bool
  | .DeleteBucket bucketName, .CreateBucket created => bucketName = created
  | .DeleteClientDatabases mainDBName hangfireDBName, .CreateClientDatabases main hangfire =>
    mainDBName = main ∧ hangfireDBName = hangfire
  | .DeleteApp appName cfg, .CreateApp client _ created =>
    appName = client.SanitizedClientName ∧ cfg = created
  | .DeleteProject projectName, .CreateProject created _ _ => projectName = created
  | _, _ => false

end cmd

/-! ## Package `rollback`: what running a list of actions means -/

namespace rollback

/-- Calls the actions of a list one after the other, first to last, each on the state the
previous one left and whatever the previous ones returned: the final state and what each
call returned, in the order of the calls. -/
def runInOrder {S : Type} : List (Action S) → S → S × List (Option Error)
  | [], s => (s, [])
  | action :: rest, s =>
    ((runInOrder rest (action.Rollback s).2).1,
      (action.Rollback s).1 :: (runInOrder rest (action.Rollback s).2).2)

end rollback

/-! ## A case table for examples -/

namespace unicode

/-- A case table above ASCII for examples: like the table of Go's `unicode` package it maps
the Kelvin sign U+212A to the letter `k` (`unicode.ToLower(0x212A) = 0x6B`); it leaves
every other rune unchanged. -/
def kelvinLower (r : Char) : Char :=
  if r.toNat = 0x212A then 'k' else r

end unicode

/-! ## Package `aws`: deleting a bucket -/

namespace errors

mutual

/-- The call `errors.As(err, &target)` for a target of a type of the AWS SDK: the chain of
`err` is followed through the operands of `%w`, and `hasType` tells of an error that
comes from outside the modelled code whether it has the type of the target; the errors
built by `fmt.Errorf` do not have it. -/
def As (hasType : Error → Bool) : Error → Bool
  | .new msg => hasType (.new msg)
  | .wrapf _ inner => As hasType inner
  | .failedAfter _ lastErr => AsOrNil hasType lastErr
  | .rollbackOf _ inner => As hasType inner
  | .rollbackFailed _ _ => false

/-- The same call on an operand of `%w` that may be nil. -/
def AsOrNil (hasType : Error → Bool) : Option Error → Bool
  | none => false
  | some e => As hasType e

end

end errors

namespace s3

/-- The struct `s3types.Object`, with its `Key`, a pointer. -/
structure Object where
  Key : Option String
  deriving DecidableEq, Repr

/-- The struct `s3.ListObjectsV2Output`, with the fields the program reads. -/
structure ListObjectsV2Output where
  Contents : List Object
  IsTruncated : Option Bool
  NextContinuationToken : Option String
  deriving DecidableEq, Repr

/-- The methods of `s3.Client` that `DeleteBucket` calls, as functions of their arguments
(the context apart) and of the state `σ` of the provider: `ListObjectsV2` (bucket and
continuation token), `DeleteObjects` (bucket and keys) and `DeleteBucket` (bucket); and,
for the errors these return, whether an error value has the type `*s3types.NoSuchBucket`
or `*s3types.NotFound`. -/
structure Client (σ : Type) where
  ListObjectsV2 : String → Option String → σ → Except Error ListObjectsV2Output × σ
  DeleteObjects : String → List (Option String) → σ → Option Error × σ
  DeleteBucket : String → σ → Option Error × σ
  IsNoSuchBucket : Error → Bool
  IsNotFound : Error → Bool

end s3

namespace aws

/-- A request sent to S3 by `DeleteBucket`. -/
inductive S3Call where
  | ListObjectsV2 (bucket : String) (continuationToken : Option String)
  | DeleteObjects (bucket : String) (keys : List (Option String))
  | DeleteBucket (bucket : String)
  deriving DecidableEq, Repr

/-- The provider during a run: its state and the requests sent so far, oldest first. -/
structure Session (σ : Type) where
  state : σ
  sent : List S3Call

/-- The method `S3Service.isBucketNotFoundError`, on a non-nil error. -/
def isBucketNotFoundError {σ : Type} (client : s3.Client σ) (err : Error) : Bool :=
  if errors.As client.IsNoSuchBucket err then true
  else if errors.As client.IsNotFound err then true
  else false

/-- The loop `for { ... }` of `emptyBucket`, entered with the continuation token of
`listInput`. The loop has no bound of its own: `fuel` bounds the number of rounds, and the
result is `none` when the rounds run out before the loop ends. -/
def emptyBucket.loop {σ : Type} (client : s3.Client σ) (bucketName : String) :
    Nat → Option String → Session σ → Option (Option Error × Session σ)
  | 0, _, _ => none
  | fuel + 1, continuationToken, n =>
    match client.ListObjectsV2 bucketName continuationToken n.state with
    | (.error err, s) =>
      some (some (Error.wrapf "failed to list objects in bucket" err),
        { state := s, sent := n.sent ++ [.ListObjectsV2 bucketName continuationToken] })
    | (.ok listOutput, s) =>
      let n : Session σ :=
        { state := s, sent := n.sent ++ [.ListObjectsV2 bucketName continuationToken] }
      if listOutput.Contents.length = 0 then
        some (none, n)
      else
        let objectIds := listOutput.Contents.map (fun obj => obj.Key)
        match client.DeleteObjects bucketName objectIds n.state with
        | (some err, s) =>
          some (some (Error.wrapf "failed to delete objects from bucket" err),
            { state := s, sent := n.sent ++ [.DeleteObjects bucketName objectIds] })
        | (none, s) =>
          let n : Session σ :=
            { state := s, sent := n.sent ++ [.DeleteObjects bucketName objectIds] }
          if listOutput.IsTruncated = none ∨ listOutput.IsTruncated = some false then
            some (none, n)
          else
            emptyBucket.loop client bucketName fuel listOutput.NextContinuationToken n

/-- The method `S3Service.emptyBucket`. -/
def emptyBucket {σ : Type} (client : s3.Client σ) (bucketName : String) (fuel : Nat)
    (n : Session σ) : Option (Option Error × Session σ) :=
  emptyBucket.loop client bucketName fuel none n

/-- The closure `DeleteBucket` hands to `retry.Do`: one call of `s.client.DeleteBucket`. -/
def deleteOperation {σ : Type} (client : s3.Client σ) (bucketName : String) :
    Session σ → Option Error × Session σ :=
  fun n =>
    ((client.DeleteBucket bucketName n.state).1,
      { state := (client.DeleteBucket bucketName n.state).2,
        sent := n.sent ++ [.DeleteBucket bucketName] })

/-- The method `S3Service.DeleteBucket`, started in the provider state `s`; `none` when the
loop of `emptyBucket` does not end within `fuel` rounds. -/
def DeleteBucket {σ : Type} (ctx : retry.Context) (client : s3.Client σ)
    (bucketName : String) (fuel : Nat) (s : σ) : Option (Option Error × Session σ) :=
  match emptyBucket client bucketName fuel { state := s, sent := [] } with
  | none => none
  | some (some err, n) =>
    if isBucketNotFoundError client err then some (none, n)
    else some (some (Error.wrapf ("failed to empty bucket " ++ bucketName) err), n)
  | some (none, n) =>
    let retryConfig := retry.DefaultConfig
    let r := retry.Do ctx retryConfig (deleteOperation client bucketName) n
    match r.err with
    | some err =>
      if isBucketNotFoundError client err then some (none, r.state)
      else some (some (Error.wrapf ("failed to delete bucket " ++ bucketName) err), r.state)
    | none => some (none, r.state)

/-- A provider for examples. Its state is the list of the names of the buckets that exist,
all of them empty. A request that names a bucket that does not exist fails with an error of
type `*s3types.NoSuchBucket`; `DeleteBucket` removes the bucket. -/
def inMemory : s3.Client (List String) :=
  { ListObjectsV2 := fun bucket _ buckets =>
      if bucket ∈ buckets then
        (.ok { Contents := [], IsTruncated := some false, NextContinuationToken := none },
          buckets)
      else (.error (Error.new "NoSuchBucket: The specified bucket does not exist"), buckets),
    DeleteObjects := fun bucket _ buckets =>
      if bucket ∈ buckets then (none, buckets)
      else (some (Error.new "NoSuchBucket: The specified bucket does not exist"), buckets),
    DeleteBucket := fun bucket buckets =>
      if bucket ∈ buckets then (none, buckets.filter (fun b => b ≠ bucket))
      else (some (Error.new "NoSuchBucket: The specified bucket does not exist"), buckets),
    IsNoSuchBucket := fun err =>
      match err with
      | .new msg => msg = "NoSuchBucket: The specified bucket does not exist"
      | _ => false,
    IsNotFound := fun _ => false }

end aws

/-! ## What a registered compensating action does -/

namespace cmd

/-- That an action, run in any world, makes exactly one provider call, and that this call
is a delete call naming the resource that one of the calls `calls` created. -/
def Compensates {σ : Type} (calls : List Call) (action : rollback.Action (World σ)) : Prop :=
  ∀ w : World σ, ∃ c, (action.Rollback w).2.calls = w.calls ++ [c] ∧
    c.isCompensation = true ∧ ∃ created ∈ calls, c.undoes created = true

end cmd

/-! # Theorems -/

/-! ## `retry.Do` -/

namespace retry

variable {σ : Type}

theorem wrapInt64_of_isInt64 {x : Int} (h : isInt64 x) : wrapInt64 x = x := by
  unfold isInt64 at h
  unfold wrapInt64
  omega

theorem wrapInt64_add_wrapInt64 (x y : Int) : wrapInt64 (wrapInt64 x + y) = wrapInt64 (x + y) := by
  unfold wrapInt64
  omega

theorem isInt64_wrapInt64 (x : Int) : isInt64 (wrapInt64 x) := by
  unfold isInt64 wrapInt64
  omega

/-- The delay in force and the events recorded once the wait of attempt `a` is over. -/
theorem Do.loop_cons_fail (ctx : Context) (config : Config) (op : σ → Option Error × σ)
    (a : Nat) (rest : List Nat) (delay : Duration) (lastErr : Option Error) (s s1 : σ)
    (e : Error) (hd : 1 < a → ctx.Done a = false) (hop : op s = (some e, s1)) :
    Do.loop ctx config op (a :: rest) delay lastErr s =
      (Do.loop ctx config op rest
        (if 1 < a then wrapInt64 (delay + config.Backoff) else delay) (some e) s1).after
        (if 1 < a then [.timer a delay, .call a] else [.call a]) := by
  by_cases h : 1 < a
  · simp [Do.loop, h, hd h, hop]
  · simp [Do.loop, h, hop]

theorem Do.loop_cons_ok (ctx : Context) (config : Config) (op : σ → Option Error × σ)
    (a : Nat) (rest : List Nat) (delay : Duration) (lastErr : Option Error) (s s1 : σ)
    (hd : 1 < a → ctx.Done a = false) (hop : op s = (none, s1)) :
    Do.loop ctx config op (a :: rest) delay lastErr s =
      ⟨none, s1, if 1 < a then [.timer a delay, .call a] else [.call a]⟩ := by
  by_cases h : 1 < a
  · simp [Do.loop, h, hd h, hop]
  · simp [Do.loop, h, hop]

theorem Do.loop_cons_done (ctx : Context) (config : Config) (op : σ → Option Error × σ)
    (a : Nat) (rest : List Nat) (delay : Duration) (lastErr : Option Error) (s : σ)
    (ha : 1 < a) (hd : ctx.Done a = true) :
    Do.loop ctx config op (a :: rest) delay lastErr s = ⟨some ctx.Err, s, [.done a delay]⟩ := by
  simp [Do.loop, ha, hd]

theorem callCount_after (evs : List Event) (r : Outcome σ) :
    callCount (r.after evs).trace = callCount evs + callCount r.trace := by
  simp [callCount, Outcome.after]

theorem callCount_step (a : Nat) (delay : Duration) :
    callCount (if 1 < a then [Event.timer a delay, Event.call a] else [Event.call a]) = 1 := by
  split <;> simp [callCount, Event.isCall]

theorem resultOf_zero (op : σ → Option Error × σ) (s : σ) : resultOf op 0 s = (op s).1 := rfl

/-- A run whose call number `k + 1` is the first to succeed, no earlier wait being
cancelled. -/
theorem Do.loop_succeedsAt (ctx : Context) (config : Config) (op : σ → Option Error × σ) :
    ∀ (k m a : Nat) (delay : Duration) (lastErr : Option Error) (s : σ),
      k < m →
      (∀ j, j < k → resultOf op j s ≠ none) →
      resultOf op k s = none →
      (∀ j, j ≤ k → 1 < a + j → ctx.Done (a + j) = false) →
      (Do.loop ctx config op (List.range' a m) delay lastErr s).err = none ∧
        (Do.loop ctx config op (List.range' a m) delay lastErr s).state =
          stateAfter op (k + 1) s ∧
        callCount (Do.loop ctx config op (List.range' a m) delay lastErr s).trace = k + 1 := by
  intro k
  induction k with
  | zero =>
    intro m a delay lastErr s hm _ hok hctx
    obtain ⟨m, rfl⟩ := Nat.exists_eq_succ_of_ne_zero (Nat.pos_iff_ne_zero.mp hm)
    rw [resultOf_zero] at hok
    have hop : op s = (none, (op s).2) := Prod.ext hok rfl
    rw [List.range'_succ, Do.loop_cons_ok ctx config op a _ delay lastErr s _
      (fun h => hctx 0 (Nat.le_refl 0) h) hop]
    exact ⟨rfl, rfl, callCount_step a delay⟩
  | succ k ih =>
    intro m a delay lastErr s hm hfail hok hctx
    obtain ⟨m, rfl⟩ := Nat.exists_eq_succ_of_ne_zero (Nat.not_eq_zero_of_lt hm)
    have h0 := hfail 0 (Nat.succ_pos k)
    rw [resultOf_zero] at h0
    obtain ⟨e, he⟩ := Option.ne_none_iff_exists'.mp h0
    have hop : op s = (some e, (op s).2) := Prod.ext he rfl
    rw [List.range'_succ, Do.loop_cons_fail ctx config op a _ delay lastErr s _ e
      (fun h => hctx 0 (Nat.zero_le _) h) hop]
    obtain ⟨h1, h2, h3⟩ := ih m (a + 1)
      (if 1 < a then wrapInt64 (delay + config.Backoff) else delay) (some e) (op s).2
      (Nat.lt_of_succ_lt_succ hm)
      (fun j hj => hfail (j + 1) (Nat.succ_lt_succ hj))
      hok
      (fun j hj h => by
        have := hctx (j + 1) (Nat.succ_le_succ hj) (by omega)
        rwa [show a + (j + 1) = a + 1 + j by omega] at this)
    refine ⟨?_, ?_, ?_⟩
    · simp only [Outcome.after, h1]
    · simp only [Outcome.after, h2, stateAfter]
    · rw [callCount_after, callCount_step, h3, Nat.add_comm]

/-- A run whose first `k` calls fail and whose next wait is cancelled. -/
theorem Do.loop_cancelledAt (ctx : Context) (config : Config) (op : σ → Option Error × σ) :
    ∀ (k m a : Nat) (delay : Duration) (lastErr : Option Error) (s : σ),
      k < m →
      (∀ j, j < k → resultOf op j s ≠ none) →
      (∀ j, j < k → 1 < a + j → ctx.Done (a + j) = false) →
      1 < a + k → ctx.Done (a + k) = true →
      (Do.loop ctx config op (List.range' a m) delay lastErr s).err = some ctx.Err ∧
        (Do.loop ctx config op (List.range' a m) delay lastErr s).state = stateAfter op k s ∧
        callCount (Do.loop ctx config op (List.range' a m) delay lastErr s).trace = k := by
  intro k
  induction k with
  | zero =>
    intro m a delay lastErr s hm _ _ ha hdone
    obtain ⟨m, rfl⟩ := Nat.exists_eq_succ_of_ne_zero (Nat.pos_iff_ne_zero.mp hm)
    rw [List.range'_succ, Do.loop_cons_done ctx config op a _ delay lastErr s ha hdone]
    exact ⟨rfl, rfl, rfl⟩
  | succ k ih =>
    intro m a delay lastErr s hm hfail hctx ha hdone
    obtain ⟨m, rfl⟩ := Nat.exists_eq_succ_of_ne_zero (Nat.not_eq_zero_of_lt hm)
    have h0 := hfail 0 (Nat.succ_pos k)
    rw [resultOf_zero] at h0
    obtain ⟨e, he⟩ := Option.ne_none_iff_exists'.mp h0
    have hop : op s = (some e, (op s).2) := Prod.ext he rfl
    rw [List.range'_succ, Do.loop_cons_fail ctx config op a _ delay lastErr s _ e
      (fun h => hctx 0 (Nat.succ_pos k) h) hop]
    obtain ⟨h1, h2, h3⟩ := ih m (a + 1)
      (if 1 < a then wrapInt64 (delay + config.Backoff) else delay) (some e) (op s).2
      (Nat.lt_of_succ_lt_succ hm)
      (fun j hj => hfail (j + 1) (Nat.succ_lt_succ hj))
      (fun j hj h => by
        have := hctx (j + 1) (Nat.succ_lt_succ hj) (by omega)
        rwa [show a + (j + 1) = a + 1 + j by omega] at this)
      (by omega)
      (by rwa [show a + 1 + k = a + (k + 1) by omega])
    refine ⟨?_, ?_, ?_⟩
    · simp only [Outcome.after, h1]
    · simp only [Outcome.after, h2, stateAfter]
    · rw [callCount_after, callCount_step, h3, Nat.add_comm]

theorem waits_after (evs : List Event) (r : Outcome σ) :
    waits (r.after evs).trace = waits evs ++ waits r.trace := by
  simp [waits, Outcome.after]

/-- Every wait of a run of the loop: the wait number `j` (from 0) precedes attempt
`max a 2 + j` and lasts the entry delay plus `j` backoffs, in `int64` arithmetic. -/
theorem Do.loop_waits (ctx : Context) (config : Config) (op : σ → Option Error × σ) :
    ∀ (m a : Nat) (delay : Duration) (lastErr : Option Error) (s : σ),
      isInt64 delay →
      waits (Do.loop ctx config op (List.range' a m) delay lastErr s).trace =
        (List.range (waits (Do.loop ctx config op (List.range' a m) delay lastErr s).trace).length).map
          (fun j => (max a 2 + j, wrapInt64 (delay + j * config.Backoff))) := by
  intro m
  induction m with
  | zero => intro a delay lastErr s _; simp [Do.loop, waits]
  | succ m ih =>
    intro a delay lastErr s hdelay
    rw [List.range'_succ]
    by_cases ha : 1 < a
    · have hmax : max a 2 = a := by omega
      cases hd : ctx.Done a with
      | true =>
        rw [Do.loop_cons_done ctx config op a _ delay lastErr s ha hd]
        simp [waits, Event.wait?, wrapInt64_of_isInt64 hdelay, List.range_succ, hmax]
      | false =>
        rcases hop : op s with ⟨_ | e, s1⟩
        · rw [Do.loop_cons_ok ctx config op a _ delay lastErr s s1 (fun _ => hd) hop]
          simp [waits, Event.wait?, ha, wrapInt64_of_isInt64 hdelay, List.range_succ, hmax]
        · rw [Do.loop_cons_fail ctx config op a _ delay lastErr s s1 e (fun _ => hd) hop]
          simp only [ha, if_true, waits_after]
          have := ih (a + 1) (wrapInt64 (delay + config.Backoff)) (some e) s1
            (isInt64_wrapInt64 _)
          rw [this]
          simp only [waits, List.filterMap_cons, Event.wait?, List.filterMap_nil,
            List.singleton_append, List.length_cons, List.length_map, List.length_range,
            List.range_succ_eq_map, List.map_cons, List.map_map]
          refine congrArg₂ _ ?_ ?_
          · simp [wrapInt64_of_isInt64 hdelay, hmax]
          · apply List.map_congr_left
            intro j _
            simp only [Function.comp, wrapInt64_add_wrapInt64]
            refine Prod.ext ?_ ?_
            · simp only [hmax]; omega
            · simp only; congr 1; push_cast; ring
    · rcases hop : op s with ⟨_ | e, s1⟩
      · rw [Do.loop_cons_ok ctx config op a _ delay lastErr s s1 (fun h => absurd h ha) hop]
        simp [waits, Event.wait?, ha]
      · rw [Do.loop_cons_fail ctx config op a _ delay lastErr s s1 e (fun h => absurd h ha) hop]
        simp only [ha, if_false, waits_after]
        have := ih (a + 1) delay (some e) s1 hdelay
        have hmax : max (a + 1) 2 = max a 2 := by omega
        rw [hmax] at this
        simpa [waits, Event.wait?] using this

theorem mem_after_trace (ev : Event) (evs : List Event) (r : Outcome σ) :
    ev ∈ (r.after evs).trace ↔ ev ∈ evs ∨ ev ∈ r.trace := by
  simp [Outcome.after]

/-- Every call of attempt `i > 1` in a run of the loop comes after a timer event of the
same attempt. -/
theorem Do.loop_call_has_timer (ctx : Context) (config : Config) (op : σ → Option Error × σ) :
    ∀ (l : List Nat) (delay : Duration) (lastErr : Option Error) (s : σ) (i : Nat),
      1 < i → Event.call i ∈ (Do.loop ctx config op l delay lastErr s).trace →
      ∃ w, Event.timer i w ∈ (Do.loop ctx config op l delay lastErr s).trace := by
  intro l
  induction l with
  | nil => intro delay lastErr s i _ h; simp [Do.loop] at h
  | cons a rest ih =>
    intro delay lastErr s i hi h
    by_cases ha : 1 < a
    · cases hd : ctx.Done a with
      | true =>
        rw [Do.loop_cons_done ctx config op a _ delay lastErr s ha hd] at h
        simp at h
      | false =>
        rcases hop : op s with ⟨_ | e, s1⟩
        · rw [Do.loop_cons_ok ctx config op a _ delay lastErr s s1 (fun _ => hd) hop] at h ⊢
          simp only [ha, if_true, List.mem_cons, List.mem_singleton, Event.call.injEq,
            List.not_mem_nil, or_false, false_or] at h
          rcases h with h | h
          · cases h
          · subst h
            exact ⟨delay, by simp [ha]⟩
        · rw [Do.loop_cons_fail ctx config op a _ delay lastErr s s1 e (fun _ => hd) hop] at h ⊢
          simp only [ha, if_true, mem_after_trace, List.mem_cons, List.mem_singleton,
            Event.call.injEq, List.not_mem_nil, or_false, false_or] at h
          rcases h with (h | h) | h
          · cases h
          · subst h
            exact ⟨delay, by simp [ha, mem_after_trace]⟩
          · obtain ⟨w, hw⟩ := ih _ _ _ i hi h
            exact ⟨w, by simp only [ha, if_true, mem_after_trace]; exact Or.inr hw⟩
    · rcases hop : op s with ⟨_ | e, s1⟩
      · rw [Do.loop_cons_ok ctx config op a _ delay lastErr s s1 (fun h => absurd h ha) hop] at h
        simp only [ha, if_false, List.mem_singleton, Event.call.injEq] at h
        omega
      · rw [Do.loop_cons_fail ctx config op a _ delay lastErr s s1 e (fun h => absurd h ha) hop]
          at h ⊢
        simp only [ha, if_false, mem_after_trace, List.mem_singleton, Event.call.injEq] at h
        rcases h with h | h
        · omega
        · obtain ⟨w, hw⟩ := ih _ _ _ i hi h
          exact ⟨w, by simp only [ha, if_false, mem_after_trace]; exact Or.inr hw⟩

theorem mem_waits_of_timer {tr : List Event} {i : Nat} {w : Duration}
    (h : Event.timer i w ∈ tr) : (i, w) ∈ waits tr := by
  simp only [waits, List.mem_filterMap]
  exact ⟨_, h, rfl⟩

/-- The waits of a whole run of `Do`, listed. -/
theorem Do_waits (ctx : Context) (config : Config) (op : σ → Option Error × σ) (s : σ)
    (hd : isInt64 config.Delay) :
    waits (Do ctx config op s).trace =
      (List.range (waits (Do ctx config op s).trace).length).map
        (fun (j : Nat) => (j + 2, wrapInt64 (config.Delay + (j : Int) * config.Backoff))) := by
  have := Do.loop_waits ctx config op config.MaxAttempts.toNat 1 config.Delay none s hd
  simp only [Do]
  rw [this]
  simp only [List.length_map, List.length_range]
  apply List.map_congr_left
  intro j _
  simp [Nat.add_comm]

theorem mem_Do_waits (ctx : Context) (config : Config) (op : σ → Option Error × σ) (s : σ)
    (hd : isInt64 config.Delay) (i : Nat) (w : Duration)
    (h : (i, w) ∈ waits (Do ctx config op s).trace) :
    2 ≤ i ∧ w = wrapInt64 (config.Delay + ((i : Int) - 2) * config.Backoff) := by
  rw [Do_waits ctx config op s hd] at h
  simp only [List.mem_map, List.mem_range, Prod.mk.injEq] at h
  obtain ⟨j, _, rfl, rfl⟩ := h
  refine ⟨by omega, ?_⟩
  congr 2
  push_cast
  ring

/-- C2: for a configuration with `MaxAttempts = n`, a context that is never cancelled
and `1 ≤ k ≤ n`, if the first `k - 1` calls of the operation fail and the call number `k`
succeeds, `retry.Do` calls the operation exactly `k` times and returns nil. -/
theorem Do_succeeds_on_attempt (ctx : Context) (config : Config)
    (operation : σ → Option Error × σ) (s : σ) (n k : Nat)
    (hn : config.MaxAttempts = (n : Int)) (hk1 : 1 ≤ k) (hkn : k ≤ n)
    (hctx : ∀ i, ctx.Done i = false)
    (hfail : ∀ j, j < k - 1 → resultOf operation j s ≠ none)
    (hok : resultOf operation (k - 1) s = none) :
    (Do ctx config operation s).err = none ∧
      callCount (Do ctx config operation s).trace = k ∧
      (Do ctx config operation s).state = stateAfter operation k s := by
  have hlen : config.MaxAttempts.toNat = n := by rw [hn]; exact Int.toNat_natCast n
  obtain ⟨h1, h2, h3⟩ := Do.loop_succeedsAt ctx config operation (k - 1) n 1 config.Delay none s
    (by omega) hfail hok (fun j _ _ => hctx _)
  have hk : k - 1 + 1 = k := by omega
  rw [hk] at h2 h3
  refine ⟨?_, ?_, ?_⟩
  · simpa [Do, hlen] using h1
  · simpa [Do, hlen] using h3
  · simpa [Do, hlen] using h2

theorem Do_succeeds_on_attempt_witness :
    (Do background DefaultConfig (succeedsAt 2) 0).err = none ∧
      callCount (Do background DefaultConfig (succeedsAt 2) 0).trace = 2 ∧
      (Do background DefaultConfig (succeedsAt 2) 0).state = stateAfter (succeedsAt 2) 2 0 :=
  Do_succeeds_on_attempt background DefaultConfig (succeedsAt 2) 0 3 2 rfl (by decide)
    (by decide) (fun _ => rfl)
    (fun j hj => by
      have hj0 : j = 0 := by omega
      subst hj0
      simp [resultOf, stateAfter, succeedsAt])
    (by simp [resultOf, stateAfter, succeedsAt])

/-- C3: for a configuration with `MaxAttempts = n` and `2 ≤ i ≤ n`, if the first
`i - 1` calls of the operation fail, no earlier wait is cancelled and the context is
cancelled during the wait that precedes attempt `i`, then `retry.Do` returns `ctx.Err()`
itself and the operation has been called exactly `i - 1` times, whatever `n - i` is. -/
theorem Do_cancelled_during_wait (ctx : Context) (config : Config)
    (operation : σ → Option Error × σ) (s : σ) (n i : Nat)
    (hn : config.MaxAttempts = (n : Int)) (hi2 : 2 ≤ i) (hin : i ≤ n)
    (hfail : ∀ j, j < i - 1 → resultOf operation j s ≠ none)
    (hbefore : ∀ a, a < i → ctx.Done a = false)
    (hdone : ctx.Done i = true) :
    (Do ctx config operation s).err = some ctx.Err ∧
      callCount (Do ctx config operation s).trace = i - 1 ∧
      (Do ctx config operation s).state = stateAfter operation (i - 1) s := by
  have hlen : config.MaxAttempts.toNat = n := by rw [hn]; exact Int.toNat_natCast n
  have hi : 1 + (i - 1) = i := by omega
  obtain ⟨h1, h2, h3⟩ := Do.loop_cancelledAt ctx config operation (i - 1) n 1 config.Delay
    none s (by omega) hfail (fun j hj _ => hbefore _ (by omega)) (by omega) (by rwa [hi])
  refine ⟨?_, ?_, ?_⟩
  · simpa [Do, hlen] using h1
  · simpa [Do, hlen] using h3
  · simpa [Do, hlen] using h2

theorem Do_cancelled_during_wait_witness :
    (Do (cancelledAt 3) ⟨5, 1000, 500⟩ (succeedsAt 0) 0).err = some (cancelledAt 3).Err ∧
      callCount (Do (cancelledAt 3) ⟨5, 1000, 500⟩ (succeedsAt 0) 0).trace = 3 - 1 ∧
      (Do (cancelledAt 3) ⟨5, 1000, 500⟩ (succeedsAt 0) 0).state =
        stateAfter (succeedsAt 0) (3 - 1) 0 :=
  Do_cancelled_during_wait (cancelledAt 3) ⟨5, 1000, 500⟩ (succeedsAt 0) 0 5 3 rfl (by decide)
    (by decide) (fun j _ => by simp [resultOf, succeedsAt])
    (fun a ha => by simp [cancelledAt]; omega) (by simp [cancelledAt])

/-- C4, where the code departs from it: `delay += config.Backoff` is an `int64`
addition, so the wait is not `d + (i - 2) * b` once that value leaves the range of
`time.Duration`. With `Delay = Backoff = 5000000000000000000` ns and four attempts, the wait
before attempt 2 is `d`, but the waits before attempts 3 and 4 are negative (the sum has
wrapped around), not `d + b` and `d + 2 * b`. -/
theorem Do_wait_overflows :
    waits (Do background ⟨4, 5000000000000000000, 5000000000000000000⟩ (succeedsAt 0) 0).trace =
        [(2, 5000000000000000000), (3, -8446744073709551616), (4, -3446744073709551616)] ∧
      (-8446744073709551616 : Int) ≠
        5000000000000000000 + ((3 : Int) - 2) * 5000000000000000000 ∧
      (-3446744073709551616 : Int) ≠
        5000000000000000000 + ((4 : Int) - 2) * 5000000000000000000 := by
  decide

/-- C4 as amended: in any run of `retry.Do` (any operation, any cancellation), with
`Delay = d` and `Backoff = b`: every wait precedes an attempt `i ≥ 2` (none precedes
attempt 1) and lasts `d + (i - 2) * b` as Go computes it in `int64`, which is exactly
`d + (i - 2) * b` whenever that value is a `time.Duration`; every attempt `i ≥ 2` that is
reached has had that wait; the waits come in the order of the attempts, one per attempt
from 2 on; and with `b = 0` every wait is `d`. -/
theorem Do_wait_before_attempt (ctx : Context) (config : Config)
    (operation : σ → Option Error × σ) (s : σ) (hd : isInt64 config.Delay) :
    (∀ i w, (i, w) ∈ waits (Do ctx config operation s).trace →
        2 ≤ i ∧ w = wrapInt64 (config.Delay + ((i : Int) - 2) * config.Backoff)) ∧
      (∀ i w, (i, w) ∈ waits (Do ctx config operation s).trace →
        isInt64 (config.Delay + ((i : Int) - 2) * config.Backoff) →
        w = config.Delay + ((i : Int) - 2) * config.Backoff) ∧
      (∀ i, 2 ≤ i → Event.call i ∈ (Do ctx config operation s).trace →
        Event.timer i (wrapInt64 (config.Delay + ((i : Int) - 2) * config.Backoff)) ∈
          (Do ctx config operation s).trace) ∧
      waits (Do ctx config operation s).trace =
        (List.range (waits (Do ctx config operation s).trace).length).map
          (fun (j : Nat) => (j + 2, wrapInt64 (config.Delay + (j : Int) * config.Backoff))) ∧
      (config.Backoff = 0 →
        ∀ i w, (i, w) ∈ waits (Do ctx config operation s).trace → w = config.Delay) := by
  refine ⟨fun i w h => mem_Do_waits ctx config operation s hd i w h, ?_, ?_,
    Do_waits ctx config operation s hd, ?_⟩
  · intro i w h hin
    rw [(mem_Do_waits ctx config operation s hd i w h).2, wrapInt64_of_isInt64 hin]
  · intro i hi hcall
    obtain ⟨w, hw⟩ := Do.loop_call_has_timer ctx config operation _ _ _ _ i (by omega) hcall
    have := (mem_Do_waits ctx config operation s hd i w (mem_waits_of_timer hw)).2
    rw [← this]
    exact hw
  · intro hb i w h
    rw [(mem_Do_waits ctx config operation s hd i w h).2, hb, Int.mul_zero, Int.add_zero,
      wrapInt64_of_isInt64 hd]

theorem Do_wait_before_attempt_witness :
    waits (Do background DefaultConfig (succeedsAt 0) 0).trace =
        [(2, 1000000000), (3, 3000000000)] ∧
      (2, (1000000000 : Duration)) ∈ waits (Do background DefaultConfig (succeedsAt 0) 0).trace ∧
      (2 ≤ 2 ∧ (1000000000 : Duration) =
        wrapInt64 (DefaultConfig.Delay + (((2 : Nat) : Int) - 2) * DefaultConfig.Backoff)) :=
  ⟨by decide, by decide,
    (Do_wait_before_attempt background DefaultConfig (succeedsAt 0) 0 (by decide)).1 2
      1000000000 (by decide)⟩

end retry

/-! ## `rollback.Manager` -/

namespace rollback

variable {S : Type}

theorem registerAll_actions (m : Manager S) (l : List (Action S)) :
    (registerAll m l).actions = m.actions ++ l := by
  induction l generalizing m with
  | nil => simp [registerAll]
  | cons a rest ih => simp [registerAll, ih, Manager.AddAction]

/-- One turn of the loop of `ExecuteRollback` whose call fails. -/
theorem ExecuteRollback.loop_succ_some (m : Manager S) (i : Nat) (h : i + 1 ≤ m.actions.length)
    (errs : List Error) (s s1 : S) (err : Error)
    (hres : (m.actions[i]).Rollback s = (some err, s1)) :
    ExecuteRollback.loop m (i + 1) h errs s =
      ((ExecuteRollback.loop m i (Nat.le_of_succ_le h)
          (errs ++ [Error.rollbackOf (m.actions[i]).Name err]) s1).1,
        (ExecuteRollback.loop m i (Nat.le_of_succ_le h)
          (errs ++ [Error.rollbackOf (m.actions[i]).Name err]) s1).2.1,
        { index := i, action := m.actions[i], result := some err } ::
          (ExecuteRollback.loop m i (Nat.le_of_succ_le h)
            (errs ++ [Error.rollbackOf (m.actions[i]).Name err]) s1).2.2) := by
  simp only [ExecuteRollback.loop, hres]

/-- One turn of the loop of `ExecuteRollback` whose call succeeds. -/
theorem ExecuteRollback.loop_succ_none (m : Manager S) (i : Nat) (h : i + 1 ≤ m.actions.length)
    (errs : List Error) (s s1 : S) (hres : (m.actions[i]).Rollback s = (none, s1)) :
    ExecuteRollback.loop m (i + 1) h errs s =
      ((ExecuteRollback.loop m i (Nat.le_of_succ_le h) errs s1).1,
        (ExecuteRollback.loop m i (Nat.le_of_succ_le h) errs s1).2.1,
        { index := i, action := m.actions[i], result := none } ::
          (ExecuteRollback.loop m i (Nat.le_of_succ_le h) errs s1).2.2) := by
  simp only [ExecuteRollback.loop, hres]

/-- What the loop of `ExecuteRollback` does when entered with `i = k - 1`: it calls the
actions of index `k - 1` down to `0`, each once, and collects one error per failed call. -/
theorem ExecuteRollback.loop_spec (m : Manager S) :
    ∀ (k : Nat) (h : k ≤ m.actions.length) (errs : List Error) (s : S),
      (ExecuteRollback.loop m k h errs s).2.2.map (fun inv => inv.index) =
          (List.range k).reverse ∧
        (ExecuteRollback.loop m k h errs s).2.2.map (fun inv => inv.action) =
          (m.actions.take k).reverse ∧
        (ExecuteRollback.loop m k h errs s).1 =
          errs ++ failuresOf (ExecuteRollback.loop m k h errs s).2.2 := by
  intro k
  induction k with
  | zero => intro h errs s; simp [ExecuteRollback.loop, failuresOf]
  | succ i ih =>
    intro h errs s
    have htake : List.take (i + 1) m.actions = List.take i m.actions ++ [m.actions[i]] := by
      rw [List.take_succ, List.getElem?_eq_getElem (Nat.lt_of_succ_le h)]
      rfl
    rcases hres : (m.actions[i]).Rollback s with ⟨_ | err, s1⟩
    · obtain ⟨h1, h2, h3⟩ := ih (Nat.le_of_succ_le h) errs s1
      rw [ExecuteRollback.loop_succ_none m i h errs s s1 hres]
      refine ⟨?_, ?_, ?_⟩
      · simp only [List.map_cons, h1, List.range_succ, List.reverse_append,
          List.reverse_singleton, List.singleton_append]
      · simp only [List.map_cons, h2, htake, List.reverse_append, List.reverse_singleton,
          List.singleton_append]
      · simp only [h3, failuresOf, List.filterMap_cons, Option.map_none']
    · obtain ⟨h1, h2, h3⟩ := ih (Nat.le_of_succ_le h)
        (errs ++ [Error.rollbackOf (m.actions[i]).Name err]) s1
      rw [ExecuteRollback.loop_succ_some m i h errs s s1 err hres]
      refine ⟨?_, ?_, ?_⟩
      · simp only [List.map_cons, h1, List.range_succ, List.reverse_append,
          List.reverse_singleton, List.singleton_append]
      · simp only [List.map_cons, h2, htake, List.reverse_append, List.reverse_singleton,
          List.singleton_append]
      · simp only [h3, failuresOf, List.filterMap_cons, Option.map_some', List.append_assoc,
          List.singleton_append]

theorem ExecuteRollback_invoked (m : Manager S) (s : S) :
    (m.ExecuteRollback s).invoked =
      (ExecuteRollback.loop m m.actions.length (Nat.le_refl _) [] s).2.2 := by
  simp only [Manager.ExecuteRollback]
  split <;> rfl

theorem ExecuteRollback_indices (m : Manager S) (s : S) :
    (m.ExecuteRollback s).invoked.map (fun inv => inv.index) =
      (List.range m.actions.length).reverse := by
  rw [ExecuteRollback_invoked]
  exact (ExecuteRollback.loop_spec m _ _ [] s).1

theorem ExecuteRollback_actions (m : Manager S) (s : S) :
    (m.ExecuteRollback s).invoked.map (fun inv => inv.action) = m.actions.reverse := by
  rw [ExecuteRollback_invoked]
  have := (ExecuteRollback.loop_spec m _ (Nat.le_refl _) [] s).2.1
  rwa [List.take_length] at this

theorem ExecuteRollback_err (m : Manager S) (s : S) :
    (m.ExecuteRollback s).err =
      if 0 < (failuresOf (m.ExecuteRollback s).invoked).length then
        some (Error.rollbackFailed (failuresOf (m.ExecuteRollback s).invoked).length
          (failuresOf (m.ExecuteRollback s).invoked))
      else none := by
  rw [ExecuteRollback_invoked]
  have h3 := (ExecuteRollback.loop_spec m _ (Nat.le_refl _) [] s).2.2
  rw [List.nil_append] at h3
  rw [← h3]
  simp only [Manager.ExecuteRollback]
  split <;> rfl

/-- C5: for every list of actions registered in order on a fresh manager with
`AddAction`, `ExecuteRollback` calls them last-registered first: the actions called are the
reversed list, at the indices `n - 1`, ..., `0`; registering A, B, C and unwinding runs
C, B, A. -/
theorem ExecuteRollback_reverse_order (l : List (Action S)) (s : S) :
    ((registerAll NewManager l).ExecuteRollback s).invoked.map (fun inv => inv.action) =
        l.reverse ∧
      ((registerAll NewManager l).ExecuteRollback s).invoked.map (fun inv => inv.index) =
        (List.range l.length).reverse ∧
      ((registerAll NewManager
          [logging "A" false, logging "B" false, logging "C" false]).ExecuteRollback []).state =
        ["C", "B", "A"] := by
  have hreg : (registerAll (NewManager : Manager S) l).actions = l := by
    rw [registerAll_actions]; rfl
  refine ⟨?_, ?_, by decide⟩
  · rw [ExecuteRollback_actions, hreg]
  · rw [ExecuteRollback_indices, hreg]

/-- The loop of `ExecuteRollback` entered with `i = k - 1` really calls the actions of index
`k - 1` down to `0`: its final state and the recorded results are those of calling them one
after the other. -/
theorem ExecuteRollback.loop_runs (m : Manager S) :
    ∀ (k : Nat) (h : k ≤ m.actions.length) (errs : List Error) (s : S),
      (ExecuteRollback.loop m k h errs s).2.1 =
          (runInOrder (m.actions.take k).reverse s).1 ∧
        (ExecuteRollback.loop m k h errs s).2.2.map (fun inv => inv.result) =
          (runInOrder (m.actions.take k).reverse s).2 := by
  intro k
  induction k with
  | zero => intro h errs s; simp [ExecuteRollback.loop, runInOrder]
  | succ i ih =>
    intro h errs s
    have htake : (List.take (i + 1) m.actions).reverse =
        m.actions[i] :: (List.take i m.actions).reverse := by
      rw [List.take_succ, List.getElem?_eq_getElem (Nat.lt_of_succ_le h)]
      simp
    rw [htake]
    rcases hres : (m.actions[i]).Rollback s with ⟨_ | err, s1⟩
    · obtain ⟨h1, h2⟩ := ih (Nat.le_of_succ_le h) errs s1
      rw [ExecuteRollback.loop_succ_none m i h errs s s1 hres]
      simp only [runInOrder, hres, List.map_cons, h1, h2, and_self]
    · obtain ⟨h1, h2⟩ := ih (Nat.le_of_succ_le h)
        (errs ++ [Error.rollbackOf (m.actions[i]).Name err]) s1
      rw [ExecuteRollback.loop_succ_some m i h errs s s1 err hres]
      simp only [runInOrder, hres, List.map_cons, h1, h2, and_self]

theorem ExecuteRollback_state (m : Manager S) (s : S) :
    (m.ExecuteRollback s).state =
      (ExecuteRollback.loop m m.actions.length (Nat.le_refl _) [] s).2.1 := by
  simp only [Manager.ExecuteRollback]
  split <;> rfl

theorem ExecuteRollback_runs (m : Manager S) (s : S) :
    (m.ExecuteRollback s).state = (runInOrder m.actions.reverse s).1 ∧
      (m.ExecuteRollback s).invoked.map (fun inv => inv.result) =
        (runInOrder m.actions.reverse s).2 := by
  have h := ExecuteRollback.loop_runs m m.actions.length (Nat.le_refl _) [] s
  rw [List.take_length] at h
  rw [ExecuteRollback_state, ExecuteRollback_invoked]
  exact h

theorem runInOrder_logging (l : List (String × Bool)) (log : List String) :
    (runInOrder (l.map (fun a => logging a.1 a.2)) log).1 = log ++ l.map (fun a => a.1) := by
  induction l generalizing log with
  | nil => simp [runInOrder]
  | cons a rest ih =>
    simp only [List.map_cons, runInOrder]
    rw [ih]
    simp [logging]

/-- C6: whatever the registered actions do and whichever of them fail,
`ExecuteRollback` calls every registered action exactly once: as many calls as actions,
each index of `m.actions` is the index of exactly one call (and no other index occurs), the
actions called are the registered ones, last first, and the calls are really made: the
state `ExecuteRollback` leaves and the results it records are those of calling the
registered actions one after the other, last first, each on the state its predecessor left,
a failure stopping nothing. For actions that log their name, whichever of them fail, the
log ends with every name once, last registered first; with A and C failing and B not, the
log is C, B, A and the recorded results are C's error, nil, A's error. -/
theorem ExecuteRollback_invokes_each_once (m : Manager S) (s : S) :
    (m.ExecuteRollback s).invoked.length = m.actions.length ∧
      (∀ i, ((m.ExecuteRollback s).invoked.map (fun inv => inv.index)).count i =
        if i < m.actions.length then 1 else 0) ∧
      (m.ExecuteRollback s).invoked.map (fun inv => inv.action) = m.actions.reverse ∧
      (m.ExecuteRollback s).state = (runInOrder m.actions.reverse s).1 ∧
      (m.ExecuteRollback s).invoked.map (fun inv => inv.result) =
        (runInOrder m.actions.reverse s).2 ∧
      (∀ (l : List (String × Bool)) (log : List String),
        ((registerAll NewManager (l.map (fun a => logging a.1 a.2))).ExecuteRollback log).state =
          log ++ (l.map (fun a => a.1)).reverse) ∧
      ((registerAll NewManager
          [logging "A" true, logging "B" false, logging "C" true]).ExecuteRollback []).state =
        ["C", "B", "A"] ∧
      ((registerAll NewManager
          [logging "A" true, logging "B" false, logging "C" true]).ExecuteRollback
            []).invoked.map (fun inv => inv.result) =
        [some (Error.new "C failed"), none, some (Error.new "A failed")] := by
  refine ⟨?_, ?_, ExecuteRollback_actions m s, (ExecuteRollback_runs m s).1,
    (ExecuteRollback_runs m s).2, ?_, by decide, rfl⟩
  · have := congrArg List.length (ExecuteRollback_indices m s)
    simpa using this
  · intro i
    rw [ExecuteRollback_indices, List.count_reverse]
    by_cases hi : i < m.actions.length
    · simp [hi, List.count_eq_one_of_mem (List.nodup_range _) (List.mem_range.mpr hi)]
    · simp [hi, List.count_eq_zero, List.mem_range]
  · intro l log
    have hreg : (registerAll (NewManager : Manager (List String))
        (l.map (fun a => logging a.1 a.2))).actions = l.map (fun a => logging a.1 a.2) := by
      rw [registerAll_actions]; rfl
    rw [(ExecuteRollback_runs _ log).1, hreg, ← List.map_reverse, runInOrder_logging,
      List.map_reverse]

theorem ExecuteRollback_invokes_each_once_witness :
    ((registerAll NewManager
        [logging "A" true, logging "B" true, logging "C" false]).ExecuteRollback
          ["start"]).state = ["start", "C", "B", "A"] :=
  ((ExecuteRollback_invokes_each_once
    (registerAll NewManager [logging "A" true, logging "B" true, logging "C" false])
    ["start"]).2.2.2.1).trans (by decide)

theorem failuresOf_length (l : List (Invocation S)) :
    (failuresOf l).length = (l.filter (fun inv => inv.result.isSome)).length := by
  induction l with
  | nil => rfl
  | cons inv rest ih =>
    cases h : inv.result with
    | none => simpa [failuresOf, h] using ih
    | some e => simpa [failuresOf, h] using ih

theorem failuresOf_eq_nil_iff (l : List (Invocation S)) :
    failuresOf l = [] ↔ l.all (fun inv => inv.result.isNone) = true := by
  induction l with
  | nil => simp [failuresOf]
  | cons inv rest ih =>
    cases h : inv.result with
    | none =>
      have : failuresOf (inv :: rest) = failuresOf rest := by simp [failuresOf, h]
      rw [this, ih]
      simp [h]
    | some e => simp [failuresOf, h]

/-- C7: `ExecuteRollback` returns nil exactly when no call of a registered action
returned an error; otherwise the error it returns carries the list of all failures, one
entry per failed call in the order the calls were made, each naming its action and wrapping
the error that call returned, together with the length of that list, which is the number of
failed calls. -/
theorem ExecuteRollback_reports_all_failures (m : Manager S) (s : S) :
    ((m.ExecuteRollback s).err = none ↔
        (m.ExecuteRollback s).invoked.all (fun inv => inv.result.isNone) = true) ∧
      ((m.ExecuteRollback s).err ≠ none →
        (m.ExecuteRollback s).err =
          some (Error.rollbackFailed
            ((m.ExecuteRollback s).invoked.filter (fun inv => inv.result.isSome)).length
            ((m.ExecuteRollback s).invoked.filterMap
              (fun inv => inv.result.map (Error.rollbackOf inv.action.Name))))) ∧
      (m.ExecuteRollback s).invoked.map (fun inv => inv.action) = m.actions.reverse := by
  have herr := ExecuteRollback_err m s
  refine ⟨?_, ?_, ExecuteRollback_actions m s⟩
  · rw [← failuresOf_eq_nil_iff, herr]
    constructor
    · intro h
      by_contra hne
      rw [if_pos (List.length_pos.mpr hne)] at h
      cases h
    · intro h
      rw [h]
      rfl
  · intro hne
    rw [herr] at hne ⊢
    by_cases hpos : 0 < (failuresOf (m.ExecuteRollback s).invoked).length
    · rw [if_pos hpos, failuresOf_length]
      rfl
    · rw [if_neg hpos] at hne
      exact absurd rfl hne

theorem ExecuteRollback_reports_all_failures_witness :
    ((registerAll NewManager
        [logging "A" true, logging "B" false, logging "C" true]).ExecuteRollback []).err =
      some (Error.rollbackFailed 2
        [Error.rollbackOf "C" (Error.new "C failed"),
          Error.rollbackOf "A" (Error.new "A failed")]) :=
  ((ExecuteRollback_reports_all_failures
    (registerAll NewManager [logging "A" true, logging "B" false, logging "C" true]) []).2.1
    (by simp [Manager.ExecuteRollback, ExecuteRollback.loop, registerAll, Manager.AddAction,
      NewManager, logging])).trans rfl

end rollback

/-! ## `cmd.freshInstall` -/

namespace cmd

variable {σ : Type}

/-- Environment generation succeeds exactly when the derived names are valid, and then
yields the environment built from them. -/
theorem GenerateDeploymentEnvironment_ok (unicodeLower : Char → Char) (client : types.Client)
    (cfg : config.Config) (env : types.DeploymentEnvironment)
    (h : envvars.GenerateDeploymentEnvironment unicodeLower client cfg = .ok env) :
    resources.ValidateResourceNames unicodeLower
        (resources.GenerateResourceNames client.SanitizedClientName cfg) = none ∧
      env.ResourceNames = resources.GenerateResourceNames client.SanitizedClientName cfg := by
  unfold envvars.GenerateDeploymentEnvironment at h
  cases hv : resources.ValidateResourceNames unicodeLower
      (resources.GenerateResourceNames client.SanitizedClientName cfg) with
  | some err => simp [hv] at h
  | none =>
    simp only [hv] at h
    injection h with h
    subst h
    exact ⟨rfl, rfl⟩

theorem freshInstall_database_fails (unicodeLower : Char → Char) (P : Providers σ)
    (client : types.Client) (cfg : config.Config) (w : World σ)
    (env : types.DeploymentEnvironment) (s1 s2 s3 : σ) (err : Error)
    (hgen : envvars.GenerateDeploymentEnvironment unicodeLower client cfg = .ok env)
    (hS3 : P.NewS3Service cfg.AWS.Region cfg.AWS.AccessKeyID cfg.AWS.SecretAccessKey w.state =
      (none, s1))
    (hBucket : P.CreateBucket env.ResourceNames.S3Bucket s1 = (none, s2))
    (hDb : P.CreateClientDatabases env.ResourceNames.DatabaseMain
      env.ResourceNames.DatabaseHangfire s2 = (some err, s3)) :
    (freshInstall unicodeLower P client cfg w).err =
        some (Error.wrapf "failed to setup database" err) ∧
      (freshInstall unicodeLower P client cfg w).world.calls =
        w.calls ++
          [Call.NewS3Service cfg.AWS.Region cfg.AWS.AccessKeyID cfg.AWS.SecretAccessKey,
            Call.CreateBucket env.ResourceNames.S3Bucket,
            Call.CreateClientDatabases env.ResourceNames.DatabaseMain
              env.ResourceNames.DatabaseHangfire,
            Call.DeleteBucket env.ResourceNames.S3Bucket] ∧
      (freshInstall unicodeLower P client cfg w).invokedNames = ["S3 bucket cleanup"] := by
  rcases hdel : P.DeleteBucket env.ResourceNames.S3Bucket s3 with ⟨_ | e, s'⟩ <;>
    simp [freshInstall, hgen, perform, hS3, hBucket, hDb, Result.invokedNames,
      rollback.Manager.ExecuteRollback, rollback.ExecuteRollback.loop,
      rollback.Manager.AddAction, rollback.NewManager, s3BucketCleanup, hdel]

theorem freshInstall_app_fails (unicodeLower : Char → Char) (P : Providers σ)
    (client : types.Client) (cfg : config.Config) (w : World σ)
    (env : types.DeploymentEnvironment) (s1 s2 s3 s4 : σ) (err : Error)
    (hgen : envvars.GenerateDeploymentEnvironment unicodeLower client cfg = .ok env)
    (hS3 : P.NewS3Service cfg.AWS.Region cfg.AWS.AccessKeyID cfg.AWS.SecretAccessKey w.state =
      (none, s1))
    (hBucket : P.CreateBucket env.ResourceNames.S3Bucket s1 = (none, s2))
    (hDb : P.CreateClientDatabases env.ResourceNames.DatabaseMain
      env.ResourceNames.DatabaseHangfire s2 = (none, s3))
    (hApp : P.CreateApp client
      { AppEnvs := env.Backend.AppLevelVars, ComponentEnvs := env.Backend.ComponentLevelVars }
      cfg s3 = (.error err, s4)) :
    (freshInstall unicodeLower P client cfg w).err =
        some (Error.wrapf "failed to setup DigitalOcean" err) ∧
      (freshInstall unicodeLower P client cfg w).world.calls =
        w.calls ++
          [Call.NewS3Service cfg.AWS.Region cfg.AWS.AccessKeyID cfg.AWS.SecretAccessKey,
            Call.CreateBucket env.ResourceNames.S3Bucket,
            Call.CreateClientDatabases env.ResourceNames.DatabaseMain
              env.ResourceNames.DatabaseHangfire,
            Call.CreateApp client
              { AppEnvs := env.Backend.AppLevelVars,
                ComponentEnvs := env.Backend.ComponentLevelVars } cfg,
            Call.DeleteClientDatabases env.ResourceNames.DatabaseMain
              env.ResourceNames.DatabaseHangfire,
            Call.DeleteBucket env.ResourceNames.S3Bucket] ∧
      (freshInstall unicodeLower P client cfg w).invokedNames =
        ["Database cleanup", "S3 bucket cleanup"] := by
  rcases hdel1 : P.DeleteClientDatabases env.ResourceNames.DatabaseMain
      env.ResourceNames.DatabaseHangfire s4 with ⟨_ | e1, t1⟩ <;>
    rcases hdel2 : P.DeleteBucket env.ResourceNames.S3Bucket t1 with ⟨_ | e2, t2⟩ <;>
    simp [freshInstall, hgen, perform, hS3, hBucket, hDb, hApp, Result.invokedNames,
      rollback.Manager.ExecuteRollback, rollback.ExecuteRollback.loop,
      rollback.Manager.AddAction, rollback.NewManager, s3BucketCleanup, databaseCleanup,
      hdel1, hdel2]

theorem freshInstall_project_fails (unicodeLower : Char → Char) (P : Providers σ)
    (client : types.Client) (cfg : config.Config) (w : World σ)
    (env : types.DeploymentEnvironment) (s1 s2 s3 s4 s5 : σ) (backendURL : String)
    (vars : List types.VercelEnvVariable) (err : Error)
    (hgen : envvars.GenerateDeploymentEnvironment unicodeLower client cfg = .ok env)
    (hS3 : P.NewS3Service cfg.AWS.Region cfg.AWS.AccessKeyID cfg.AWS.SecretAccessKey w.state =
      (none, s1))
    (hBucket : P.CreateBucket env.ResourceNames.S3Bucket s1 = (none, s2))
    (hDb : P.CreateClientDatabases env.ResourceNames.DatabaseMain
      env.ResourceNames.DatabaseHangfire s2 = (none, s3))
    (hApp : P.CreateApp client
      { AppEnvs := env.Backend.AppLevelVars, ComponentEnvs := env.Backend.ComponentLevelVars }
      cfg s3 = (.ok backendURL, s4))
    (hvars : envvars.GenerateVercelEnvironmentVariables unicodeLower
      { client with BackendInfo := { client.BackendInfo with URL := backendURL } } cfg =
      .ok vars)
    (hProject : P.CreateProject client.SanitizedClientName vars cfg s4 = (.error err, s5)) :
    (freshInstall unicodeLower P client cfg w).err =
        some (Error.wrapf "failed to setup Vercel" err) ∧
      (freshInstall unicodeLower P client cfg w).world.calls =
        w.calls ++
          [Call.NewS3Service cfg.AWS.Region cfg.AWS.AccessKeyID cfg.AWS.SecretAccessKey,
            Call.CreateBucket env.ResourceNames.S3Bucket,
            Call.CreateClientDatabases env.ResourceNames.DatabaseMain
              env.ResourceNames.DatabaseHangfire,
            Call.CreateApp client
              { AppEnvs := env.Backend.AppLevelVars,
                ComponentEnvs := env.Backend.ComponentLevelVars } cfg,
            Call.CreateProject client.SanitizedClientName vars cfg,
            Call.DeleteApp client.SanitizedClientName cfg,
            Call.DeleteClientDatabases env.ResourceNames.DatabaseMain
              env.ResourceNames.DatabaseHangfire,
            Call.DeleteBucket env.ResourceNames.S3Bucket] ∧
      (freshInstall unicodeLower P client cfg w).invokedNames =
        ["DigitalOcean app cleanup", "Database cleanup", "S3 bucket cleanup"] := by
  rcases hdel0 : P.DeleteApp client.SanitizedClientName cfg s5 with ⟨_ | e0, t0⟩ <;>
    rcases hdel1 : P.DeleteClientDatabases env.ResourceNames.DatabaseMain
      env.ResourceNames.DatabaseHangfire t0 with ⟨_ | e1, t1⟩ <;>
    rcases hdel2 : P.DeleteBucket env.ResourceNames.S3Bucket t1 with ⟨_ | e2, t2⟩ <;>
    simp [freshInstall, hgen, perform, hS3, hBucket, hDb, hApp, hvars, hProject,
      Result.invokedNames,
      rollback.Manager.ExecuteRollback, rollback.ExecuteRollback.loop,
      rollback.Manager.AddAction, rollback.NewManager, s3BucketCleanup, databaseCleanup,
      digitalOceanAppCleanup, hdel0, hdel1, hdel2]

/-- C9, evaluated where the code departs from it: when the frontend variable update
(step 6), the initial frontend deployment (step 7) or the backend reconfiguration (step 8)
fails after the four resources were created, `freshInstall` returns the step's error
without calling `ExecuteRollback`: no delete call is made and the four registered
compensating actions are left unexecuted. -/
theorem freshInstall_late_failure_skips_rollback :
    ((freshInstall id (scripted [.updateProjectEnvironmentVariables]) exampleClient
          exampleConfig (World.fresh ())).err =
        some (Error.wrapf "failed to update Vercel environment variables"
          (Error.new "UpdateProjectEnvironmentVariables")) ∧
      (freshInstall id (scripted [.updateProjectEnvironmentVariables]) exampleClient
          exampleConfig (World.fresh ())).rollback.isNone = true ∧
      compensations (freshInstall id (scripted [.updateProjectEnvironmentVariables])
          exampleClient exampleConfig (World.fresh ())).world.calls = [] ∧
      (freshInstall id (scripted [.updateProjectEnvironmentVariables]) exampleClient
          exampleConfig (World.fresh ())).rollbackMgr.actions.map (fun a => a.Name) =
        ["S3 bucket cleanup", "Database cleanup", "DigitalOcean app cleanup",
          "Vercel project cleanup"]) ∧
    ((freshInstall id (scripted [.createDeployment]) exampleClient exampleConfig
          (World.fresh ())).err =
        some (Error.wrapf "failed to create Vercel deployment" (Error.new "CreateDeployment")) ∧
      (freshInstall id (scripted [.createDeployment]) exampleClient exampleConfig
          (World.fresh ())).rollback.isNone = true ∧
      compensations (freshInstall id (scripted [.createDeployment]) exampleClient
          exampleConfig (World.fresh ())).world.calls = [] ∧
      (freshInstall id (scripted [.createDeployment]) exampleClient exampleConfig
          (World.fresh ())).rollbackMgr.actions.length = 4) ∧
    ((freshInstall id (scripted [.updateAppEnvironmentVariables]) exampleClient exampleConfig
          (World.fresh ())).err =
        some (Error.wrapf "failed to update DigitalOcean app environment variables"
          (Error.new "UpdateAppEnvironmentVariables")) ∧
      (freshInstall id (scripted [.updateAppEnvironmentVariables]) exampleClient exampleConfig
          (World.fresh ())).rollback.isNone = true ∧
      compensations (freshInstall id (scripted [.updateAppEnvironmentVariables]) exampleClient
          exampleConfig (World.fresh ())).world.calls = [] ∧
      (freshInstall id (scripted [.updateAppEnvironmentVariables]) exampleClient exampleConfig
          (World.fresh ())).rollbackMgr.actions.length = 4) :=
  ⟨⟨rfl, rfl, rfl, rfl⟩, ⟨rfl, rfl, rfl, rfl⟩, ⟨rfl, rfl, rfl, rfl⟩⟩

end cmd

/-! ## `cmd.freshInstall`: validation, happy path and environments -/

namespace cmd
variable {σ : Type}

/-- The run of `freshInstall` in which every step succeeds. -/
theorem freshInstall_all_succeed (unicodeLower : Char → Char) (P : Providers σ)
    (client : types.Client) (cfg : config.Config) (w : World σ)
    (env env2 : types.DeploymentEnvironment) (s1 s2 s3 s4 s5 s6 s7 s8 : σ)
    (backendURL frontendURL : String) (vars vars2 : List types.VercelEnvVariable)
    (hgen : envvars.GenerateDeploymentEnvironment unicodeLower client cfg = .ok env)
    (hS3 : P.NewS3Service cfg.AWS.Region cfg.AWS.AccessKeyID cfg.AWS.SecretAccessKey w.state =
      (none, s1))
    (hBucket : P.CreateBucket env.ResourceNames.S3Bucket s1 = (none, s2))
    (hDb : P.CreateClientDatabases env.ResourceNames.DatabaseMain
      env.ResourceNames.DatabaseHangfire s2 = (none, s3))
    (hApp : P.CreateApp client
      { AppEnvs := env.Backend.AppLevelVars, ComponentEnvs := env.Backend.ComponentLevelVars }
      cfg s3 = (.ok backendURL, s4))
    (hvars : envvars.GenerateVercelEnvironmentVariables unicodeLower
      { client with BackendInfo := { client.BackendInfo with URL := backendURL } } cfg =
      .ok vars)
    (hProject : P.CreateProject client.SanitizedClientName vars cfg s4 = (.ok frontendURL, s5))
    (hvars2 : envvars.GenerateVercelEnvironmentVariables unicodeLower
      { client with
        FrontendInfo := { URL := frontendURL },
        BackendInfo := { client.BackendInfo with URL := backendURL } } cfg = .ok vars2)
    (hUpdate : P.UpdateProjectEnvironmentVariables client.SanitizedClientName vars2 s5 =
      (none, s6))
    (hDeploy : P.CreateDeployment
      { client with
        FrontendInfo := { URL := frontendURL },
        BackendInfo := { client.BackendInfo with URL := backendURL } } cfg s6 = (none, s7))
    (hgen2 : envvars.GenerateDeploymentEnvironment unicodeLower
      { client with
        FrontendInfo := { URL := frontendURL },
        BackendInfo := { client.BackendInfo with URL := backendURL } } cfg = .ok env2)
    (hUpdateApp : P.UpdateAppEnvironmentVariables client.SanitizedClientName
      { AppEnvs := env2.Backend.AppLevelVars,
        ComponentEnvs := env2.Backend.ComponentLevelVars } cfg s7 = (none, s8)) :
    (freshInstall unicodeLower P client cfg w).err = none ∧
      (freshInstall unicodeLower P client cfg w).world.calls =
        w.calls ++
          [Call.NewS3Service cfg.AWS.Region cfg.AWS.AccessKeyID cfg.AWS.SecretAccessKey,
            Call.CreateBucket env.ResourceNames.S3Bucket,
            Call.CreateClientDatabases env.ResourceNames.DatabaseMain
              env.ResourceNames.DatabaseHangfire,
            Call.CreateApp client
              { AppEnvs := env.Backend.AppLevelVars,
                ComponentEnvs := env.Backend.ComponentLevelVars } cfg,
            Call.CreateProject client.SanitizedClientName vars cfg,
            Call.UpdateProjectEnvironmentVariables client.SanitizedClientName vars2,
            Call.CreateDeployment
              { client with
                FrontendInfo := { URL := frontendURL },
                BackendInfo := { client.BackendInfo with URL := backendURL } } cfg,
            Call.UpdateAppEnvironmentVariables client.SanitizedClientName
              { AppEnvs := env2.Backend.AppLevelVars,
                ComponentEnvs := env2.Backend.ComponentLevelVars } cfg] ∧
      (freshInstall unicodeLower P client cfg w).rollback = none ∧
      (freshInstall unicodeLower P client cfg w).rollbackMgr.actions.map (fun a => a.Name) =
        ["S3 bucket cleanup", "Database cleanup", "DigitalOcean app cleanup",
          "Vercel project cleanup"] ∧
      (freshInstall unicodeLower P client cfg w).world.state = s8 ∧
      (freshInstall unicodeLower P client cfg w).client =
        { client with
          FrontendInfo := { URL := frontendURL },
          BackendInfo := { client.BackendInfo with URL := backendURL } } := by
  simp [freshInstall, hgen, perform, hS3, hBucket, hDb, hApp, hvars, hProject, hvars2, hUpdate,
    hDeploy, hgen2, hUpdateApp, rollback.Manager.AddAction, rollback.NewManager]

end cmd

namespace cmd
variable {σ : Type}

/-- When environment generation succeeds, the environment is the one built from the names
derived from the sanitized client name. -/
theorem GenerateDeploymentEnvironment_eq (unicodeLower : Char → Char) (client : types.Client)
    (cfg : config.Config) (env : types.DeploymentEnvironment)
    (h : envvars.GenerateDeploymentEnvironment unicodeLower client cfg = .ok env) :
    env =
      { ResourceNames := resources.GenerateResourceNames client.SanitizedClientName cfg,
        Frontend :=
          envvars.generateFrontendEnvironment
            (resources.GenerateResourceNames client.SanitizedClientName cfg)
            (resources.GetDeploymentDefaults cfg) client,
        Backend :=
          envvars.generateBackendEnvironment
            (resources.GenerateResourceNames client.SanitizedClientName cfg)
            (resources.GetDeploymentDefaults cfg) client } := by
  unfold envvars.GenerateDeploymentEnvironment at h
  cases hv : resources.ValidateResourceNames unicodeLower
      (resources.GenerateResourceNames client.SanitizedClientName cfg) with
  | some err => simp [hv] at h
  | none =>
    simp only [hv] at h
    injection h with h
    exact h.symm

/-- C11: when `ValidateResourceNames` rejects the names derived from the client's
sanitized name, `freshInstall` returns the validation error, wrapped, and nothing else has
happened: the world is unchanged (no provider call was made), no compensating action is
registered and `ExecuteRollback` was not called. -/
theorem freshInstall_invalid_names_fail_fast (unicodeLower : Char → Char) (P : Providers σ)
    (client : types.Client) (cfg : config.Config) (w : World σ) (err : Error)
    (h : resources.ValidateResourceNames unicodeLower
      (resources.GenerateResourceNames client.SanitizedClientName cfg) = some err) :
    (freshInstall unicodeLower P client cfg w).err =
        some (Error.wrapf "failed to generate deployment environment"
          (Error.wrapf "invalid resource names" err)) ∧
      (freshInstall unicodeLower P client cfg w).world = w ∧
      (freshInstall unicodeLower P client cfg w).world.calls = w.calls ∧
      (freshInstall unicodeLower P client cfg w).rollbackMgr.actions = [] ∧
      (freshInstall unicodeLower P client cfg w).rollback = none := by
  simp [freshInstall, envvars.GenerateDeploymentEnvironment, h, rollback.NewManager]

theorem freshInstall_invalid_names_fail_fast_witness :
    (freshInstall id (scripted []) { exampleClient with SanitizedClientName := "acme_co" }
          exampleConfig (World.fresh ())).err =
        some (Error.wrapf "failed to generate deployment environment"
          (Error.wrapf "invalid resource names"
            (Error.wrapf "invalid S3 bucket name"
              (Error.new "bucket name cannot contain underscores")))) ∧
      (freshInstall id (scripted []) { exampleClient with SanitizedClientName := "acme_co" }
          exampleConfig (World.fresh ())).world = World.fresh () ∧
      (freshInstall id (scripted []) { exampleClient with SanitizedClientName := "acme_co" }
          exampleConfig (World.fresh ())).world.calls = (World.fresh ()).calls ∧
      (freshInstall id (scripted []) { exampleClient with SanitizedClientName := "acme_co" }
          exampleConfig (World.fresh ())).rollbackMgr.actions = [] ∧
      (freshInstall id (scripted []) { exampleClient with SanitizedClientName := "acme_co" }
          exampleConfig (World.fresh ())).rollback = none :=
  freshInstall_invalid_names_fail_fast id (scripted [])
    { exampleClient with SanitizedClientName := "acme_co" } exampleConfig (World.fresh ())
    (Error.wrapf "invalid S3 bucket name" (Error.new "bucket name cannot contain underscores"))
    rfl

end cmd

namespace cmd
variable {σ : Type}

/-- C14: when every step succeeds, `freshInstall` returns nil after exactly these
provider calls, once each and in this order: the construction of the S3 service, then
`CreateBucket`, `CreateClientDatabases`, `CreateApp`, `CreateProject`,
`UpdateProjectEnvironmentVariables`, `CreateDeployment`, `UpdateAppEnvironmentVariables`.
No delete call is made, `ExecuteRollback` is not called, and the manager holds exactly
four actions: bucket, databases, app, project, in that order. -/
theorem freshInstall_happy_path_order (unicodeLower : Char → Char) (P : Providers σ)
    (client : types.Client) (cfg : config.Config) (w : World σ)
    (env env2 : types.DeploymentEnvironment) (s1 s2 s3 s4 s5 s6 s7 s8 : σ)
    (backendURL frontendURL : String) (vars vars2 : List types.VercelEnvVariable)
    (hgen : envvars.GenerateDeploymentEnvironment unicodeLower client cfg = .ok env)
    (hS3 : P.NewS3Service cfg.AWS.Region cfg.AWS.AccessKeyID cfg.AWS.SecretAccessKey w.state =
      (none, s1))
    (hBucket : P.CreateBucket env.ResourceNames.S3Bucket s1 = (none, s2))
    (hDb : P.CreateClientDatabases env.ResourceNames.DatabaseMain
      env.ResourceNames.DatabaseHangfire s2 = (none, s3))
    (hApp : P.CreateApp client
      { AppEnvs := env.Backend.AppLevelVars, ComponentEnvs := env.Backend.ComponentLevelVars }
      cfg s3 = (.ok backendURL, s4))
    (hvars : envvars.GenerateVercelEnvironmentVariables unicodeLower
      { client with BackendInfo := { client.BackendInfo with URL := backendURL } } cfg =
      .ok vars)
    (hProject : P.CreateProject client.SanitizedClientName vars cfg s4 = (.ok frontendURL, s5))
    (hvars2 : envvars.GenerateVercelEnvironmentVariables unicodeLower
      { client with
        FrontendInfo := { URL := frontendURL },
        BackendInfo := { client.BackendInfo with URL := backendURL } } cfg = .ok vars2)
    (hUpdate : P.UpdateProjectEnvironmentVariables client.SanitizedClientName vars2 s5 =
      (none, s6))
    (hDeploy : P.CreateDeployment
      { client with
        FrontendInfo := { URL := frontendURL },
        BackendInfo := { client.BackendInfo with URL := backendURL } } cfg s6 = (none, s7))
    (hgen2 : envvars.GenerateDeploymentEnvironment unicodeLower
      { client with
        FrontendInfo := { URL := frontendURL },
        BackendInfo := { client.BackendInfo with URL := backendURL } } cfg = .ok env2)
    (hUpdateApp : P.UpdateAppEnvironmentVariables client.SanitizedClientName
      { AppEnvs := env2.Backend.AppLevelVars,
        ComponentEnvs := env2.Backend.ComponentLevelVars } cfg s7 = (none, s8)) :
    (freshInstall unicodeLower P client cfg w).err = none ∧
      (freshInstall unicodeLower P client cfg w).world.calls =
        w.calls ++
          [Call.NewS3Service cfg.AWS.Region cfg.AWS.AccessKeyID cfg.AWS.SecretAccessKey,
            Call.CreateBucket env.ResourceNames.S3Bucket,
            Call.CreateClientDatabases env.ResourceNames.DatabaseMain
              env.ResourceNames.DatabaseHangfire,
            Call.CreateApp client
              { AppEnvs := env.Backend.AppLevelVars,
                ComponentEnvs := env.Backend.ComponentLevelVars } cfg,
            Call.CreateProject client.SanitizedClientName vars cfg,
            Call.UpdateProjectEnvironmentVariables client.SanitizedClientName vars2,
            Call.CreateDeployment
              { client with
                FrontendInfo := { URL := frontendURL },
                BackendInfo := { client.BackendInfo with URL := backendURL } } cfg,
            Call.UpdateAppEnvironmentVariables client.SanitizedClientName
              { AppEnvs := env2.Backend.AppLevelVars,
                ComponentEnvs := env2.Backend.ComponentLevelVars } cfg] ∧
      compensations (freshInstall unicodeLower P client cfg w).world.calls =
        compensations w.calls ∧
      (freshInstall unicodeLower P client cfg w).rollback = none ∧
      (freshInstall unicodeLower P client cfg w).invokedNames = [] ∧
      (freshInstall unicodeLower P client cfg w).rollbackMgr.actions.map (fun a => a.Name) =
        ["S3 bucket cleanup", "Database cleanup", "DigitalOcean app cleanup",
          "Vercel project cleanup"] := by
  obtain ⟨herr, hcalls, hrb, hnames, _, _⟩ :=
    freshInstall_all_succeed unicodeLower P client cfg w env env2 s1 s2 s3 s4 s5 s6 s7 s8
      backendURL frontendURL vars vars2 hgen hS3 hBucket hDb hApp hvars hProject hvars2 hUpdate
      hDeploy hgen2 hUpdateApp
  refine ⟨herr, hcalls, ?_, hrb, ?_, hnames⟩
  · rw [hcalls]
    simp [compensations, Call.isCompensation]
  · simp [Result.invokedNames, hrb]

theorem freshInstall_happy_path_order_witness :
    (freshInstall id (scripted []) exampleClient exampleConfig (World.fresh ())).err = none ∧
      compensations
          (freshInstall id (scripted []) exampleClient exampleConfig (World.fresh ())).world.calls =
        compensations (World.fresh ()).calls ∧
      (freshInstall id (scripted []) exampleClient exampleConfig
          (World.fresh ())).rollbackMgr.actions.map (fun a => a.Name) =
        ["S3 bucket cleanup", "Database cleanup", "DigitalOcean app cleanup",
          "Vercel project cleanup"] :=
  have h := freshInstall_happy_path_order id (scripted []) exampleClient exampleConfig
    (World.fresh ()) exampleEnvironment
    (exampleEnvironmentOf (exampleClientWith "https://backend.example" "https://frontend.example"))
    () () () () () () () () "https://backend.example" "https://frontend.example"
    (exampleVercelVariables (exampleClientWith "https://backend.example" ""))
    (exampleVercelVariables
      (exampleClientWith "https://backend.example" "https://frontend.example"))
    rfl rfl rfl rfl rfl rfl rfl rfl rfl rfl rfl rfl
  ⟨h.1, h.2.2.1, h.2.2.2.2.2⟩

/-- The value `generateBackendEnvironment` gives the component variable
"Paths_FrontEndPath". -/
theorem lookup_Paths_FrontEndPath (names : types.ResourceNames)
    (defaults : types.DeploymentDefaults) (client : types.Client) :
    (envvars.generateBackendEnvironment names defaults client).ComponentLevelVars.lookup
        "Paths_FrontEndPath" =
      some
        { Key := "Paths_FrontEndPath",
          Value :=
            if client.FrontendInfo.URL ≠ "" then client.FrontendInfo.URL else names.FrontendURL,
          Scope := godo.AppVariableScope_RunAndBuildTime,
          Type_ := godo.AppVariableType_General } := by
  rfl

/-- The value `generateBackendEnvironment` gives the component variable
"Paths_BackendPath". -/
theorem lookup_Paths_BackendPath (names : types.ResourceNames)
    (defaults : types.DeploymentDefaults) (client : types.Client) :
    (envvars.generateBackendEnvironment names defaults client).ComponentLevelVars.lookup
        "Paths_BackendPath" =
      some
        { Key := "Paths_BackendPath",
          Value :=
            if client.BackendInfo.URL ≠ "" then client.BackendInfo.URL else names.BackendURL,
          Scope := godo.AppVariableScope_RunAndBuildTime,
          Type_ := godo.AppVariableType_General } := by
  rfl

end cmd

namespace cmd
variable {σ : Type}

/-- C12: when every step of `freshInstall` succeeds, the last provider call is
`UpdateAppEnvironmentVariables`, and the component-scope variables it is given map the key
"Paths_FrontEndPath" to the URL `CreateProject` returned (that URL being non-empty) and the
key "Paths_BackendPath" to the URL `CreateApp` returned; no key occurs twice among them. -/
theorem freshInstall_final_backend_environment (unicodeLower : Char → Char) (P : Providers σ)
    (client : types.Client) (cfg : config.Config) (w : World σ)
    (env env2 : types.DeploymentEnvironment) (s1 s2 s3 s4 s5 s6 s7 s8 : σ)
    (backendURL frontendURL : String) (vars vars2 : List types.VercelEnvVariable)
    (hgen : envvars.GenerateDeploymentEnvironment unicodeLower client cfg = .ok env)
    (hS3 : P.NewS3Service cfg.AWS.Region cfg.AWS.AccessKeyID cfg.AWS.SecretAccessKey w.state =
      (none, s1))
    (hBucket : P.CreateBucket env.ResourceNames.S3Bucket s1 = (none, s2))
    (hDb : P.CreateClientDatabases env.ResourceNames.DatabaseMain
      env.ResourceNames.DatabaseHangfire s2 = (none, s3))
    (hApp : P.CreateApp client
      { AppEnvs := env.Backend.AppLevelVars, ComponentEnvs := env.Backend.ComponentLevelVars }
      cfg s3 = (.ok backendURL, s4))
    (hvars : envvars.GenerateVercelEnvironmentVariables unicodeLower
      { client with BackendInfo := { client.BackendInfo with URL := backendURL } } cfg =
      .ok vars)
    (hProject : P.CreateProject client.SanitizedClientName vars cfg s4 = (.ok frontendURL, s5))
    (hvars2 : envvars.GenerateVercelEnvironmentVariables unicodeLower
      { client with
        FrontendInfo := { URL := frontendURL },
        BackendInfo := { client.BackendInfo with URL := backendURL } } cfg = .ok vars2)
    (hUpdate : P.UpdateProjectEnvironmentVariables client.SanitizedClientName vars2 s5 =
      (none, s6))
    (hDeploy : P.CreateDeployment
      { client with
        FrontendInfo := { URL := frontendURL },
        BackendInfo := { client.BackendInfo with URL := backendURL } } cfg s6 = (none, s7))
    (hgen2 : envvars.GenerateDeploymentEnvironment unicodeLower
      { client with
        FrontendInfo := { URL := frontendURL },
        BackendInfo := { client.BackendInfo with URL := backendURL } } cfg = .ok env2)
    (hUpdateApp : P.UpdateAppEnvironmentVariables client.SanitizedClientName
      { AppEnvs := env2.Backend.AppLevelVars,
        ComponentEnvs := env2.Backend.ComponentLevelVars } cfg s7 = (none, s8))
    (hfrontend : frontendURL ≠ "") :
    ∃ envVars : types.DigitalOceanEnvVars,
      (freshInstall unicodeLower P client cfg w).world.calls.getLast? =
          some (Call.UpdateAppEnvironmentVariables client.SanitizedClientName envVars cfg) ∧
        envVars.ComponentEnvs.lookup "Paths_FrontEndPath" =
          some
            { Key := "Paths_FrontEndPath", Value := frontendURL,
              Scope := godo.AppVariableScope_RunAndBuildTime,
              Type_ := godo.AppVariableType_General } ∧
        envVars.ComponentEnvs.lookup "Paths_BackendPath" =
          some
            { Key := "Paths_BackendPath", Value := backendURL,
              Scope := godo.AppVariableScope_RunAndBuildTime,
              Type_ := godo.AppVariableType_General } ∧
        (envVars.ComponentEnvs.map Prod.fst).Nodup := by
  obtain ⟨_, hcalls, _⟩ :=
    freshInstall_all_succeed unicodeLower P client cfg w env env2 s1 s2 s3 s4 s5 s6 s7 s8
      backendURL frontendURL vars vars2 hgen hS3 hBucket hDb hApp hvars hProject hvars2 hUpdate
      hDeploy hgen2 hUpdateApp
  have henv2 := GenerateDeploymentEnvironment_eq unicodeLower _ cfg env2 hgen2
  refine ⟨{ AppEnvs := env2.Backend.AppLevelVars,
            ComponentEnvs := env2.Backend.ComponentLevelVars }, ?_, ?_, ?_, ?_⟩
  · rw [hcalls]
    simp
  · rw [henv2]
    simp only []
    rw [lookup_Paths_FrontEndPath]
    simp [hfrontend]
  · rw [henv2]
    simp only []
    rw [lookup_Paths_BackendPath]
    by_cases hb : backendURL = ""
    · simp [hb, resources.GenerateResourceNames]
    · simp [hb]
  · rw [henv2]
    simp only [envvars.generateBackendEnvironment, envvars.toDefinitions, List.map_cons,
      List.map_nil]
    decide

theorem freshInstall_final_backend_environment_witness :
    ∃ envVars : types.DigitalOceanEnvVars,
      (freshInstall id (scripted []) exampleClient exampleConfig
          (World.fresh ())).world.calls.getLast? =
          some (Call.UpdateAppEnvironmentVariables exampleClient.SanitizedClientName envVars
            exampleConfig) ∧
        envVars.ComponentEnvs.lookup "Paths_FrontEndPath" =
          some
            { Key := "Paths_FrontEndPath", Value := "https://frontend.example",
              Scope := godo.AppVariableScope_RunAndBuildTime,
              Type_ := godo.AppVariableType_General } ∧
        envVars.ComponentEnvs.lookup "Paths_BackendPath" =
          some
            { Key := "Paths_BackendPath", Value := "https://backend.example",
              Scope := godo.AppVariableScope_RunAndBuildTime,
              Type_ := godo.AppVariableType_General } ∧
        (envVars.ComponentEnvs.map Prod.fst).Nodup :=
  freshInstall_final_backend_environment id (scripted []) exampleClient exampleConfig
    (World.fresh ()) exampleEnvironment
    (exampleEnvironmentOf (exampleClientWith "https://backend.example" "https://frontend.example"))
    () () () () () () () () "https://backend.example" "https://frontend.example"
    (exampleVercelVariables (exampleClientWith "https://backend.example" ""))
    (exampleVercelVariables
      (exampleClientWith "https://backend.example" "https://frontend.example"))
    rfl rfl rfl rfl rfl rfl rfl rfl rfl rfl rfl rfl (by decide)

end cmd

namespace cmd
variable {σ : Type}

/-- When the generation of the frontend variables succeeds, the list is the one built from
the frontend environment of the client. -/
theorem GenerateVercelEnvironmentVariables_eq (unicodeLower : Char → Char)
    (client : types.Client) (cfg : config.Config) (vars : List types.VercelEnvVariable)
    (h : envvars.GenerateVercelEnvironmentVariables unicodeLower client cfg = .ok vars) :
    vars.filter (fun v => v.Key = "NEXT_PUBLIC_STRAPI") =
        [{ Key := "NEXT_PUBLIC_STRAPI", Target := "production",
           Value :=
             if client.BackendInfo.URL ≠ "" then client.BackendInfo.URL
             else (resources.GenerateResourceNames client.SanitizedClientName cfg).BackendURL,
           Type_ := "plain", GitBranch := "" }] ∧
      vars.filter (fun v => v.Key = "NEXT_PUBLIC_FRONT") =
        [{ Key := "NEXT_PUBLIC_FRONT", Target := "production",
           Value :=
             if client.FrontendInfo.URL ≠ "" then client.FrontendInfo.URL
             else (resources.GenerateResourceNames client.SanitizedClientName cfg).FrontendURL,
           Type_ := "plain", GitBranch := "" }] := by
  unfold envvars.GenerateVercelEnvironmentVariables at h
  cases hv : resources.ValidateResourceNames unicodeLower
      (resources.GenerateResourceNames client.SanitizedClientName cfg) with
  | some err => simp [hv] at h
  | none =>
    simp only [hv] at h
    injection h with h
    subst h
    constructor <;> rfl

/-- Once the project is created, every continuation of `freshInstall` starts by updating
the variables of the project with the list generated from both URLs. -/
theorem freshInstall_calls_after_project (unicodeLower : Char → Char) (P : Providers σ)
    (client : types.Client) (cfg : config.Config) (w : World σ)
    (env : types.DeploymentEnvironment) (s1 s2 s3 s4 s5 : σ)
    (backendURL frontendURL : String) (vars vars2 : List types.VercelEnvVariable)
    (hgen : envvars.GenerateDeploymentEnvironment unicodeLower client cfg = .ok env)
    (hS3 : P.NewS3Service cfg.AWS.Region cfg.AWS.AccessKeyID cfg.AWS.SecretAccessKey w.state =
      (none, s1))
    (hBucket : P.CreateBucket env.ResourceNames.S3Bucket s1 = (none, s2))
    (hDb : P.CreateClientDatabases env.ResourceNames.DatabaseMain
      env.ResourceNames.DatabaseHangfire s2 = (none, s3))
    (hApp : P.CreateApp client
      { AppEnvs := env.Backend.AppLevelVars, ComponentEnvs := env.Backend.ComponentLevelVars }
      cfg s3 = (.ok backendURL, s4))
    (hvars : envvars.GenerateVercelEnvironmentVariables unicodeLower
      { client with BackendInfo := { client.BackendInfo with URL := backendURL } } cfg =
      .ok vars)
    (hProject : P.CreateProject client.SanitizedClientName vars cfg s4 = (.ok frontendURL, s5))
    (hvars2 : envvars.GenerateVercelEnvironmentVariables unicodeLower
      { client with
        FrontendInfo := { URL := frontendURL },
        BackendInfo := { client.BackendInfo with URL := backendURL } } cfg = .ok vars2) :
    (w.calls ++
        [Call.NewS3Service cfg.AWS.Region cfg.AWS.AccessKeyID cfg.AWS.SecretAccessKey,
          Call.CreateBucket env.ResourceNames.S3Bucket,
          Call.CreateClientDatabases env.ResourceNames.DatabaseMain
            env.ResourceNames.DatabaseHangfire,
          Call.CreateApp client
            { AppEnvs := env.Backend.AppLevelVars,
              ComponentEnvs := env.Backend.ComponentLevelVars } cfg,
          Call.CreateProject client.SanitizedClientName vars cfg,
          Call.UpdateProjectEnvironmentVariables client.SanitizedClientName vars2]) <+:
      (freshInstall unicodeLower P client cfg w).world.calls := by
  rcases hUpdate : P.UpdateProjectEnvironmentVariables client.SanitizedClientName vars2 s5 with
    ⟨_ | e6, s6⟩
  · rcases hDeploy : P.CreateDeployment
        { client with
          FrontendInfo := { URL := frontendURL },
          BackendInfo := { client.BackendInfo with URL := backendURL } } cfg s6 with
      ⟨_ | e7, s7⟩
    · cases hgen2 : envvars.GenerateDeploymentEnvironment unicodeLower
          { client with
            FrontendInfo := { URL := frontendURL },
            BackendInfo := { client.BackendInfo with URL := backendURL } } cfg with
      | error e =>
        simp [freshInstall, hgen, perform, hS3, hBucket, hDb, hApp, hvars, hProject, hvars2,
          hUpdate, hDeploy, hgen2]
      | ok env2 =>
        rcases hUpdateApp : P.UpdateAppEnvironmentVariables client.SanitizedClientName
            { AppEnvs := env2.Backend.AppLevelVars,
              ComponentEnvs := env2.Backend.ComponentLevelVars } cfg s7 with ⟨_ | e8, s8⟩ <;>
          simp [freshInstall, hgen, perform, hS3, hBucket, hDb, hApp, hvars, hProject, hvars2,
            hUpdate, hDeploy, hgen2, hUpdateApp]
    · simp [freshInstall, hgen, perform, hS3, hBucket, hDb, hApp, hvars, hProject, hvars2,
        hUpdate, hDeploy]
  · simp [freshInstall, hgen, perform, hS3, hBucket, hDb, hApp, hvars, hProject, hvars2,
      hUpdate]

end cmd

namespace cmd
variable {σ : Type}

/-- Once the backend app is created, every continuation of `freshInstall` starts by
creating the project with the list generated from the backend URL. -/
theorem freshInstall_calls_after_app (unicodeLower : Char → Char) (P : Providers σ)
    (client : types.Client) (cfg : config.Config) (w : World σ)
    (env : types.DeploymentEnvironment) (s1 s2 s3 s4 : σ)
    (backendURL : String) (vars : List types.VercelEnvVariable)
    (hgen : envvars.GenerateDeploymentEnvironment unicodeLower client cfg = .ok env)
    (hS3 : P.NewS3Service cfg.AWS.Region cfg.AWS.AccessKeyID cfg.AWS.SecretAccessKey w.state =
      (none, s1))
    (hBucket : P.CreateBucket env.ResourceNames.S3Bucket s1 = (none, s2))
    (hDb : P.CreateClientDatabases env.ResourceNames.DatabaseMain
      env.ResourceNames.DatabaseHangfire s2 = (none, s3))
    (hApp : P.CreateApp client
      { AppEnvs := env.Backend.AppLevelVars, ComponentEnvs := env.Backend.ComponentLevelVars }
      cfg s3 = (.ok backendURL, s4))
    (hvars : envvars.GenerateVercelEnvironmentVariables unicodeLower
      { client with BackendInfo := { client.BackendInfo with URL := backendURL } } cfg =
      .ok vars) :
    (w.calls ++
        [Call.NewS3Service cfg.AWS.Region cfg.AWS.AccessKeyID cfg.AWS.SecretAccessKey,
          Call.CreateBucket env.ResourceNames.S3Bucket,
          Call.CreateClientDatabases env.ResourceNames.DatabaseMain
            env.ResourceNames.DatabaseHangfire,
          Call.CreateApp client
            { AppEnvs := env.Backend.AppLevelVars,
              ComponentEnvs := env.Backend.ComponentLevelVars } cfg,
          Call.CreateProject client.SanitizedClientName vars cfg]) <+:
      (freshInstall unicodeLower P client cfg w).world.calls := by
  rcases hProject : P.CreateProject client.SanitizedClientName vars cfg s4 with
    ⟨err | frontendURL, s5⟩
  · rw [(freshInstall_project_fails unicodeLower P client cfg w env s1 s2 s3 s4 s5 backendURL
      vars err hgen hS3 hBucket hDb hApp hvars hProject).2.1]
    simp
  · cases hvars2 : envvars.GenerateVercelEnvironmentVariables unicodeLower
        { client with
          FrontendInfo := { URL := frontendURL },
          BackendInfo := { client.BackendInfo with URL := backendURL } } cfg with
    | error e =>
      simp [freshInstall, hgen, perform, hS3, hBucket, hDb, hApp, hvars, hProject, hvars2]
    | ok vars2 =>
      refine List.IsPrefix.trans ?_
        (freshInstall_calls_after_project unicodeLower P client cfg w env s1 s2 s3 s4 s5
          backendURL frontendURL vars vars2 hgen hS3 hBucket hDb hApp hvars hProject hvars2)
      simp

/-- C13: in every run of `freshInstall` in which `CreateApp` returned the URL `u`,
the next provider call is `CreateProject`, and the list it is given, generated after `u` is
known, has exactly one variable named "NEXT_PUBLIC_STRAPI", with value `u`. When
`CreateProject` then returns a non-empty URL `f`, the next provider call is
`UpdateProjectEnvironmentVariables`, and in the list it is given the only variable named
"NEXT_PUBLIC_STRAPI" has value `u` and the only one named "NEXT_PUBLIC_FRONT" has value
`f`. -/
theorem freshInstall_frontend_environment (unicodeLower : Char → Char) (P : Providers σ)
    (client : types.Client) (cfg : config.Config) (w : World σ)
    (env : types.DeploymentEnvironment) (s1 s2 s3 s4 : σ)
    (u : String) (vars : List types.VercelEnvVariable)
    (hgen : envvars.GenerateDeploymentEnvironment unicodeLower client cfg = .ok env)
    (hS3 : P.NewS3Service cfg.AWS.Region cfg.AWS.AccessKeyID cfg.AWS.SecretAccessKey w.state =
      (none, s1))
    (hBucket : P.CreateBucket env.ResourceNames.S3Bucket s1 = (none, s2))
    (hDb : P.CreateClientDatabases env.ResourceNames.DatabaseMain
      env.ResourceNames.DatabaseHangfire s2 = (none, s3))
    (hApp : P.CreateApp client
      { AppEnvs := env.Backend.AppLevelVars, ComponentEnvs := env.Backend.ComponentLevelVars }
      cfg s3 = (.ok u, s4))
    (hvars : envvars.GenerateVercelEnvironmentVariables unicodeLower
      { client with BackendInfo := { client.BackendInfo with URL := u } } cfg = .ok vars) :
    ((w.calls ++
          [Call.NewS3Service cfg.AWS.Region cfg.AWS.AccessKeyID cfg.AWS.SecretAccessKey,
            Call.CreateBucket env.ResourceNames.S3Bucket,
            Call.CreateClientDatabases env.ResourceNames.DatabaseMain
              env.ResourceNames.DatabaseHangfire,
            Call.CreateApp client
              { AppEnvs := env.Backend.AppLevelVars,
                ComponentEnvs := env.Backend.ComponentLevelVars } cfg,
            Call.CreateProject client.SanitizedClientName vars cfg]) <+:
          (freshInstall unicodeLower P client cfg w).world.calls ∧
        vars.filter (fun v => v.Key = "NEXT_PUBLIC_STRAPI") =
          [{ Key := "NEXT_PUBLIC_STRAPI", Target := "production", Value := u,
             Type_ := "plain", GitBranch := "" }]) ∧
      (∀ (f : String) (s5 : σ) (vars2 : List types.VercelEnvVariable),
        P.CreateProject client.SanitizedClientName vars cfg s4 = (.ok f, s5) →
        f ≠ "" →
        envvars.GenerateVercelEnvironmentVariables unicodeLower
          { client with
            FrontendInfo := { URL := f },
            BackendInfo := { client.BackendInfo with URL := u } } cfg = .ok vars2 →
        (w.calls ++
            [Call.NewS3Service cfg.AWS.Region cfg.AWS.AccessKeyID cfg.AWS.SecretAccessKey,
              Call.CreateBucket env.ResourceNames.S3Bucket,
              Call.CreateClientDatabases env.ResourceNames.DatabaseMain
                env.ResourceNames.DatabaseHangfire,
              Call.CreateApp client
                { AppEnvs := env.Backend.AppLevelVars,
                  ComponentEnvs := env.Backend.ComponentLevelVars } cfg,
              Call.CreateProject client.SanitizedClientName vars cfg,
              Call.UpdateProjectEnvironmentVariables client.SanitizedClientName vars2]) <+:
            (freshInstall unicodeLower P client cfg w).world.calls ∧
          vars2.filter (fun v => v.Key = "NEXT_PUBLIC_STRAPI") =
            [{ Key := "NEXT_PUBLIC_STRAPI", Target := "production", Value := u,
               Type_ := "plain", GitBranch := "" }] ∧
          vars2.filter (fun v => v.Key = "NEXT_PUBLIC_FRONT") =
            [{ Key := "NEXT_PUBLIC_FRONT", Target := "production", Value := f,
               Type_ := "plain", GitBranch := "" }]) := by
  have hstrapi : ∀ (c : types.Client) (l : List types.VercelEnvVariable),
      c.BackendInfo.URL = u →
      envvars.GenerateVercelEnvironmentVariables unicodeLower c cfg = .ok l →
      l.filter (fun v => v.Key = "NEXT_PUBLIC_STRAPI") =
        [{ Key := "NEXT_PUBLIC_STRAPI", Target := "production", Value := u,
           Type_ := "plain", GitBranch := "" }] := by
    intro c l hc hl
    rw [(GenerateVercelEnvironmentVariables_eq unicodeLower c cfg l hl).1, hc]
    by_cases hu : u = ""
    · simp [hu, resources.GenerateResourceNames]
    · simp [hu]
  refine ⟨⟨freshInstall_calls_after_app unicodeLower P client cfg w env s1 s2 s3 s4 u vars hgen
    hS3 hBucket hDb hApp hvars,
    hstrapi { client with BackendInfo := { client.BackendInfo with URL := u } } vars rfl
      hvars⟩, ?_⟩
  intro f s5 vars2 hProject hf hvars2
  refine ⟨freshInstall_calls_after_project unicodeLower P client cfg w env s1 s2 s3 s4 s5 u f
    vars vars2 hgen hS3 hBucket hDb hApp hvars hProject hvars2,
    hstrapi
      { client with
        FrontendInfo := { URL := f },
        BackendInfo := { client.BackendInfo with URL := u } } vars2 rfl hvars2,
    ?_⟩
  rw [(GenerateVercelEnvironmentVariables_eq unicodeLower _ cfg vars2 hvars2).2]
  simp [hf]

theorem freshInstall_frontend_environment_witness :
    (exampleVercelVariables (exampleClientWith "https://backend.example" "")).filter
        (fun v => v.Key = "NEXT_PUBLIC_STRAPI") =
      [{ Key := "NEXT_PUBLIC_STRAPI", Target := "production",
         Value := "https://backend.example", Type_ := "plain", GitBranch := "" }] ∧
      (exampleVercelVariables
          (exampleClientWith "https://backend.example" "https://frontend.example")).filter
          (fun v => v.Key = "NEXT_PUBLIC_FRONT") =
        [{ Key := "NEXT_PUBLIC_FRONT", Target := "production",
           Value := "https://frontend.example", Type_ := "plain", GitBranch := "" }] :=
  have h := freshInstall_frontend_environment id (scripted []) exampleClient exampleConfig
    (World.fresh ()) exampleEnvironment () () () () "https://backend.example"
    (exampleVercelVariables (exampleClientWith "https://backend.example" ""))
    rfl rfl rfl rfl rfl rfl
  ⟨h.1.2,
    (h.2 "https://frontend.example" ()
      (exampleVercelVariables
        (exampleClientWith "https://backend.example" "https://frontend.example"))
      rfl (by decide) rfl).2.2⟩

end cmd

/-! ## `resources` and `envvars` -/

namespace resources

/-- C16: `GenerateResourceNames` yields, for the sanitized client name `s` and the
configured name prefix `p`: bucket `p-s`, main database `s`, companion database `s-hf`, app
`p-s`, project `s` (and the URLs `https://s-p.vercel.app` and the empty backend URL); hence
two configurations with the same name prefix give the same names, and for `s = "acme-co"`
the bucket is `p-acme-co`, the main database "acme-co" and the companion "acme-co-hf". -/
theorem GenerateResourceNames_depends_on_name_and_prefix_only (s : String)
    (cfg cfg2 : config.Config) :
    GenerateResourceNames s cfg =
        { S3Bucket := cfg.Application.NamePrefix ++ "-" ++ s,
          DatabaseMain := s,
          DatabaseHangfire := s ++ "-hf",
          DOApp := cfg.Application.NamePrefix ++ "-" ++ s,
          VercelProject := s,
          FrontendURL := "https://" ++ s ++ "-" ++ cfg.Application.NamePrefix ++ ".vercel.app",
          BackendURL := "" } ∧
      (cfg.Application.NamePrefix = cfg2.Application.NamePrefix →
        GenerateResourceNames s cfg = GenerateResourceNames s cfg2) ∧
      (GenerateResourceNames "acme-co" cfg).S3Bucket =
        cfg.Application.NamePrefix ++ "-acme-co" ∧
      (GenerateResourceNames "acme-co" cfg).DatabaseMain = "acme-co" ∧
      (GenerateResourceNames "acme-co" cfg).DatabaseHangfire = "acme-co-hf" := by
  refine ⟨rfl, ?_, ?_, rfl, rfl⟩
  · intro h
    simp [GenerateResourceNames, generateS3BucketName, generateDOAppName, generateFrontendURL, h]
  · simp [GenerateResourceNames, generateS3BucketName, String.append_assoc]

theorem GenerateResourceNames_depends_on_name_and_prefix_only_witness :
    GenerateResourceNames "acme-co" cmd.exampleConfig =
      GenerateResourceNames "acme-co"
        { cmd.exampleConfig with
          AWS := { Region := "eu-west-1", AccessKeyID := "other", SecretAccessKey := "other" } } :=
  (GenerateResourceNames_depends_on_name_and_prefix_only "acme-co" cmd.exampleConfig
    { cmd.exampleConfig with
      AWS := { Region := "eu-west-1", AccessKeyID := "other", SecretAccessKey := "other" } }).2.1
    rfl

end resources

namespace resources

theorem Contains_singleton (s : String) (c : Char) :
    strings.Contains s (String.mk [c]) = true ↔ c ∈ s.data := by
  simp only [strings.Contains, decide_eq_true_eq]
  constructor
  · rintro ⟨a, b, h⟩
    rw [← h]
    simp
  · intro h
    obtain ⟨a, b, h⟩ := List.mem_iff_append.mp h
    exact ⟨a, b, by rw [h]; simp⟩

theorem validateDatabaseName_eq_none (dbName : String) :
    validateDatabaseName dbName = none ↔ len dbName ≠ 0 ∧ len dbName ≤ 63 := by
  unfold validateDatabaseName
  by_cases h0 : len dbName = 0
  · simp [h0]
  · by_cases h1 : len dbName > 63
    · simp [h0, h1]
    · simp [h0, h1]
      omega

theorem validateS3BucketName_eq_none (unicodeLower : Char → Char) (bucketName : String) :
    validateS3BucketName unicodeLower bucketName = none ↔
      3 ≤ len bucketName ∧ len bucketName ≤ 63 ∧ '_' ∉ bucketName.data ∧
        ' ' ∉ bucketName.data ∧ bucketName = strings.ToLower unicodeLower bucketName := by
  have hu := Contains_singleton bucketName '_'
  have hs := Contains_singleton bucketName ' '
  change strings.Contains bucketName "_" = true ↔ _ at hu
  change strings.Contains bucketName " " = true ↔ _ at hs
  unfold validateS3BucketName
  split_ifs with hlen h1 h2 h3
  · constructor
    · intro h; cases h
    · rintro ⟨_, _, _⟩; omega
  · constructor
    · intro h; cases h
    · rintro ⟨_, _, h, _⟩; exact absurd (hu.mp h1) h
  · constructor
    · intro h; cases h
    · rintro ⟨_, _, _, h, _⟩; exact absurd (hs.mp h2) h
  · constructor
    · intro h; cases h
    · rintro ⟨_, _, _, _, h⟩; exact absurd h h3
  · refine ⟨fun _ => ⟨by omega, by omega, fun h => h1 (hu.mpr h), fun h => h2 (hs.mpr h), ?_⟩,
      fun _ => rfl⟩
    exact not_not.mp h3

/-- C18: `ValidateResourceNames` returns nil exactly when the bucket name is 3 to 63
bytes long (`len`), contains neither '_' nor ' ', and equals its own lowercasing, and the
main and the companion database names are both non-empty and at most 63 bytes long; in
every other case it returns an error. -/
theorem ValidateResourceNames_accepts_iff (unicodeLower : Char → Char)
    (names : types.ResourceNames) :
    (ValidateResourceNames unicodeLower names = none ↔
        (3 ≤ len names.S3Bucket ∧ len names.S3Bucket ≤ 63 ∧ '_' ∉ names.S3Bucket.data ∧
            ' ' ∉ names.S3Bucket.data ∧
            names.S3Bucket = strings.ToLower unicodeLower names.S3Bucket) ∧
          (len names.DatabaseMain ≠ 0 ∧ len names.DatabaseMain ≤ 63) ∧
          (len names.DatabaseHangfire ≠ 0 ∧ len names.DatabaseHangfire ≤ 63)) ∧
      (ValidateResourceNames unicodeLower names = none ∨
        ∃ err, ValidateResourceNames unicodeLower names = some err) := by
  refine ⟨?_, ?_⟩
  · rw [← validateS3BucketName_eq_none, ← validateDatabaseName_eq_none,
      ← validateDatabaseName_eq_none]
    unfold ValidateResourceNames
    cases validateS3BucketName unicodeLower names.S3Bucket <;>
      cases validateDatabaseName names.DatabaseMain <;>
      cases validateDatabaseName names.DatabaseHangfire <;> simp
  · cases h : ValidateResourceNames unicodeLower names with
    | none => exact Or.inl rfl
    | some err => exact Or.inr ⟨err, rfl⟩

theorem ValidateResourceNames_accepts_iff_witness :
    ValidateResourceNames id (GenerateResourceNames "acme-co" cmd.exampleConfig) = none :=
  (ValidateResourceNames_accepts_iff id
    (GenerateResourceNames "acme-co" cmd.exampleConfig)).1.mpr
    ⟨⟨by decide, by decide, by decide, by decide, by decide⟩, ⟨by decide, by decide⟩,
      ⟨by decide, by decide⟩⟩

end resources

namespace envvars

/-- C15, where the code departs from it: the initial environment of the example client,
whose two URLs are empty, gives "Paths_FrontEndPath" the value
"https://acme-co-easy.vercel.app", which is not the empty string. -/
theorem initial_environment_frontend_path_not_empty :
    cmd.exampleClient.BackendInfo.URL = "" ∧ cmd.exampleClient.FrontendInfo.URL = "" ∧
      GenerateDeploymentEnvironment id cmd.exampleClient cmd.exampleConfig =
        .ok cmd.exampleEnvironment ∧
      cmd.exampleEnvironment.Backend.ComponentLevelVars.lookup "Paths_FrontEndPath" =
        some
          { Key := "Paths_FrontEndPath", Value := "https://acme-co-easy.vercel.app",
            Scope := godo.AppVariableScope_RunAndBuildTime,
            Type_ := godo.AppVariableType_General } ∧
      (cmd.exampleEnvironment.Backend.ComponentLevelVars.lookup "Paths_FrontEndPath").map
          (fun v => v.Value) ≠ some "" := by
  refine ⟨rfl, rfl, rfl, by decide, by decide⟩

/-- C15 as amended: in the environment `GenerateDeploymentEnvironment` yields for a
client whose backend and frontend URLs are both empty, "Paths_BackendPath" has the empty
string as value, and "Paths_FrontEndPath" has the derived default URL
`https://<sanitized name>-<name prefix>.vercel.app`, the field `FrontendURL` of the resource
names, which is not empty. -/
theorem initial_environment_paths (unicodeLower : Char → Char) (client : types.Client)
    (cfg : config.Config) (env : types.DeploymentEnvironment)
    (hb : client.BackendInfo.URL = "") (hf : client.FrontendInfo.URL = "")
    (hgen : GenerateDeploymentEnvironment unicodeLower client cfg = .ok env) :
    env.Backend.ComponentLevelVars.lookup "Paths_BackendPath" =
        some
          { Key := "Paths_BackendPath", Value := "",
            Scope := godo.AppVariableScope_RunAndBuildTime,
            Type_ := godo.AppVariableType_General } ∧
      env.Backend.ComponentLevelVars.lookup "Paths_FrontEndPath" =
        some
          { Key := "Paths_FrontEndPath",
            Value :=
              "https://" ++ client.SanitizedClientName ++ "-" ++ cfg.Application.NamePrefix ++
                ".vercel.app",
            Scope := godo.AppVariableScope_RunAndBuildTime,
            Type_ := godo.AppVariableType_General } ∧
      env.ResourceNames.FrontendURL =
        "https://" ++ client.SanitizedClientName ++ "-" ++ cfg.Application.NamePrefix ++
          ".vercel.app" ∧
      "https://" ++ client.SanitizedClientName ++ "-" ++ cfg.Application.NamePrefix ++
          ".vercel.app" ≠ "" := by
  have henv := cmd.GenerateDeploymentEnvironment_eq unicodeLower client cfg env hgen
  subst henv
  refine ⟨?_, ?_, rfl, ?_⟩
  · simp only []
    rw [cmd.lookup_Paths_BackendPath]
    simp [hb, resources.GenerateResourceNames]
  · simp only []
    rw [cmd.lookup_Paths_FrontEndPath]
    simp [hf, resources.GenerateResourceNames, resources.generateFrontendURL]
  · intro h
    have hlen := congrArg String.length h
    simp only [String.length_append] at hlen
    have h1 : "-".length = 1 := by decide
    have h2 : "".length = 0 := by decide
    omega

theorem initial_environment_paths_witness :
    cmd.exampleEnvironment.Backend.ComponentLevelVars.lookup "Paths_BackendPath" =
        some
          { Key := "Paths_BackendPath", Value := "",
            Scope := godo.AppVariableScope_RunAndBuildTime,
            Type_ := godo.AppVariableType_General } ∧
      cmd.exampleEnvironment.Backend.ComponentLevelVars.lookup "Paths_FrontEndPath" =
        some
          { Key := "Paths_FrontEndPath",
            Value :=
              "https://" ++ cmd.exampleClient.SanitizedClientName ++ "-" ++
                cmd.exampleConfig.Application.NamePrefix ++ ".vercel.app",
            Scope := godo.AppVariableScope_RunAndBuildTime,
            Type_ := godo.AppVariableType_General } :=
  have h := initial_environment_paths id cmd.exampleClient cmd.exampleConfig
    cmd.exampleEnvironment rfl rfl rfl
  ⟨h.1, h.2.1⟩

end envvars

/-! ## `rollback.Manager` after a rollback -/

namespace rollback

variable {S : Type}

/-- C19, where the code departs from it: after `ExecuteRollback` on a manager holding
A, B and C, the manager still holds the three actions, and a second `ExecuteRollback` on it
runs C, B, A once more. -/
theorem ExecuteRollback_does_not_drain :
    (((registerAll NewManager
        [logging "A" false, logging "B" false, logging "C" false]).ExecuteRollback
          []).manager.actions.map (fun a => a.Name) = ["A", "B", "C"]) ∧
      ((((registerAll NewManager
        [logging "A" false, logging "B" false, logging "C" false]).ExecuteRollback
          []).manager.ExecuteRollback []).invoked.map (fun inv => inv.action.Name) =
        ["C", "B", "A"]) ∧
      ((((registerAll NewManager
        [logging "A" false, logging "B" false, logging "C" false]).ExecuteRollback
          []).manager.ExecuteRollback []).invoked ≠ []) := by
  refine ⟨by decide, by decide, ?_⟩
  intro h
  have := congrArg List.length h
  revert this
  decide

/-- C19 as amended: `ExecuteRollback` leaves the manager as it was, with all its
registered actions, so that a second `ExecuteRollback` on the same manager calls every
registered action again, last-registered first. -/
theorem ExecuteRollback_keeps_actions (m : Manager S) (s s2 : S) :
    (m.ExecuteRollback s).manager = m ∧
      (m.ExecuteRollback s).manager.actions = m.actions ∧
      ((m.ExecuteRollback s).manager.ExecuteRollback s2).invoked.map (fun inv => inv.action) =
        m.actions.reverse ∧
      ((m.ExecuteRollback s).manager.ExecuteRollback s2).invoked.length = m.actions.length := by
  have hm : (m.ExecuteRollback s).manager = m := by
    simp only [Manager.ExecuteRollback]
    split <;> rfl
  refine ⟨hm, by rw [hm], ?_, ?_⟩
  · rw [hm]
    exact ExecuteRollback_actions m s2
  · rw [hm]
    have := congrArg List.length (ExecuteRollback_indices m s2)
    simpa using this

end rollback

/-! ## `digitalocean.WaitForAppDeploymentAndGetURL` -/

namespace digitalocean

/-- C20, evaluated where the code departs from it. A poll that observes the phase
"ERROR" makes the retried closure return an ordinary error, which `retry.Do` retries like
any other. With a provider that reports "ERROR" at the first poll and "ACTIVE" at the
second, the wait goes on after the first poll: 20 s later the provider is polled again and
the URL is returned with a nil error. With a provider that reports "CANCELED" at every poll,
all 45 attempts are made before the wait fails. -/
theorem WaitForAppDeploymentAndGetURL_retries_failed_phase :
    ((waitOperation (phased ["ERROR"]) "app" { api := 0, appURL := "", polls := [] }).1 =
        some (Error.new "deployment failed with phase: ERROR") ∧
      (WaitForAppDeploymentAndGetURL retry.background (phased ["ERROR"]) "app" 0).result =
        .ok "https://backend.example" ∧
      (WaitForAppDeploymentAndGetURL retry.background (phased ["ERROR"]) "app" 0).trace =
        [retry.Event.call 1, retry.Event.timer 2 20000000000, retry.Event.call 2] ∧
      (WaitForAppDeploymentAndGetURL retry.background (phased ["ERROR"]) "app" 0).state.polls =
        [Poll.Get "app", Poll.GetDeployment "app" "d1", Poll.Get "app",
          Poll.GetDeployment "app" "d1"]) ∧
    ((waitOperation (phased (List.replicate 45 "CANCELED")) "app"
          { api := 0, appURL := "", polls := [] }).1 =
        some (Error.new "deployment failed with phase: CANCELED") ∧
      retry.callCount
          (WaitForAppDeploymentAndGetURL retry.background
            (phased (List.replicate 45 "CANCELED")) "app" 0).trace = 45 ∧
      (WaitForAppDeploymentAndGetURL retry.background
          (phased (List.replicate 45 "CANCELED")) "app" 0).state.polls.length = 90 ∧
      (WaitForAppDeploymentAndGetURL retry.background
          (phased (List.replicate 45 "CANCELED")) "app" 0).result =
        .error
          (Error.wrapf "app deployment did not complete within timeout"
            (Error.failedAfter 45
              (some (Error.new "deployment failed with phase: CANCELED"))))) :=
  ⟨⟨rfl, rfl, rfl, rfl⟩, ⟨rfl, rfl, rfl, rfl⟩⟩

end digitalocean

/-! ## `utils.SanitizeClientName` -/

namespace utils

theorem replaceFrom_space (l : List Char) :
    strings.replaceFrom [' '] ['-'] 0 l = l.map (fun c => if c = ' ' then '-' else c) := by
  induction l with
  | nil => rfl
  | cons c cs ih =>
    by_cases hc : c = ' '
    · subst hc
      simp [strings.replaceFrom, ih]
    · have hne : (' ' == c) = false := by
        simp only [beq_eq_false_iff_ne, ne_eq]
        exact fun h => hc h.symm
      simp [strings.replaceFrom, List.isPrefixOf, hne, hc, ih]

/-- The runes of the sanitized name: those of the trimmed name, each lowercased and then
turned into a hyphen when it is a space. -/
theorem SanitizeClientName_data (unicodeLower : Char → Char) (clientName : String) :
    (SanitizeClientName unicodeLower clientName).data =
      (strings.TrimSpace clientName).data.map
        (fun c =>
          if strings.toLowerRune unicodeLower c = ' ' then '-'
          else strings.toLowerRune unicodeLower c) := by
  have hold : (" " : String).data = [' '] := rfl
  have hnew : ("-" : String).data = ['-'] := rfl
  simp only [SanitizeClientName, strings.ReplaceAll, strings.ToLower, hold, hnew,
    List.isEmpty_cons, Bool.false_eq_true, if_false, replaceFrom_space, List.map_map]
  rfl

theorem mem_TrimSpace (clientName : String) (c : Char)
    (h : c ∈ (strings.TrimSpace clientName).data) : c ∈ clientName.data := by
  simp only [strings.TrimSpace] at h
  exact (List.dropWhile_sublist _).subset ((List.rdropWhile_prefix _ _).subset h)

theorem utf8ByteSize_ascii (l : List Char) (h : ∀ c ∈ l, c.toNat ≤ 127) :
    len (String.mk l) = l.length := by
  simp only [len, String.utf8ByteSize]
  induction l with
  | nil => rfl
  | cons c cs ih =>
    have hc : c.toNat ≤ 127 := h c (List.mem_cons_self _ _)
    have hsize : c.utf8Size = 1 := by
      simp only [Char.utf8Size]
      have : c.val ≤ 127 := by
        rw [UInt32.le_def]
        exact hc
      simp [this]
    simp only [String.utf8ByteSize.go, hsize, List.length_cons]
    rw [ih (fun d hd => h d (List.mem_cons_of_mem _ hd))]

theorem toLower_ascii (c : Char) (h : c.toNat ≤ 127) :
    c.toLower.toNat ≤ 127 ∧ c.toLower.isUpper = false := by
  have hval : c.val.toNat = c.toNat := rfl
  by_cases hu : 65 ≤ c.toNat ∧ c.toNat ≤ 90
  · obtain ⟨h1, h2⟩ := hu
    have : ∀ n, 65 ≤ n → n ≤ 90 →
        (Char.ofNat (n + 32)).toNat ≤ 127 ∧ (Char.ofNat (n + 32)).isUpper = false := by
      intro n hn1 hn2
      interval_cases n <;> decide
    have hlow : c.toLower = Char.ofNat (c.toNat + 32) := by
      simp [Char.toLower, h1, h2]
    rw [hlow]
    exact this _ h1 h2
  · have hlow : c.toLower = c := by
      simp only [Char.toLower]
      rw [if_neg]
      simpa using hu
    rw [hlow]
    refine ⟨h, ?_⟩
    simp only [Char.isUpper, Bool.and_eq_false_imp, decide_eq_true_eq, decide_eq_false_iff_not]
    intro h1 h2
    apply hu
    rw [UInt32.le_def] at h2
    rw [ge_iff_le, UInt32.le_def] at h1
    exact ⟨h1, h2⟩

end utils

/-! ## `retry.Do`: no attempt, and the time waited -/

namespace retry

variable {σ : Type}

/-- C27: with `MaxAttempts ≤ 0` the loop of `retry.Do` is not entered: the operation is
never called, there is no wait, the state is untouched, and the result is the non-nil
error "operation failed after `MaxAttempts` attempts" wrapping nil, whatever the operation
is. -/
theorem Do_without_attempts (ctx : Context) (config : Config)
    (operation : σ → Option Error × σ) (s : σ) (h : config.MaxAttempts ≤ 0) :
    (Do ctx config operation s).trace = [] ∧
      callCount (Do ctx config operation s).trace = 0 ∧
      waits (Do ctx config operation s).trace = [] ∧
      (Do ctx config operation s).state = s ∧
      (Do ctx config operation s).err = some (Error.failedAfter config.MaxAttempts none) ∧
      (Do ctx config operation s).err ≠ none := by
  have h0 : config.MaxAttempts.toNat = 0 := Int.toNat_eq_zero.mpr h
  simp [Do, h0, Do.loop, callCount, waits]

theorem Do_without_attempts_witness :
    callCount (Do background ⟨-2, 1000, 500⟩ (succeedsAt 1) 0).trace = 0 ∧
      (Do background ⟨-2, 1000, 500⟩ (succeedsAt 1) 0).err =
        some (Error.failedAfter (-2) none) :=
  have h := Do_without_attempts background ⟨-2, 1000, 500⟩ (succeedsAt 1) 0 (by decide)
  ⟨h.2.1, h.2.2.2.2.1⟩

end retry

namespace retry

variable {σ : Type}

end retry

namespace retry

variable {σ : Type}

end retry

namespace validation

/-- C26, where the code departs from it: `validateClientName` accepts "Acme\tCo" and
"Acme\nCo" (and every name of at most 50 bytes made of runes of `[a-zA-Z0-9\t\n\f\r _-]`
that is not blank), although the tab and the line feed are none of the characters its error
message names as allowed; the sanitized name and the bucket name derived from it keep
the tab. -/
theorem validateClientName_accepts_tab :
    validateClientName "Acme\tCo" = none ∧ validateClientName "Acme\nCo" = none ∧
      ("Acme\tCo".data.all allowedByMessage = false) ∧
      ("Acme\nCo".data.all allowedByMessage = false) ∧
      utils.SanitizeClientName id "Acme\tCo" = "acme\tco" ∧
      resources.ValidateResourceNames id
        (resources.GenerateResourceNames (utils.SanitizeClientName id "Acme\tCo")
          cmd.exampleConfig) = none := by
  refine ⟨rfl, rfl, by decide, by decide, by decide, rfl⟩

end validation

namespace utils

/-- On a rune, `Char.toLower` is the identity or moves an uppercase ASCII letter to the
matching lowercase one. -/
theorem toLower_cases (c : Char) :
    c.toLower = c ∨ (65 ≤ c.toNat ∧ c.toNat ≤ 90 ∧ c.toLower.toNat = c.toNat + 32) := by
  by_cases hu : 65 ≤ c.toNat ∧ c.toNat ≤ 90
  · obtain ⟨h1, h2⟩ := hu
    right
    have : ∀ n, 65 ≤ n → n ≤ 90 → (Char.ofNat (n + 32)).toNat = n + 32 := by
      intro n hn1 hn2
      interval_cases n <;> decide
    have hlow : c.toLower = Char.ofNat (c.toNat + 32) := by
      simp [Char.toLower, h1, h2]
    rw [hlow]
    exact ⟨h1, h2, this _ h1 h2⟩
  · left
    simp only [Char.toLower]
    rw [if_neg]
    simpa using hu

theorem toLower_toLower (c : Char) : c.toLower.toLower = c.toLower := by
  rcases toLower_cases c.toLower with h | ⟨h1, h2, _⟩
  · exact h
  · rcases toLower_cases c with h | ⟨_, _, h5⟩
    · rw [h]
      rcases toLower_cases c with h' | ⟨_, _, h5⟩
      · exact h'
      · rw [h] at h5
        omega
    · omega

theorem IsSpace_toLower (c : Char) (h : unicode.IsSpace c = false) :
    unicode.IsSpace c.toLower = false := by
  rcases toLower_cases c with h' | ⟨h1, h2, h3⟩
  · rw [h']
    exact h
  · simp only [unicode.IsSpace, h3, decide_eq_false_iff_not]
    omega

theorem toLowerRune_ascii (unicodeLower : Char → Char) (c : Char) (hc : c.toNat ≤ 127) :
    strings.toLowerRune unicodeLower c = c.toLower := by
  simp [strings.toLowerRune, hc]

theorem toLowerRune_idem_ascii (unicodeLower : Char → Char) (c : Char) (hc : c.toNat ≤ 127) :
    strings.toLowerRune unicodeLower (strings.toLowerRune unicodeLower c) =
      strings.toLowerRune unicodeLower c := by
  rw [toLowerRune_ascii unicodeLower c hc,
    toLowerRune_ascii unicodeLower c.toLower (toLower_ascii c hc).1]
  exact toLower_toLower c

/-- The map `SanitizeClientName` applies to each rune of the trimmed name. -/
theorem sanitize_rune_idem (unicodeLower : Char → Char) (c : Char)
    (hidem : 127 < c.toNat →
      strings.toLowerRune unicodeLower (unicodeLower c) = unicodeLower c) :
    (fun c => if strings.toLowerRune unicodeLower c = ' ' then '-'
        else strings.toLowerRune unicodeLower c)
      (if strings.toLowerRune unicodeLower c = ' ' then '-'
        else strings.toLowerRune unicodeLower c) =
      (if strings.toLowerRune unicodeLower c = ' ' then '-'
        else strings.toLowerRune unicodeLower c) := by
  have hL : strings.toLowerRune unicodeLower (strings.toLowerRune unicodeLower c) =
      strings.toLowerRune unicodeLower c := by
    by_cases hc : c.toNat ≤ 127
    · have h1 : strings.toLowerRune unicodeLower c = c.toLower := by
        simp [strings.toLowerRune, hc]
      rw [h1]
      simp only [strings.toLowerRune, (toLower_ascii c hc).1, if_true]
      exact toLower_toLower c
    · have h1 : strings.toLowerRune unicodeLower c = unicodeLower c := by
        simp [strings.toLowerRune, hc]
      rw [h1]
      exact hidem (by omega)
  by_cases hs : strings.toLowerRune unicodeLower c = ' '
  · have hh : strings.toLowerRune unicodeLower '-' = '-' := rfl
    simp only [hs, if_true, hh]
    decide
  · simp only [hs, if_false, hL]

theorem sanitize_rune_not_space (unicodeLower : Char → Char) (c : Char)
    (hspace : 127 < c.toNat → unicode.IsSpace c = false →
      unicode.IsSpace (unicodeLower c) = false)
    (h : unicode.IsSpace c = false) :
    unicode.IsSpace (if strings.toLowerRune unicodeLower c = ' ' then '-'
      else strings.toLowerRune unicodeLower c) = false := by
  split
  · decide
  · by_cases hc : c.toNat ≤ 127
    · simp only [strings.toLowerRune, hc, if_true]
      exact IsSpace_toLower c h
    · simp only [strings.toLowerRune, hc, if_false]
      exact hspace (by omega) h

theorem dropWhile_map_self {p : Char → Bool} (g : Char → Char) (l : List Char)
    (h : l.dropWhile p = l) (hg : ∀ c ∈ l, p c = false → p (g c) = false) :
    (l.map g).dropWhile p = l.map g := by
  cases l with
  | nil => rfl
  | cons a l =>
    have ha : p a = false := by
      by_contra hne
      have hne : p a = true := by simpa using hne
      have hlen := congrArg List.length h
      rw [List.dropWhile_cons_of_pos hne] at hlen
      have := (List.dropWhile_sublist p (l := l)).length_le
      rw [List.length_cons] at hlen
      omega
    simp [List.dropWhile, hg a (List.mem_cons_self _ _) ha]

theorem rdropWhile_map_self {p : Char → Bool} (g : Char → Char) (l : List Char)
    (h : l.rdropWhile p = l) (hg : ∀ c ∈ l, p c = false → p (g c) = false) :
    (l.map g).rdropWhile p = l.map g := by
  have h1 : l.reverse.dropWhile p = l.reverse := by
    have := congrArg List.reverse h
    simpa [List.rdropWhile] using this
  have h2 := dropWhile_map_self g l.reverse h1 (fun c hc => hg c (List.mem_reverse.mp hc))
  simp only [List.rdropWhile, ← List.map_reverse, h2, List.reverse_reverse]

/-- The trimmed name starts and ends with a rune that is not white space. -/
theorem TrimSpace_trimmed (s : String) :
    (strings.TrimSpace s).data.dropWhile unicode.IsSpace = (strings.TrimSpace s).data ∧
      (strings.TrimSpace s).data.rdropWhile unicode.IsSpace = (strings.TrimSpace s).data := by
  simp only [strings.TrimSpace]
  refine ⟨?_, List.rdropWhile_idempotent _ _⟩
  have hpre : (s.data.dropWhile unicode.IsSpace).rdropWhile unicode.IsSpace <+:
      s.data.dropWhile unicode.IsSpace := List.rdropWhile_prefix _ _
  have hd : (s.data.dropWhile unicode.IsSpace).dropWhile unicode.IsSpace =
      s.data.dropWhile unicode.IsSpace := List.dropWhile_idempotent _ _
  generalize s.data.dropWhile unicode.IsSpace = d at hpre hd
  generalize d.rdropWhile unicode.IsSpace = t at hpre
  cases t with
  | nil => rfl
  | cons a t =>
    obtain ⟨r, hr⟩ := hpre
    subst hr
    have ha : unicode.IsSpace a = false := by
      by_contra hne
      have hne : unicode.IsSpace a = true := by simpa using hne
      have hlen := congrArg List.length hd
      rw [List.cons_append, List.dropWhile_cons_of_pos hne] at hlen
      have := (List.dropWhile_sublist unicode.IsSpace (l := t ++ r)).length_le
      rw [List.length_cons] at hlen
      omega
    simp [List.dropWhile, ha]

theorem TrimSpace_of_trimmed (l : List Char) (h1 : l.dropWhile unicode.IsSpace = l)
    (h2 : l.rdropWhile unicode.IsSpace = l) : strings.TrimSpace (String.mk l) = String.mk l := by
  simp only [strings.TrimSpace, h1, h2]

/-- C30: `SanitizeClientName` is idempotent. For every client name `x`,
`SanitizeClientName (SanitizeClientName x) = SanitizeClientName x`, given two facts about
the case table of Go's `unicode` package on the runes of `x` above ASCII: lowercasing such
a rune yields a rune that lowercasing leaves unchanged, and lowercasing such a rune that is
not white space does not yield white space. The table is not consulted for an ASCII name, so
for ASCII names the equality holds outright. -/
theorem SanitizeClientName_idempotent (unicodeLower : Char → Char) (x : String)
    (hidem : ∀ c ∈ x.data, 127 < c.toNat →
      strings.toLowerRune unicodeLower (unicodeLower c) = unicodeLower c)
    (hspace : ∀ c ∈ x.data, 127 < c.toNat → unicode.IsSpace c = false →
      unicode.IsSpace (unicodeLower c) = false) :
    SanitizeClientName unicodeLower (SanitizeClientName unicodeLower x) =
      SanitizeClientName unicodeLower x := by
  have hdata := SanitizeClientName_data unicodeLower x
  obtain ⟨ht1, ht2⟩ := TrimSpace_trimmed x
  have hns : ∀ c ∈ (strings.TrimSpace x).data, unicode.IsSpace c = false →
      unicode.IsSpace (if strings.toLowerRune unicodeLower c = ' ' then '-'
        else strings.toLowerRune unicodeLower c) = false := fun c hc h =>
    sanitize_rune_not_space unicodeLower c (hspace c (mem_TrimSpace x c hc)) h
  have htrim : strings.TrimSpace (SanitizeClientName unicodeLower x) =
      SanitizeClientName unicodeLower x := by
    have hmk : SanitizeClientName unicodeLower x =
        String.mk (SanitizeClientName unicodeLower x).data := rfl
    rw [hmk, hdata]
    exact TrimSpace_of_trimmed _ (dropWhile_map_self _ _ ht1 hns) (rdropWhile_map_self _ _ ht2 hns)
  apply String.ext
  rw [SanitizeClientName_data unicodeLower (SanitizeClientName unicodeLower x), htrim, hdata,
    List.map_map]
  apply List.map_congr_left
  intro c hc
  exact sanitize_rune_idem unicodeLower c (hidem c (mem_TrimSpace x c hc))

theorem SanitizeClientName_idempotent_witness :
    SanitizeClientName id (SanitizeClientName id "  Açaí Co ") =
      SanitizeClientName id "  Açaí Co " :=
  SanitizeClientName_idempotent id "  Açaí Co "
    (fun c _ h => by
      have h2 : ¬ c.toNat ≤ 127 := by omega
      simp [strings.toLowerRune, h2])
    (fun _ _ _ h => h)

end utils

namespace resources

theorem ValidateResourceNames_eq_none (unicodeLower : Char → Char)
    (names : types.ResourceNames) :
    ValidateResourceNames unicodeLower names = none ↔
      validateS3BucketName unicodeLower names.S3Bucket = none ∧
        validateDatabaseName names.DatabaseMain = none ∧
        validateDatabaseName names.DatabaseHangfire = none := by
  unfold ValidateResourceNames
  cases validateS3BucketName unicodeLower names.S3Bucket <;>
    cases validateDatabaseName names.DatabaseMain <;>
    cases validateDatabaseName names.DatabaseHangfire <;> simp

theorem len_append (a b : String) : len (a ++ b) = len a + len b := by
  simp [len, String.utf8ByteSize]
  exact String.utf8Len_append a.data b.data

theorem data_append (a b : String) : (a ++ b).data = a.data ++ b.data := rfl

theorem ToLower_append (unicodeLower : Char → Char) (a b : String) :
    strings.ToLower unicodeLower (a ++ b) =
      strings.ToLower unicodeLower a ++ strings.ToLower unicodeLower b := by
  apply String.ext
  simp [strings.ToLower, data_append]

end resources

namespace validation

theorem clientNameClass_ascii (c : Char) (h : clientNameClass c = true) : c.toNat ≤ 127 := by
  simp only [clientNameClass, decide_eq_true_eq] at h
  omega

theorem validateClientName_eq_none (name : String) :
    validateClientName name = none ↔
      strings.TrimSpace name ≠ "" ∧ len name ≤ 50 ∧ name.data ≠ [] ∧
        ∀ c ∈ name.data, clientNameClass c = true := by
  unfold validateClientName
  split_ifs with h1 h2 h3
  · simp [h1]
  · simp
    intro _ h
    omega
  · simp only [false_iff, not_and]
    intro _ _ hne hall
    simp only [clientNameRegex.MatchString, Bool.not_and, Bool.not_not, Bool.or_eq_true,
      List.isEmpty_iff] at h3
    rcases h3 with h3 | h3
    · exact hne h3
    · simp only [Bool.not_eq_true', List.all_eq_false] at h3
      obtain ⟨c, hc, hcl⟩ := h3
      exact hcl (hall c hc)
  · simp only [true_iff]
    simp only [clientNameRegex.MatchString, Bool.not_and, Bool.not_not, Bool.or_eq_true,
      List.isEmpty_iff, not_or, Bool.not_eq_true', Bool.not_eq_false, List.all_eq_true] at h3
    exact ⟨h1, by omega, h3.1, h3.2⟩

end validation

namespace envvars

/-- The sanitized form of an accepted client name: ASCII, between 1 and 50 bytes long,
without space, unchanged by lowercasing, and without underscore when the name has none. -/
theorem SanitizeClientName_of_accepted (unicodeLower : Char → Char) (name : String)
    (hname : validation.validateClientName name = none) :
    1 ≤ len (utils.SanitizeClientName unicodeLower name) ∧
      len (utils.SanitizeClientName unicodeLower name) ≤ 50 ∧
      ' ' ∉ (utils.SanitizeClientName unicodeLower name).data ∧
      ('_' ∉ name.data → '_' ∉ (utils.SanitizeClientName unicodeLower name).data) ∧
      strings.ToLower unicodeLower (utils.SanitizeClientName unicodeLower name) =
        utils.SanitizeClientName unicodeLower name := by
  obtain ⟨hne, hlen, _, hall⟩ := (validation.validateClientName_eq_none name).mp hname
  have hascii : ∀ c ∈ name.data, c.toNat ≤ 127 := fun c hc =>
    validation.clientNameClass_ascii c (hall c hc)
  have hdata := utils.SanitizeClientName_data unicodeLower name
  have htrim : ∀ c ∈ (strings.TrimSpace name).data, c.toNat ≤ 127 := fun c hc =>
    hascii c (utils.mem_TrimSpace name c hc)
  have hlenName : len name = name.data.length := utils.utf8ByteSize_ascii name.data hascii
  have hsub : (strings.TrimSpace name).data.length ≤ name.data.length := by
    simp only [strings.TrimSpace]
    exact ((List.rdropWhile_prefix _ _).sublist.trans (List.dropWhile_sublist _)).length_le
  have hpos : 1 ≤ (strings.TrimSpace name).data.length := by
    rcases hd : (strings.TrimSpace name).data with _ | ⟨a, l⟩
    · exfalso
      apply hne
      apply String.ext
      rw [hd]
    · simp
  have hsascii : ∀ c ∈ (utils.SanitizeClientName unicodeLower name).data, c.toNat ≤ 127 := by
    intro c hc
    rw [hdata] at hc
    simp only [List.mem_map] at hc
    obtain ⟨d, hd, rfl⟩ := hc
    split
    · decide
    · rw [utils.toLowerRune_ascii unicodeLower d (htrim d hd)]
      exact (utils.toLower_ascii d (htrim d hd)).1
  have hlenS : len (utils.SanitizeClientName unicodeLower name) =
      (strings.TrimSpace name).data.length := by
    have := utils.utf8ByteSize_ascii (utils.SanitizeClientName unicodeLower name).data hsascii
    change len (utils.SanitizeClientName unicodeLower name) = _ at this
    rw [this, hdata, List.length_map]
  refine ⟨by omega, by omega, ?_, ?_, ?_⟩
  · rw [hdata]
    simp only [List.mem_map, not_exists, not_and]
    intro c _
    split
    · decide
    · assumption
  · intro hu hmem
    rw [hdata] at hmem
    simp only [List.mem_map] at hmem
    obtain ⟨d, hd, hg⟩ := hmem
    have hd' : d ≠ '_' := fun h => hu (h ▸ utils.mem_TrimSpace name d hd)
    split at hg
    · exact absurd hg (by decide)
    · rw [utils.toLowerRune_ascii unicodeLower d (htrim d hd)] at hg
      rcases utils.toLower_cases d with h | ⟨h1, h2, h3⟩
      · exact hd' (h ▸ hg)
      · rw [hg] at h3
        have : ('_' : Char).toNat = 95 := rfl
        omega
  · apply String.ext
    simp only [strings.ToLower]
    rw [hdata, List.map_map]
    apply List.map_congr_left
    intro c hc
    simp only [Function.comp]
    split
    · rfl
    · exact utils.toLowerRune_idem_ascii unicodeLower c (htrim c hc)

/-- C28: for every client name that `validateClientName` accepts and that contains no
underscore, and every name prefix that equals its own lowercasing, contains neither '_' nor
' ' and is 1 to 12 bytes long, `ValidateResourceNames` accepts the names that
`GenerateResourceNames` derives from `SanitizeClientName(name)`; so for every client with
that sanitized name both environment generators return a value, never the validation
error. -/
theorem GenerateResourceNames_valid_of_accepted_name (unicodeLower : Char → Char)
    (name : String) (cfg : config.Config)
    (hname : validation.validateClientName name = none)
    (hunder : '_' ∉ name.data)
    (hlower : strings.ToLower unicodeLower cfg.Application.NamePrefix =
      cfg.Application.NamePrefix)
    (hpu : '_' ∉ cfg.Application.NamePrefix.data)
    (hps : ' ' ∉ cfg.Application.NamePrefix.data)
    (hp1 : 1 ≤ len cfg.Application.NamePrefix) (hp12 : len cfg.Application.NamePrefix ≤ 12) :
    resources.ValidateResourceNames unicodeLower
        (resources.GenerateResourceNames (utils.SanitizeClientName unicodeLower name) cfg) =
        none ∧
      ∀ client : types.Client,
        client.SanitizedClientName = utils.SanitizeClientName unicodeLower name →
        (∃ env, GenerateDeploymentEnvironment unicodeLower client cfg = .ok env) ∧
          ∃ vars, GenerateVercelEnvironmentVariables unicodeLower client cfg = .ok vars := by
  obtain ⟨h1, h50, hsp, hus, hlow⟩ := SanitizeClientName_of_accepted unicodeLower name hname
  have hus := hus hunder
  have hvalid : resources.ValidateResourceNames unicodeLower
      (resources.GenerateResourceNames (utils.SanitizeClientName unicodeLower name) cfg) =
      none := by
    rw [resources.ValidateResourceNames_eq_none, resources.validateS3BucketName_eq_none,
      resources.validateDatabaseName_eq_none, resources.validateDatabaseName_eq_none]
    have hdash : len "-" = 1 := rfl
    have hhf : len "-hf" = 3 := rfl
    have hdashL : strings.ToLower unicodeLower "-" = "-" := rfl
    simp only [resources.GenerateResourceNames, resources.generateS3BucketName,
      resources.len_append, resources.data_append, resources.ToLower_append, hdash, hhf,
      hlower, hlow, hdashL, List.mem_append, not_or]
    refine ⟨⟨by omega, by omega, ⟨⟨hpu, by decide⟩, hus⟩, ⟨⟨hps, by decide⟩, hsp⟩, trivial⟩,
      ⟨by omega, by omega⟩, ⟨by omega, by omega⟩⟩
  refine ⟨hvalid, ?_⟩
  intro client hc
  constructor
  · simp only [GenerateDeploymentEnvironment, hc, hvalid]
    exact ⟨_, rfl⟩
  · simp only [GenerateVercelEnvironmentVariables, hc, hvalid]
    exact ⟨_, rfl⟩

theorem GenerateResourceNames_valid_of_accepted_name_witness :
    resources.ValidateResourceNames id
        (resources.GenerateResourceNames (utils.SanitizeClientName id "Acme Co")
          cmd.exampleConfig) = none :=
  (GenerateResourceNames_valid_of_accepted_name id "Acme Co" cmd.exampleConfig rfl
    (by decide) rfl (by decide) (by decide) (by decide) (by decide)).1

end envvars

namespace cmd

variable {σ : Type}

theorem GenerateDeploymentEnvironment_ok_iff (unicodeLower : Char → Char)
    (client : types.Client) (cfg : config.Config) :
    (∃ env, envvars.GenerateDeploymentEnvironment unicodeLower client cfg = .ok env) ↔
      resources.ValidateResourceNames unicodeLower
        (resources.GenerateResourceNames client.SanitizedClientName cfg) = none := by
  unfold envvars.GenerateDeploymentEnvironment
  cases hv : resources.ValidateResourceNames unicodeLower
      (resources.GenerateResourceNames client.SanitizedClientName cfg) with
  | some err => simp [hv]
  | none => simp [hv]

theorem GenerateVercelEnvironmentVariables_ok_iff (unicodeLower : Char → Char)
    (client : types.Client) (cfg : config.Config) :
    (∃ vars, envvars.GenerateVercelEnvironmentVariables unicodeLower client cfg = .ok vars) ↔
      resources.ValidateResourceNames unicodeLower
        (resources.GenerateResourceNames client.SanitizedClientName cfg) = none := by
  unfold envvars.GenerateVercelEnvironmentVariables
  cases hv : resources.ValidateResourceNames unicodeLower
      (resources.GenerateResourceNames client.SanitizedClientName cfg) with
  | some err => simp [hv]
  | none => simp [hv]

/-- Once the first materialization has succeeded, `freshInstall` returns none of the three
errors with which it wraps a failed re-materialization. -/
theorem freshInstall_no_rematerialization_error (unicodeLower : Char → Char) (P : Providers σ)
    (client : types.Client) (cfg : config.Config) (w : World σ)
    (env : types.DeploymentEnvironment)
    (hgen : envvars.GenerateDeploymentEnvironment unicodeLower client cfg = .ok env)
    (e : Error) :
    (freshInstall unicodeLower P client cfg w).err ≠
        some (Error.wrapf "failed to generate Vercel environment variables" e) ∧
      (freshInstall unicodeLower P client cfg w).err ≠
        some (Error.wrapf "failed to generate updated Vercel environment variables" e) ∧
      (freshInstall unicodeLower P client cfg w).err ≠
        some (Error.wrapf "failed to generate updated deployment environment" e) := by
  have hvalid := (GenerateDeploymentEnvironment_ok_iff unicodeLower client cfg).mp ⟨env, hgen⟩
  have hV : ∀ c : types.Client, c.SanitizedClientName = client.SanitizedClientName →
      ∀ err, envvars.GenerateVercelEnvironmentVariables unicodeLower c cfg ≠ .error err := by
    intro c hc err h
    obtain ⟨vars, hvars⟩ := (GenerateVercelEnvironmentVariables_ok_iff unicodeLower c cfg).mpr
      (by rw [hc]; exact hvalid)
    rw [h] at hvars
    cases hvars
  have hD : ∀ c : types.Client, c.SanitizedClientName = client.SanitizedClientName →
      ∀ err, envvars.GenerateDeploymentEnvironment unicodeLower c cfg ≠ .error err := by
    intro c hc err h
    obtain ⟨env2, henv2⟩ := (GenerateDeploymentEnvironment_ok_iff unicodeLower c cfg).mpr
      (by rw [hc]; exact hvalid)
    rw [h] at henv2
    cases henv2
  unfold freshInstall
  simp only [perform, hgen]
  rcases P.NewS3Service cfg.AWS.Region cfg.AWS.AccessKeyID cfg.AWS.SecretAccessKey
    w.state with ⟨_ | e1, s1⟩
  case some => simp
  simp only
  rcases P.CreateBucket env.ResourceNames.S3Bucket s1 with ⟨_ | e2, s2⟩
  case some => simp
  simp only
  rcases P.CreateClientDatabases env.ResourceNames.DatabaseMain
    env.ResourceNames.DatabaseHangfire s2 with ⟨_ | e3, s3⟩
  case some => simp
  simp only
  rcases P.CreateApp client
    { AppEnvs := env.Backend.AppLevelVars, ComponentEnvs := env.Backend.ComponentLevelVars }
    cfg s3 with ⟨e4 | backendURL, s4⟩
  case error => simp
  simp only
  cases hv1 : envvars.GenerateVercelEnvironmentVariables unicodeLower
    { client with BackendInfo := { client.BackendInfo with URL := backendURL } } cfg with
  | error err => exact absurd hv1 (hV { client with BackendInfo := { client.BackendInfo with URL := backendURL } } rfl err)
  | ok vars =>
    simp only
    rcases P.CreateProject client.SanitizedClientName vars cfg s4 with ⟨e5 | frontendURL, s5⟩
    case error => simp
    simp only
    cases hv2 : envvars.GenerateVercelEnvironmentVariables unicodeLower
      { client with
        FrontendInfo := { URL := frontendURL },
        BackendInfo := { client.BackendInfo with URL := backendURL } } cfg with
    | error err => exact absurd hv2 (hV
        { client with
          FrontendInfo := { URL := frontendURL },
          BackendInfo := { client.BackendInfo with URL := backendURL } } rfl err)
    | ok updated =>
      simp only
      rcases P.UpdateProjectEnvironmentVariables client.SanitizedClientName updated s5 with
        ⟨_ | e6, s6⟩
      case some => simp
      simp only
      rcases P.CreateDeployment
        { client with
          FrontendInfo := { URL := frontendURL },
          BackendInfo := { client.BackendInfo with URL := backendURL } } cfg s6 with
        ⟨_ | e7, s7⟩
      case some => simp
      simp only
      cases hv3 : envvars.GenerateDeploymentEnvironment unicodeLower
        { client with
          FrontendInfo := { URL := frontendURL },
          BackendInfo := { client.BackendInfo with URL := backendURL } } cfg with
      | error err => exact absurd hv3 (hD
        { client with
          FrontendInfo := { URL := frontendURL },
          BackendInfo := { client.BackendInfo with URL := backendURL } } rfl err)
      | ok env2 =>
        simp only
        rcases P.UpdateAppEnvironmentVariables client.SanitizedClientName
          { AppEnvs := env2.Backend.AppLevelVars,
            ComponentEnvs := env2.Backend.ComponentLevelVars } cfg s7 with ⟨_ | e8, s8⟩
        case some => simp
        simp

end cmd

namespace cmd

variable {σ : Type}

/-- C29: whether environment materialization fails depends only on the sanitized client
name and the configuration. For two clients with the same `SanitizedClientName` and one
configuration, `GenerateDeploymentEnvironment` on the first returns a value exactly when
`GenerateVercelEnvironmentVariables` on the second does, and exactly when
`GenerateDeploymentEnvironment` on the second does. So when step 1 of `freshInstall`
succeeds, the three re-materializations (after the backend URL, and after the frontend URL,
are filled in) return a value whatever the URLs are, and `freshInstall` returns none of the
three errors that wrap a failed re-materialization. -/
theorem materialization_depends_on_sanitized_name (unicodeLower : Char → Char)
    (P : Providers σ) (c1 c2 : types.Client) (cfg : config.Config) (w : World σ)
    (hsame : c1.SanitizedClientName = c2.SanitizedClientName) :
    ((∃ env, envvars.GenerateDeploymentEnvironment unicodeLower c1 cfg = .ok env) ↔
        ∃ vars, envvars.GenerateVercelEnvironmentVariables unicodeLower c2 cfg = .ok vars) ∧
      ((∃ env, envvars.GenerateDeploymentEnvironment unicodeLower c1 cfg = .ok env) ↔
        ∃ env, envvars.GenerateDeploymentEnvironment unicodeLower c2 cfg = .ok env) ∧
      ((∃ env, envvars.GenerateDeploymentEnvironment unicodeLower c1 cfg = .ok env) →
        (∀ backendURL frontendURL : String,
          (∃ vars, envvars.GenerateVercelEnvironmentVariables unicodeLower
            { c1 with BackendInfo := { c1.BackendInfo with URL := backendURL } } cfg =
              .ok vars) ∧
          (∃ vars, envvars.GenerateVercelEnvironmentVariables unicodeLower
            { c1 with
              FrontendInfo := { URL := frontendURL },
              BackendInfo := { c1.BackendInfo with URL := backendURL } } cfg = .ok vars) ∧
          ∃ env, envvars.GenerateDeploymentEnvironment unicodeLower
            { c1 with
              FrontendInfo := { URL := frontendURL },
              BackendInfo := { c1.BackendInfo with URL := backendURL } } cfg = .ok env) ∧
        ∀ e : Error,
          (freshInstall unicodeLower P c1 cfg w).err ≠
              some (Error.wrapf "failed to generate Vercel environment variables" e) ∧
            (freshInstall unicodeLower P c1 cfg w).err ≠
              some (Error.wrapf "failed to generate updated Vercel environment variables" e) ∧
            (freshInstall unicodeLower P c1 cfg w).err ≠
              some (Error.wrapf "failed to generate updated deployment environment" e)) := by
  refine ⟨?_, ?_, ?_⟩
  · rw [GenerateDeploymentEnvironment_ok_iff, GenerateVercelEnvironmentVariables_ok_iff, hsame]
  · rw [GenerateDeploymentEnvironment_ok_iff, GenerateDeploymentEnvironment_ok_iff, hsame]
  · rintro ⟨env, hgen⟩
    have hvalid := (GenerateDeploymentEnvironment_ok_iff unicodeLower c1 cfg).mp ⟨env, hgen⟩
    refine ⟨fun backendURL frontendURL => ⟨?_, ?_, ?_⟩, fun e =>
      freshInstall_no_rematerialization_error unicodeLower P c1 cfg w env hgen e⟩
    · exact (GenerateVercelEnvironmentVariables_ok_iff unicodeLower _ cfg).mpr hvalid
    · exact (GenerateVercelEnvironmentVariables_ok_iff unicodeLower _ cfg).mpr hvalid
    · exact (GenerateDeploymentEnvironment_ok_iff unicodeLower _ cfg).mpr hvalid

theorem materialization_depends_on_sanitized_name_witness :
    ((∃ env, envvars.GenerateDeploymentEnvironment id exampleClient exampleConfig = .ok env) ↔
      ∃ vars, envvars.GenerateVercelEnvironmentVariables id
        (exampleClientWith "https://acme-co.example.com" "https://acme-co.vercel.app")
        exampleConfig = .ok vars) :=
  (materialization_depends_on_sanitized_name id (scripted []) exampleClient
    (exampleClientWith "https://acme-co.example.com" "https://acme-co.vercel.app")
    exampleConfig (World.fresh ()) rfl).1

end cmd

namespace vercel

variable {σ : Type}

theorem generateRequest_ok (p : ProjectService σ) (method path : String)
    (body : Option Payload) (hnew : ∀ m u, p.NewRequestWithContext m u = none) :
    p.generateRequest method path body =
      .ok { Method := method,
            URL := "https://api.vercel.com" ++ path ++ "?teamId=" ++ p.config.TeamID,
            Authorization := "Bearer " ++ p.config.Token,
            ContentType := "application/json", Body := body } := by
  simp [ProjectService.generateRequest, hnew]

/-- With every request accepted, the loop sends one write per variable, in order. -/
theorem UpdateProjectEnvironmentVariables.loop_sent (p : ProjectService σ)
    (projectName : String) (existing : List ExistingEnvVar)
    (hnew : ∀ m u, p.NewRequestWithContext m u = none)
    (hdo : ∀ req s, ∃ resp, (p.Do req s).1 = .ok resp ∧ resp.StatusCode < 400)
    (envVars : List types.VercelEnvVariable) (n : Net σ) :
    (ProjectService.UpdateProjectEnvironmentVariables.loop p projectName existing envVars n).1 =
        none ∧
      (ProjectService.UpdateProjectEnvironmentVariables.loop p projectName existing envVars
          n).2.sent =
        n.sent ++ envVars.map (writeRequest p.config projectName existing) := by
  induction envVars generalizing n with
  | nil => simp [ProjectService.UpdateProjectEnvironmentVariables.loop]
  | cons v rest ih =>
    unfold ProjectService.UpdateProjectEnvironmentVariables.loop
    by_cases hid : existingIDOf existing v.Key = ""
    · obtain ⟨resp, hresp, hcode⟩ := hdo (writeRequest p.config projectName existing v) n.state
      have hcode' : ¬ resp.StatusCode ≥ 400 := by omega
      simp only [writeRequest, hid, ne_eq, not_true_eq_false, if_false] at hresp
      simp only [hid, ne_eq, not_true_eq_false, if_false, generateRequest_ok p _ _ _ hnew,
        ProjectService.send, hresp, hcode']
      refine ⟨(ih _).1, ?_⟩
      rw [(ih _).2]
      simp [writeRequest, hid]
    · obtain ⟨resp, hresp, hcode⟩ := hdo (writeRequest p.config projectName existing v) n.state
      have hcode' : ¬ resp.StatusCode ≥ 400 := by omega
      simp only [writeRequest, hid, ne_eq, not_false_eq_true, if_true] at hresp
      simp only [hid, ne_eq, not_false_eq_true, if_true, generateRequest_ok p _ _ _ hnew,
        ProjectService.send, hresp, hcode', if_false]
      refine ⟨(ih _).1, ?_⟩
      rw [(ih _).2]
      simp [writeRequest, hid]

end vercel

namespace vercel

variable {σ : Type}

/-- C21, where the code departs from it: the empty identifier is the loop's mark for
"no existing variable". When the provider lists the variable `API_URL` with an empty `id`,
the desired variable `API_URL` is written with a create (POST), not an update, although
its key exists; the same happens when a second listed variable with that key has the
identifier `env_2`, the first match alone being looked at. -/
theorem UpdateProjectEnvironmentVariables_creates_for_existing_key :
    ((answering 200 [] [⟨"", "API_URL", "old", ["production"], "plain"⟩]
        ).UpdateProjectEnvironmentVariables "acme-co"
        [⟨"API_URL", "production", "new", "plain", ""⟩] ⟨(), []⟩).1 = none ∧
      ((answering 200 [] [⟨"", "API_URL", "old", ["production"], "plain"⟩]
        ).UpdateProjectEnvironmentVariables "acme-co"
        [⟨"API_URL", "production", "new", "plain", ""⟩] ⟨(), []⟩).2.sent.map
          (fun r => (r.Method, r.URL)) =
        [("GET", "https://api.vercel.com/v10/projects/acme-co/env?teamId=team"),
          ("POST", "https://api.vercel.com/v10/projects/acme-co/env?upsert=true?teamId=team")] ∧
      ((answering 200 []
          [⟨"", "API_URL", "old", ["production"], "plain"⟩,
            ⟨"env_2", "API_URL", "old", ["preview"], "plain"⟩]
        ).UpdateProjectEnvironmentVariables "acme-co"
        [⟨"API_URL", "production", "new", "plain", ""⟩] ⟨(), []⟩).2.sent.map
          (fun r => r.Method) = ["GET", "POST"] := by
  refine ⟨rfl, by decide, by decide⟩

/-- C21 as amended: when every request is accepted (no error from
`http.NewRequestWithContext` or from `client.Do`, every status below 400) and the response
to the GET decodes to the list `existing`, `UpdateProjectEnvironmentVariables` returns nil
and sends, after the GET, exactly one write per desired variable, in order: an update
(PATCH) addressed to the identifier of the first existing variable with the same key when
there is one and that identifier is not empty, and a create (POST with `upsert=true`)
otherwise. So a key without existing variable is created, and when every existing variable
has a non-empty identifier no create is sent for a key that exists. -/
theorem UpdateProjectEnvironmentVariables_one_write_each (p : ProjectService σ)
    (projectName : String) (envVars : List types.VercelEnvVariable) (n : Net σ)
    (existing : List ExistingEnvVar)
    (hnew : ∀ m u, p.NewRequestWithContext m u = none)
    (hdo : ∀ req s, ∃ resp, (p.Do req s).1 = .ok resp ∧ resp.StatusCode < 400)
    (hget : ∀ resp,
      (p.Do
        { Method := "GET",
          URL := "https://api.vercel.com" ++ ("/v10/projects/" ++ projectName ++ "/env") ++
            "?teamId=" ++ p.config.TeamID,
          Authorization := "Bearer " ++ p.config.Token, ContentType := "application/json",
          Body := none } n.state).1 = .ok resp →
      resp.BodyErr = none ∧ p.UnmarshalEnvs resp.Body = .ok existing) :
    (p.UpdateProjectEnvironmentVariables projectName envVars n).1 = none ∧
      (p.UpdateProjectEnvironmentVariables projectName envVars n).2.sent =
        n.sent ++
          ({ Method := "GET",
             URL := "https://api.vercel.com" ++ ("/v10/projects/" ++ projectName ++ "/env") ++
               "?teamId=" ++ p.config.TeamID,
             Authorization := "Bearer " ++ p.config.Token, ContentType := "application/json",
             Body := none } ::
            envVars.map (writeRequest p.config projectName existing)) ∧
      (∀ v ∈ envVars, ∀ e, existing.find? (fun e => e.Key = v.Key) = some e → e.ID ≠ "" →
        (writeRequest p.config projectName existing v).Method = "PATCH" ∧
          (writeRequest p.config projectName existing v).URL =
            "https://api.vercel.com" ++ ("/v9/projects/" ++ projectName ++ "/env/" ++ e.ID) ++
              "?teamId=" ++ p.config.TeamID) ∧
      (∀ v ∈ envVars, (∀ e ∈ existing, e.Key ≠ v.Key) →
        (writeRequest p.config projectName existing v).Method = "POST") ∧
      ((∀ e ∈ existing, e.ID ≠ "") → ∀ v ∈ envVars, (∃ e ∈ existing, e.Key = v.Key) →
        (writeRequest p.config projectName existing v).Method = "PATCH") := by
  obtain ⟨resp, hresp, hcode⟩ := hdo
    { Method := "GET",
      URL := "https://api.vercel.com" ++ ("/v10/projects/" ++ projectName ++ "/env") ++
        "?teamId=" ++ p.config.TeamID,
      Authorization := "Bearer " ++ p.config.Token, ContentType := "application/json",
      Body := none } n.state
  obtain ⟨hbody, hdecode⟩ := hget resp hresp
  have hcode' : ¬ resp.StatusCode ≥ 400 := by omega
  have hloop := UpdateProjectEnvironmentVariables.loop_sent p projectName existing hnew hdo
    envVars
  refine ⟨?_, ?_, ?_, ?_, ?_⟩
  · simp only [ProjectService.UpdateProjectEnvironmentVariables,
      generateRequest_ok p _ _ _ hnew, ProjectService.send, hresp, hcode', if_false, hbody,
      hdecode]
    exact (hloop _).1
  · simp only [ProjectService.UpdateProjectEnvironmentVariables,
      generateRequest_ok p _ _ _ hnew, ProjectService.send, hresp, hcode', if_false, hbody,
      hdecode]
    rw [(hloop _).2]
    simp
  · intro v _ e he hid
    have h1 : existingIDOf existing v.Key = e.ID := by simp [existingIDOf, he]
    simp [writeRequest, h1, hid]
  · intro v _ hnone
    have h1 : existingIDOf existing v.Key = "" := by
      have : existing.find? (fun e => e.Key = v.Key) = none := by
        simp only [List.find?_eq_none, decide_eq_true_eq]
        exact hnone
      simp [existingIDOf, this]
    simp [writeRequest, h1]
  · intro hids v _ hex
    have h1 : existingIDOf existing v.Key ≠ "" := by
      cases hf : existing.find? (fun e => e.Key = v.Key) with
      | none =>
        exfalso
        simp only [List.find?_eq_none, decide_eq_true_eq] at hf
        obtain ⟨e, he, hk⟩ := hex
        exact hf e he hk
      | some e =>
        simp only [existingIDOf, hf]
        exact hids e (List.mem_of_find?_eq_some hf)
    simp [writeRequest, h1]

theorem UpdateProjectEnvironmentVariables_one_write_each_witness :
    ((answering 200 [] [⟨"env_1", "API_URL", "old", ["production"], "plain"⟩]
        ).UpdateProjectEnvironmentVariables "acme-co"
        [⟨"API_URL", "production", "new", "plain", ""⟩,
          ⟨"SITE_URL", "production", "site", "plain", ""⟩] ⟨(), []⟩).2.sent =
      [] ++
        ({ Method := "GET",
           URL := "https://api.vercel.com" ++ ("/v10/projects/" ++ "acme-co" ++ "/env") ++
             "?teamId=" ++ "team",
           Authorization := "Bearer " ++ "token", ContentType := "application/json",
           Body := none } ::
          [⟨"API_URL", "production", "new", "plain", ""⟩,
            ⟨"SITE_URL", "production", "site", "plain", ""⟩].map
            (writeRequest (answering 200 [] []).config "acme-co"
              [⟨"env_1", "API_URL", "old", ["production"], "plain"⟩])) :=
  (UpdateProjectEnvironmentVariables_one_write_each
    (answering 200 [] [⟨"env_1", "API_URL", "old", ["production"], "plain"⟩]) "acme-co"
    [⟨"API_URL", "production", "new", "plain", ""⟩,
      ⟨"SITE_URL", "production", "site", "plain", ""⟩] ⟨(), []⟩
    [⟨"env_1", "API_URL", "old", ["production"], "plain"⟩]
    (fun _ _ => rfl) (fun _ _ => ⟨_, rfl, by decide⟩) (fun _ h => by
      simp only [answering] at h
      cases h
      exact ⟨rfl, rfl⟩)).2.1

end vercel

namespace database

variable {σ : Type}

end database

namespace database

variable {σ : Type}

end database

namespace vercel

variable {σ : Type}

end vercel

namespace retry

variable {σ : Type}

/-- What every successful call of the operation establishes holds of the state `Do` ends
in when it returns nil. -/
theorem Do.loop_success_inv (ctx : Context) (config : Config) (op : σ → Option Error × σ)
    (Q : σ → Prop) (hop : ∀ s s', op s = (none, s') → Q s') :
    ∀ (l : List Nat) (delay : Duration) (lastErr : Option Error) (s : σ),
      (Do.loop ctx config op l delay lastErr s).err = none →
        Q (Do.loop ctx config op l delay lastErr s).state := by
  intro l
  induction l with
  | nil =>
    intro delay lastErr s h
    simp [Do.loop] at h
  | cons a rest ih =>
    intro delay lastErr s h
    unfold Do.loop at h ⊢
    by_cases h1 : 1 < a
    · by_cases hd : ctx.Done a = true
      · simp [h1, hd] at h
      · rcases hx : op s with ⟨_ | e, s1⟩
        · simp only [h1, hd, if_true, hx]
          exact hop s s1 hx
        · simp only [h1, hd, if_true, hx, Outcome.after] at h ⊢
          exact ih _ _ _ h
    · rcases hx : op s with ⟨_ | e, s1⟩
      · simp only [h1, if_false, hx]
        exact hop s s1 hx
      · simp only [h1, if_false, hx, Outcome.after] at h ⊢
        exact ih _ _ _ h

theorem Do_success_inv (ctx : Context) (config : Config) (op : σ → Option Error × σ)
    (Q : σ → Prop) (hop : ∀ s s', op s = (none, s') → Q s') (s : σ)
    (h : (Do ctx config op s).err = none) : Q (Do ctx config op s).state :=
  Do.loop_success_inv ctx config op Q hop _ _ _ _ h

end retry

namespace digitalocean

variable {σ : Type}

theorem waitOperation_success (apps : godo.AppsService σ) (appID : String)
    (st st' : WaitState σ) (h : waitOperation apps appID st = (none, st')) :
    st'.appURL ≠ "" := by
  have hfin : ∀ (app : godo.App) (st st' : WaitState σ),
      waitOperation.finish app st = (none, st') → st'.appURL ≠ "" := by
    intro app st st' h
    unfold waitOperation.finish at h
    by_cases hl : app.LiveURL = ""
    · simp [hl] at h
    · simp only [hl, if_false, Prod.mk.injEq, true_and] at h
      rw [← h]
      exact hl
  unfold waitOperation at h
  rcases hg : apps.Get appID st.api with ⟨e | app, s⟩
  · simp [hg] at h
  · simp only [hg] at h
    split_ifs at h with h1
    · simp at h
    rcases hp : app.InProgressDeployment with _ | inProgress
    · rw [hp] at h
      exact hfin _ _ _ h
    · rw [hp] at h
      dsimp only at h
      split_ifs at h with h2
      · rcases hd : apps.GetDeployment appID inProgress.ID s with ⟨e | deployment, s2⟩
        · rw [hd] at h
          simp at h
        · rw [hd] at h
          dsimp only at h
          split_ifs at h with h3 h4
          · simp at h
          · simp at h
          · exact hfin _ _ _ h
      · exact hfin _ _ _ h

/-- The URL `WaitForAppDeploymentAndGetURL` returns with a nil error is not empty. -/
theorem WaitForAppDeploymentAndGetURL_url (ctx : retry.Context) (apps : godo.AppsService σ)
    (appID : String) (s : σ) (url : String)
    (h : (WaitForAppDeploymentAndGetURL ctx apps appID s).result = .ok url) : url ≠ "" := by
  unfold WaitForAppDeploymentAndGetURL at h
  simp only at h
  cases he : (retry.Do ctx waitRetryConfig (waitOperation apps appID)
      { api := s, appURL := "", polls := [] }).err with
  | some e => simp [he] at h
  | none =>
    simp only [he, Except.ok.injEq] at h
    rw [← h]
    exact retry.Do_success_inv ctx waitRetryConfig (waitOperation apps appID)
      (fun st => st.appURL ≠ "") (waitOperation_success apps appID) _ he

theorem CreateApp_url (ctx : retry.Context) (order : RangeOrder) (apps : godo.Apps σ)
    (client : types.Client) (envVars : types.DigitalOceanEnvVars) (cfg : config.Config)
    (s : σ) (url : String)
    (h : (CreateApp ctx order apps client envVars cfg s).result = .returns (.ok url)) :
    url ≠ "" := by
  unfold CreateApp at h
  simp only at h
  split at h
  · simp at h
  · split at h
    · simp at h
    · split at h
      · simp at h
      · split at h
        · simp at h
        · rename_i appURL hw
          simp only [Ending.returns.injEq, Except.ok.injEq] at h
          subst h
          exact WaitForAppDeploymentAndGetURL_url ctx apps.toAppsService _ _ _ hw

end digitalocean

namespace vercel

variable {σ : Type}

theorem GetProjectDomain_url (p : ProjectService σ) (projectName : String) (n : Net σ)
    (url : String) (h : (p.GetProjectDomain projectName n).1 = .ok url) :
    url ≠ "" ∧ "https://".data <+: url.data := by
  unfold ProjectService.GetProjectDomain at h
  split at h
  · simp at h
  · split at h
    · simp at h
    · split at h
      · simp at h
      · split at h
        · simp at h
        · split at h
          · simp at h
          · split at h
            · simp at h
            · simp only [Except.ok.injEq] at h
              subst h
              constructor
              · intro hh
                have := congrArg String.length hh
                simp only [String.length_append] at this
                have h8 : "https://".length = 8 := rfl
                have h0 : "".length = 0 := rfl
                omega
              · exact ⟨_, rfl⟩

theorem CreateProject_url (p : ProjectService σ) (sanitizedClientName : String)
    (envVars : List types.VercelEnvVariable) (cfg : config.Config) (n : Net σ) (url : String)
    (h : (p.CreateProject sanitizedClientName envVars cfg n).1 = .ok url) :
    url ≠ "" ∧ "https://".data <+: url.data := by
  unfold ProjectService.CreateProject at h
  simp only at h
  split at h
  · simp at h
  · split at h
    · simp at h
    · split at h
      · simp at h
      · split at h
        · simp at h
        · rename_i domain n2 hd
          simp only [Except.ok.injEq] at h
          subst h
          exact GetProjectDomain_url p sanitizedClientName _ _ (by rw [hd])

end vercel

namespace cmd

variable {σ : Type}

/-- After a run of `freshInstall` that returns nil, the URLs of the client are those the
providers returned, which are not empty when the providers return no empty URL. -/
theorem freshInstall_success_urls (unicodeLower : Char → Char) (P : Providers σ)
    (client : types.Client) (cfg : config.Config) (w : World σ)
    (hApp : ∀ c e g s url s', P.CreateApp c e g s = (.ok url, s') → url ≠ "")
    (hProject : ∀ name e g s url s', P.CreateProject name e g s = (.ok url, s') → url ≠ "")
    (herr : (freshInstall unicodeLower P client cfg w).err = none) :
    (freshInstall unicodeLower P client cfg w).client.BackendInfo.URL ≠ "" ∧
      (freshInstall unicodeLower P client cfg w).client.FrontendInfo.URL ≠ "" := by
  unfold freshInstall at herr ⊢
  simp only [perform] at herr ⊢
  cases hgen : envvars.GenerateDeploymentEnvironment unicodeLower client cfg with
  | error e => simp [hgen] at herr
  | ok env =>
    simp only [hgen] at herr ⊢
    rcases h1 : P.NewS3Service cfg.AWS.Region cfg.AWS.AccessKeyID cfg.AWS.SecretAccessKey
      w.state with ⟨_ | e1, s1⟩
    case some => simp [h1] at herr
    simp only [h1] at herr ⊢
    rcases h2 : P.CreateBucket env.ResourceNames.S3Bucket s1 with ⟨_ | e2, s2⟩
    case some => simp [h2] at herr
    simp only [h2] at herr ⊢
    rcases h3 : P.CreateClientDatabases env.ResourceNames.DatabaseMain
      env.ResourceNames.DatabaseHangfire s2 with ⟨_ | e3, s3⟩
    case some => simp [h3] at herr
    simp only [h3] at herr ⊢
    rcases h4 : P.CreateApp client
      { AppEnvs := env.Backend.AppLevelVars, ComponentEnvs := env.Backend.ComponentLevelVars }
      cfg s3 with ⟨e4 | backendURL, s4⟩
    case error => simp [h4] at herr
    simp only [h4] at herr ⊢
    have hb := hApp _ _ _ _ _ _ h4
    cases hv1 : envvars.GenerateVercelEnvironmentVariables unicodeLower
      { client with BackendInfo := { client.BackendInfo with URL := backendURL } } cfg with
    | error err => simp [hv1] at herr
    | ok vars =>
      simp only [hv1] at herr ⊢
      rcases h5 : P.CreateProject client.SanitizedClientName vars cfg s4 with
        ⟨e5 | frontendURL, s5⟩
      case error => simp [h5] at herr
      simp only [h5] at herr ⊢
      have hf := hProject _ _ _ _ _ _ h5
      cases hv2 : envvars.GenerateVercelEnvironmentVariables unicodeLower
        { client with
          FrontendInfo := { URL := frontendURL },
          BackendInfo := { client.BackendInfo with URL := backendURL } } cfg with
      | error err => simp [hv2] at herr
      | ok updated =>
        simp only [hv2] at herr ⊢
        rcases h6 : P.UpdateProjectEnvironmentVariables client.SanitizedClientName updated
          s5 with ⟨_ | e6, s6⟩
        case some => simp [h6] at herr
        simp only [h6] at herr ⊢
        rcases h7 : P.CreateDeployment
          { client with
            FrontendInfo := { URL := frontendURL },
            BackendInfo := { client.BackendInfo with URL := backendURL } } cfg s6 with
          ⟨_ | e7, s7⟩
        case some => simp [h7] at herr
        simp only [h7] at herr ⊢
        cases hv3 : envvars.GenerateDeploymentEnvironment unicodeLower
          { client with
            FrontendInfo := { URL := frontendURL },
            BackendInfo := { client.BackendInfo with URL := backendURL } } cfg with
        | error err => simp [hv3] at herr
        | ok env2 =>
          simp only [hv3] at herr ⊢
          rcases h8 : P.UpdateAppEnvironmentVariables client.SanitizedClientName
            { AppEnvs := env2.Backend.AppLevelVars,
              ComponentEnvs := env2.Backend.ComponentLevelVars } cfg s7 with ⟨_ | e8, s8⟩
          case some => simp [h8] at herr
          simp only [h8]
          exact ⟨hb, hf⟩

end cmd

namespace cmd

/-- C24: a successful provisioning yields non-empty URLs. Whenever
`WaitForAppDeploymentAndGetURL`, hence `CreateApp`, returns without error, the returned
backend URL is not empty; whenever `GetProjectDomain`, hence `CreateProject`, returns
without error, the returned frontend URL is not empty and begins with "https://". So when
`freshInstall` returns nil with providers that return no empty URL, in particular with the
app and project services above, the backend URL and the frontend URL of the client are
both non-empty. -/
theorem freshInstall_urls_not_empty :
    (∀ (σ : Type) (ctx : retry.Context) (apps : godo.AppsService σ) (appID : String) (s : σ)
        (url : String),
        (digitalocean.WaitForAppDeploymentAndGetURL ctx apps appID s).result = .ok url →
        url ≠ "") ∧
      (∀ (σ : Type) (ctx : retry.Context) (order : digitalocean.RangeOrder)
        (apps : godo.Apps σ) (client : types.Client) (envVars : types.DigitalOceanEnvVars)
        (cfg : config.Config) (s : σ) (url : String),
        (digitalocean.CreateApp ctx order apps client envVars cfg s).result =
          .returns (.ok url) →
        url ≠ "") ∧
      (∀ (σ : Type) (p : vercel.ProjectService σ) (projectName : String) (n : vercel.Net σ)
        (url : String),
        (p.GetProjectDomain projectName n).1 = .ok url →
        url ≠ "" ∧ "https://".data <+: url.data) ∧
      (∀ (σ : Type) (p : vercel.ProjectService σ) (sanitizedClientName : String)
        (envVars : List types.VercelEnvVariable) (cfg : config.Config) (n : vercel.Net σ)
        (url : String),
        (p.CreateProject sanitizedClientName envVars cfg n).1 = .ok url →
        url ≠ "" ∧ "https://".data <+: url.data) ∧
      (∀ (σ : Type) (unicodeLower : Char → Char) (P : Providers σ) (client : types.Client)
        (cfg : config.Config) (w : World σ),
        (∀ c e g s url s', P.CreateApp c e g s = (.ok url, s') → url ≠ "") →
        (∀ name e g s url s', P.CreateProject name e g s = (.ok url, s') → url ≠ "") →
        (freshInstall unicodeLower P client cfg w).err = none →
        (freshInstall unicodeLower P client cfg w).client.BackendInfo.URL ≠ "" ∧
          (freshInstall unicodeLower P client cfg w).client.FrontendInfo.URL ≠ "") ∧
      (∀ (σ : Type) (unicodeLower : Char → Char) (P : Providers σ)
        (order : digitalocean.RangeOrder) (apps : godo.Apps σ)
        (p : vercel.ProjectService σ) (client : types.Client) (cfg : config.Config)
        (w : World σ),
        (freshInstall unicodeLower (P.withHosting order apps p) client cfg w).err = none →
        (freshInstall unicodeLower (P.withHosting order apps p) client cfg
            w).client.BackendInfo.URL ≠ "" ∧
          (freshInstall unicodeLower (P.withHosting order apps p) client cfg
            w).client.FrontendInfo.URL ≠ "") := by
  refine ⟨?_, ?_, ?_, ?_, ?_, ?_⟩
  · intro σ ctx apps appID s url h
    exact digitalocean.WaitForAppDeploymentAndGetURL_url ctx apps appID s url h
  · intro σ ctx order apps client envVars cfg s url h
    exact digitalocean.CreateApp_url ctx order apps client envVars cfg s url h
  · intro σ p projectName n url h
    exact vercel.GetProjectDomain_url p projectName n url h
  · intro σ p name envVars cfg n url h
    exact vercel.CreateProject_url p name envVars cfg n url h
  · intro σ unicodeLower P client cfg w hApp hProject herr
    exact freshInstall_success_urls unicodeLower P client cfg w hApp hProject herr
  · intro σ unicodeLower P order apps p client cfg w herr
    refine freshInstall_success_urls unicodeLower (P.withHosting order apps p) client cfg w
      ?_ ?_ herr
    · intro c e g s url s' h
      simp only [Providers.withHosting, Prod.mk.injEq] at h
      cases hr : (digitalocean.CreateApp retry.background order apps c e g s).result with
      | panics reason =>
        rw [hr] at h
        simp [Providers.ofEnding] at h
      | returns results =>
        rw [hr] at h
        simp only [Providers.ofEnding] at h
        exact digitalocean.CreateApp_url retry.background order apps c e g s url
          (by rw [hr, h.1])
    · intro name e g s url s' h
      simp only [Providers.withHosting, Prod.mk.injEq] at h
      exact (vercel.CreateProject_url p name e g _ url h.1).1

theorem freshInstall_urls_not_empty_witness :
    (freshInstall id (scripted []) exampleClient exampleConfig
        (World.fresh ())).client.BackendInfo.URL ≠ "" ∧
      (freshInstall id (scripted []) exampleClient exampleConfig
        (World.fresh ())).client.FrontendInfo.URL ≠ "" :=
  freshInstall_urls_not_empty.2.2.2.2.1 Unit id (scripted []) exampleClient exampleConfig
    (World.fresh ())
    (fun _ _ _ _ url _ h => by
      simp only [scripted, List.not_mem_nil, if_false, Prod.mk.injEq, Except.ok.injEq] at h
      rw [← h.1]
      decide)
    (fun _ _ _ _ url _ h => by
      simp only [scripted, List.not_mem_nil, if_false, Prod.mk.injEq, Except.ok.injEq] at h
      rw [← h.1]
      decide)
    rfl

end cmd

namespace cmd

variable {σ : Type}

/-- In a run of `freshInstall` from a world without earlier calls, every delete call names
the resource a create call of the run named. -/
theorem freshInstall_deletes_match_creates (unicodeLower : Char → Char) (P : Providers σ)
    (client : types.Client) (cfg : config.Config) (s : σ) :
    ∀ c ∈ (freshInstall unicodeLower P client cfg (World.fresh s)).world.calls,
      c.isCompensation = true →
      ∃ c' ∈ (freshInstall unicodeLower P client cfg (World.fresh s)).world.calls,
        c.undoes c' = true := by
  cases hgen : envvars.GenerateDeploymentEnvironment unicodeLower client cfg with
  | error e => simp [freshInstall, hgen, World.fresh]
  | ok env =>
    have hvalid := (GenerateDeploymentEnvironment_ok_iff unicodeLower client cfg).mp ⟨env, hgen⟩
    rcases h1 : P.NewS3Service cfg.AWS.Region cfg.AWS.AccessKeyID cfg.AWS.SecretAccessKey
      s with ⟨_ | e1, s1⟩
    case some => simp [freshInstall, hgen, perform, h1, World.fresh, Call.isCompensation]
    rcases h2 : P.CreateBucket env.ResourceNames.S3Bucket s1 with ⟨_ | e2, s2⟩
    case some => simp [freshInstall, hgen, perform, h1, h2, World.fresh, Call.isCompensation]
    rcases h3 : P.CreateClientDatabases env.ResourceNames.DatabaseMain
      env.ResourceNames.DatabaseHangfire s2 with ⟨_ | e3, s3⟩
    case some =>
      rw [(freshInstall_database_fails unicodeLower P client cfg (World.fresh s) env s1 s2 s3 e3
        hgen h1 h2 h3).2.1]
      simp [World.fresh, Call.isCompensation, Call.undoes]
    rcases h4 : P.CreateApp client
      { AppEnvs := env.Backend.AppLevelVars, ComponentEnvs := env.Backend.ComponentLevelVars }
      cfg s3 with ⟨e4 | backendURL, s4⟩
    case error =>
      rw [(freshInstall_app_fails unicodeLower P client cfg (World.fresh s) env s1 s2 s3 s4 e4
        hgen h1 h2 h3 h4).2.1]
      simp [World.fresh, Call.isCompensation, Call.undoes]
    obtain ⟨vars, hv1⟩ := (GenerateVercelEnvironmentVariables_ok_iff unicodeLower
      { client with BackendInfo := { client.BackendInfo with URL := backendURL } } cfg).mpr
      hvalid
    rcases h5 : P.CreateProject client.SanitizedClientName vars cfg s4 with
      ⟨e5 | frontendURL, s5⟩
    case error =>
      rw [(freshInstall_project_fails unicodeLower P client cfg (World.fresh s) env s1 s2 s3 s4
        s5 backendURL vars e5 hgen h1 h2 h3 h4 hv1 h5).2.1]
      simp [World.fresh, Call.isCompensation, Call.undoes]
    obtain ⟨vars2, hv2⟩ := (GenerateVercelEnvironmentVariables_ok_iff unicodeLower
      { client with
        FrontendInfo := { URL := frontendURL },
        BackendInfo := { client.BackendInfo with URL := backendURL } } cfg).mpr hvalid
    obtain ⟨env2, hv3⟩ := (GenerateDeploymentEnvironment_ok_iff unicodeLower
      { client with
        FrontendInfo := { URL := frontendURL },
        BackendInfo := { client.BackendInfo with URL := backendURL } } cfg).mpr hvalid
    rcases h6 : P.UpdateProjectEnvironmentVariables client.SanitizedClientName vars2 s5 with
      ⟨_ | e6, s6⟩
    case some =>
      simp [freshInstall, hgen, perform, h1, h2, h3, h4, hv1, h5, hv2, h6, World.fresh,
        Call.isCompensation]
    rcases h7 : P.CreateDeployment
      { client with
        FrontendInfo := { URL := frontendURL },
        BackendInfo := { client.BackendInfo with URL := backendURL } } cfg s6 with
      ⟨_ | e7, s7⟩
    case some =>
      simp [freshInstall, hgen, perform, h1, h2, h3, h4, hv1, h5, hv2, h6, h7, World.fresh,
        Call.isCompensation]
    rcases h8 : P.UpdateAppEnvironmentVariables client.SanitizedClientName
      { AppEnvs := env2.Backend.AppLevelVars,
        ComponentEnvs := env2.Backend.ComponentLevelVars } cfg s7 with ⟨_ | e8, s8⟩ <;>
      simp [freshInstall, hgen, perform, h1, h2, h3, h4, hv1, h5, hv2, h6, h7, hv3, h8,
        World.fresh, Call.isCompensation]

end cmd

namespace vercel

variable {σ : Type}

theorem GetProjectDomain_sent (p : ProjectService σ) (projectName : String) (n : Net σ)
    (hnew : ∀ m u, p.NewRequestWithContext m u = none) :
    (p.GetProjectDomain projectName n).2.sent =
      n.sent ++
        [{ Method := "GET",
           URL := "https://api.vercel.com" ++ ("/v9/projects/" ++ projectName ++ "/domains") ++
             "?teamId=" ++ p.config.TeamID,
           Authorization := "Bearer " ++ p.config.Token, ContentType := "application/json",
           Body := none }] := by
  unfold ProjectService.GetProjectDomain
  simp only [generateRequest_ok p _ _ _ hnew, ProjectService.send]
  rcases p.Do _ n.state with ⟨e | resp, s'⟩
  · rfl
  · simp only
    by_cases hcode : resp.StatusCode ≥ 400
    · simp [hcode]
    · simp only [hcode, if_false]
      rcases resp.BodyErr with _ | e
      · simp only
        rcases p.UnmarshalDomains resp.Body with e | domains
        · rfl
        · simp only
          cases domains <;> rfl
      · rfl

theorem CreateProject_sent (p : ProjectService σ) (sanitizedClientName : String)
    (envVars : List types.VercelEnvVariable) (cfg : config.Config) (n : Net σ)
    (hnew : ∀ m u, p.NewRequestWithContext m u = none) :
    ∃ body rest,
      (p.CreateProject sanitizedClientName envVars cfg n).2.sent =
        n.sent ++
          { Method := "POST",
            URL := "https://api.vercel.com" ++ "/v11/projects" ++ "?teamId=" ++
              p.config.TeamID,
            Authorization := "Bearer " ++ p.config.Token, ContentType := "application/json",
            Body := some (.project body) } :: rest ∧
        body.Name = sanitizedClientName := by
  unfold ProjectService.CreateProject
  simp only [generateRequest_ok p _ _ _ hnew, ProjectService.send]
  rcases p.Do _ n.state with ⟨e | resp, s'⟩
  · exact ⟨_, [], rfl, rfl⟩
  · simp only
    by_cases hcode : resp.StatusCode ≥ 400
    · simp only [hcode, if_true]
      exact ⟨_, [], rfl, rfl⟩
    · simp only [hcode, if_false]
      have hsent := GetProjectDomain_sent p sanitizedClientName
        { state := s',
          sent := n.sent ++
            [{ Method := "POST",
               URL := "https://api.vercel.com" ++ "/v11/projects" ++ "?teamId=" ++
                 p.config.TeamID,
               Authorization := "Bearer " ++ p.config.Token,
               ContentType := "application/json",
               Body := some (.project
                 { Name := sanitizedClientName,
                   BuildCommand := (resources.GetDeploymentDefaults cfg).Frontend.BuildCommand,
                   InstallCommand :=
                     (resources.GetDeploymentDefaults cfg).Frontend.InstallCommand,
                   FrameworkPreset :=
                     (resources.GetDeploymentDefaults cfg).Frontend.FrameworkPreset,
                   GitRepository :=
                     { Repo := (resources.GetDeploymentDefaults cfg).GitRepository.FrontendRepo,
                       Type_ := "bitbucket" },
                   EnvironmentVariables := envVars }) }] } hnew
      rcases hg : p.GetProjectDomain sanitizedClientName _ with ⟨e | domain, n3⟩
      · rw [hg] at hsent
        simp only at hsent ⊢
        exact ⟨_, _, by rw [hsent, List.append_assoc]; rfl, rfl⟩
      · rw [hg] at hsent
        simp only at hsent ⊢
        exact ⟨_, _, by rw [hsent, List.append_assoc]; rfl, rfl⟩

theorem DeleteProject_sent (p : ProjectService σ) (projectName : String) (n : Net σ)
    (hnew : ∀ m u, p.NewRequestWithContext m u = none) :
    (p.DeleteProject projectName n).2.sent =
      n.sent ++
        [{ Method := "DELETE",
           URL := "https://api.vercel.com" ++ ("/v9/projects/" ++ projectName) ++ "?teamId=" ++
             p.config.TeamID,
           Authorization := "Bearer " ++ p.config.Token, ContentType := "application/json",
           Body := none }] := by
  unfold ProjectService.DeleteProject
  simp only [generateRequest_ok p _ _ _ hnew, ProjectService.send]
  rcases p.Do _ n.state with ⟨e | resp, s'⟩
  · rfl
  · simp only
    by_cases h404 : resp.StatusCode = 404
    · simp [h404]
    · by_cases hcode : resp.StatusCode ≥ 400
      · simp [h404, hcode]
      · simp [h404, hcode]

end vercel

namespace utils

theorem rdropWhile_append_rtakeWhile (p : Char → Bool) (l : List Char) :
    l.rdropWhile p ++ l.rtakeWhile p = l := by
  have h := congrArg List.reverse (List.takeWhile_append_dropWhile p l.reverse)
  rw [List.reverse_append, List.reverse_reverse] at h
  exact h

/-- What `strings.TrimSpace` does to a text made of white space, a core that neither starts
nor ends with white space, and white space again: it returns the core. -/
theorem TrimSpace_surrounded (before core after : List Char)
    (hbefore : ∀ c ∈ before, unicode.IsSpace c = true)
    (hafter : ∀ c ∈ after, unicode.IsSpace c = true)
    (hhead : ∀ c, core.head? = some c → unicode.IsSpace c = false)
    (hlast : ∀ c, core.getLast? = some c → unicode.IsSpace c = false) :
    strings.TrimSpace (String.mk (before ++ core ++ after)) = String.mk core := by
  cases core with
  | nil =>
    have hall : ∀ c ∈ before ++ [] ++ after, unicode.IsSpace c = true := by
      intro c hc
      simp only [List.append_nil, List.mem_append] at hc
      rcases hc with hc | hc
      · exact hbefore c hc
      · exact hafter c hc
    have h1 : (before ++ [] ++ after).dropWhile unicode.IsSpace = [] :=
      List.dropWhile_eq_nil_iff.mpr hall
    simp only [strings.TrimSpace, h1, List.rdropWhile_nil]
  | cons a rest =>
    have ha := hhead a rfl
    have h1 : (before ++ a :: rest ++ after).dropWhile unicode.IsSpace = a :: rest ++ after := by
      rw [List.append_assoc, List.dropWhile_append_of_pos hbefore]
      simp [List.dropWhile, ha]
    have h2 : (a :: rest ++ after).rdropWhile unicode.IsSpace = a :: rest := by
      have hrev : ∀ c ∈ after.reverse, unicode.IsSpace c = true := fun c hc =>
        hafter c (List.mem_reverse.mp hc)
      rw [List.rdropWhile, List.reverse_append, List.dropWhile_append_of_pos hrev]
      rcases hc : (a :: rest).reverse with _ | ⟨b, rest2⟩
      · simp at hc
      · have hb : unicode.IsSpace b = false := by
          apply hlast b
          rw [List.getLast?_eq_head?_reverse, hc]
          rfl
        rw [List.dropWhile_cons_of_neg (by simp [hb]), ← hc, List.reverse_reverse]
    simp only [strings.TrimSpace, h1, h2]

/-- C17, where the code departs from it: Go's `len` counts bytes, and lowercasing can
change the number of bytes of a rune. The Kelvin sign U+212A takes three bytes and its
lowercase `k` one: the name made of that sign is sanitized to "k", of length 1, while the
trimmed name has length 3; both have one rune. -/
theorem SanitizeClientName_changes_byte_length :
    SanitizeClientName unicode.kelvinLower "\u212a" = "k" ∧
      len (SanitizeClientName unicode.kelvinLower "\u212a") = 1 ∧
      len (strings.TrimSpace "\u212a") = 3 ∧
      (SanitizeClientName unicode.kelvinLower "\u212a").length = 1 ∧
      (strings.TrimSpace "\u212a").length = 1 := by
  decide

/-- C17 as amended: `SanitizeClientName` maps "Acme Co" to "acme-co", and
"  Acme Co" followed by a space, a tab and a line feed as well. The surrounding white space
is removed: a name made of white space, a core that neither starts nor ends with white
space, and white space again is trimmed to the core, and is sanitized to the core with
every rune lowercased and then replaced by a hyphen when it is the space; every name is of
that form, the core being the trimmed name. So the result has as many runes as the trimmed
name, and as many bytes (Go's `len`) when the name is ASCII; it contains no space; and it
contains no uppercase ASCII letter, given that the case table of Go's `unicode` package
maps no rune above ASCII to an uppercase ASCII letter. -/
theorem SanitizeClientName_spec (unicodeLower : Char → Char) (clientName : String) :
    SanitizeClientName unicodeLower "Acme Co" = "acme-co" ∧
      SanitizeClientName unicodeLower "  Acme Co \t\n" = "acme-co" ∧
      (∀ before core after : List Char,
        (∀ c ∈ before, unicode.IsSpace c = true) →
        (∀ c ∈ after, unicode.IsSpace c = true) →
        (∀ c, core.head? = some c → unicode.IsSpace c = false) →
        (∀ c, core.getLast? = some c → unicode.IsSpace c = false) →
        strings.TrimSpace (String.mk (before ++ core ++ after)) = String.mk core ∧
          SanitizeClientName unicodeLower (String.mk (before ++ core ++ after)) =
            String.mk (core.map
              (fun c =>
                if strings.toLowerRune unicodeLower c = ' ' then '-'
                else strings.toLowerRune unicodeLower c))) ∧
      (∃ before after : List Char,
        clientName.data = before ++ (strings.TrimSpace clientName).data ++ after ∧
          (∀ c ∈ before, unicode.IsSpace c = true) ∧
          (∀ c ∈ after, unicode.IsSpace c = true) ∧
          (∀ c, (strings.TrimSpace clientName).data.head? = some c →
            unicode.IsSpace c = false) ∧
          (∀ c, (strings.TrimSpace clientName).data.getLast? = some c →
            unicode.IsSpace c = false)) ∧
      (SanitizeClientName unicodeLower clientName).data =
        (strings.TrimSpace clientName).data.map
          (fun c =>
            if strings.toLowerRune unicodeLower c = ' ' then '-'
            else strings.toLowerRune unicodeLower c) ∧
      (SanitizeClientName unicodeLower clientName).length =
        (strings.TrimSpace clientName).length ∧
      ' ' ∉ (SanitizeClientName unicodeLower clientName).data ∧
      ((∀ c : Char, 127 < c.toNat → (unicodeLower c).isUpper = false) →
        ∀ c ∈ (SanitizeClientName unicodeLower clientName).data, c.isUpper = false) ∧
      ((∀ c ∈ clientName.data, c.toNat ≤ 127) →
        len (SanitizeClientName unicodeLower clientName) =
          len (strings.TrimSpace clientName)) := by
  have htrimspec : ∀ before core after : List Char,
      (∀ c ∈ before, unicode.IsSpace c = true) →
      (∀ c ∈ after, unicode.IsSpace c = true) →
      (∀ c, core.head? = some c → unicode.IsSpace c = false) →
      (∀ c, core.getLast? = some c → unicode.IsSpace c = false) →
      strings.TrimSpace (String.mk (before ++ core ++ after)) = String.mk core ∧
        SanitizeClientName unicodeLower (String.mk (before ++ core ++ after)) =
          String.mk (core.map
            (fun c =>
              if strings.toLowerRune unicodeLower c = ' ' then '-'
              else strings.toLowerRune unicodeLower c)) := by
    intro before core after hb ha hh hl
    have ht := TrimSpace_surrounded before core after hb ha hh hl
    refine ⟨ht, ?_⟩
    apply String.ext
    rw [SanitizeClientName_data, ht]
  have hdecomp : ∃ before after : List Char,
      clientName.data = before ++ (strings.TrimSpace clientName).data ++ after ∧
        (∀ c ∈ before, unicode.IsSpace c = true) ∧
        (∀ c ∈ after, unicode.IsSpace c = true) ∧
        (∀ c, (strings.TrimSpace clientName).data.head? = some c →
          unicode.IsSpace c = false) ∧
        (∀ c, (strings.TrimSpace clientName).data.getLast? = some c →
          unicode.IsSpace c = false) := by
    obtain ⟨ht1, ht2⟩ := TrimSpace_trimmed clientName
    refine ⟨clientName.data.takeWhile unicode.IsSpace,
      (clientName.data.dropWhile unicode.IsSpace).rtakeWhile unicode.IsSpace, ?_, ?_, ?_, ?_, ?_⟩
    · simp only [strings.TrimSpace]
      rw [List.append_assoc, rdropWhile_append_rtakeWhile, List.takeWhile_append_dropWhile]
    · intro c hc
      exact List.mem_takeWhile_imp hc
    · intro c hc
      exact List.mem_rtakeWhile_imp hc
    · intro c hc
      rcases hd : (strings.TrimSpace clientName).data with _ | ⟨a, rest⟩
      · rw [hd] at hc
        cases hc
      · rw [hd] at hc ht1
        simp only [List.head?_cons, Option.some.injEq] at hc
        subst hc
        by_contra hne
        have hne : unicode.IsSpace a = true := by simpa using hne
        have hlen := congrArg List.length ht1
        rw [List.dropWhile_cons_of_pos hne] at hlen
        have := (List.dropWhile_sublist unicode.IsSpace (l := rest)).length_le
        rw [List.length_cons] at hlen
        omega
    · intro c hc
      have hne : (strings.TrimSpace clientName).data ≠ [] := by
        intro h
        rw [h] at hc
        cases hc
      have := (List.rdropWhile_eq_self_iff.mp ht2) hne
      rw [List.getLast?_eq_getLast _ hne, Option.some.injEq] at hc
      rw [← hc]
      simpa using this
  have hdata := SanitizeClientName_data unicodeLower clientName
  refine ⟨rfl, rfl, htrimspec, hdecomp, hdata, ?_, ?_, ?_, ?_⟩
  · simp only [String.length, hdata, List.length_map]
  · rw [hdata]
    simp only [List.mem_map, not_exists, not_and]
    intro c _
    split
    · decide
    · assumption
  · intro htable c hc
    rw [hdata] at hc
    simp only [List.mem_map] at hc
    obtain ⟨d, _, rfl⟩ := hc
    have hlow : (strings.toLowerRune unicodeLower d).isUpper = false := by
      simp only [strings.toLowerRune]
      split
      · exact (toLower_ascii d (by assumption)).2
      · exact htable d (by omega)
    split
    · decide
    · exact hlow
  · intro hascii
    have htrim : ∀ c ∈ (strings.TrimSpace clientName).data, c.toNat ≤ 127 := fun c hc =>
      hascii c (mem_TrimSpace clientName c hc)
    have h1 := utf8ByteSize_ascii (strings.TrimSpace clientName).data htrim
    have h2 := utf8ByteSize_ascii (SanitizeClientName unicodeLower clientName).data (by
      intro c hc
      rw [hdata] at hc
      simp only [List.mem_map] at hc
      obtain ⟨d, hd, rfl⟩ := hc
      have hlow : (strings.toLowerRune unicodeLower d).toNat ≤ 127 := by
        simp only [strings.toLowerRune, htrim d hd, if_true]
        exact (toLower_ascii d (htrim d hd)).1
      split
      · decide
      · exact hlow)
    change len (strings.TrimSpace clientName) = _ at h1
    change len (SanitizeClientName unicodeLower clientName) = _ at h2
    rw [h1, h2, hdata, List.length_map]

theorem SanitizeClientName_spec_witness :
    strings.TrimSpace (String.mk ([' ', '\t'] ++ ['A', ' ', 'B'] ++ [' ', '\n'])) =
        String.mk ['A', ' ', 'B'] ∧
      SanitizeClientName id (String.mk ([' ', '\t'] ++ ['A', ' ', 'B'] ++ [' ', '\n'])) =
        String.mk (['A', ' ', 'B'].map
          (fun c => if strings.toLowerRune id c = ' ' then '-' else strings.toLowerRune id c)) ∧
      len (SanitizeClientName id "  Acme Co ") = len (strings.TrimSpace "  Acme Co ") ∧
      (SanitizeClientName id "  Acme Co ").data.all (fun c => !c.isUpper) = true :=
  have h := SanitizeClientName_spec id "  Acme Co "
  have ht := h.2.2.1 [' ', '\t'] ['A', ' ', 'B'] [' ', '\n'] (by decide) (by decide)
    (by decide) (by decide)
  ⟨ht.1, ht.2, h.2.2.2.2.2.2.2.2 (by decide),
    List.all_eq_true.mpr (fun c hc => by
      rw [h.2.2.2.2.2.2.2.1 (fun d hd => by
        simp only [id, Char.isUpper, Bool.and_eq_false_imp, decide_eq_true_eq,
          decide_eq_false_iff_not]
        intro _ h2
        rw [UInt32.le_def] at h2
        have h90 : d.toNat ≤ 90 := h2
        omega) c hc]
      rfl)⟩

end utils

namespace digitalocean

variable {σ : Type}

theorem targetAppOf_found (listed : List (Option godo.App)) (name : String)
    (targetApp : godo.App) (h : targetAppOf listed name = .returns (some targetApp)) :
    some targetApp ∈ listed ∧ ∃ spec, targetApp.Spec = some spec ∧ spec.Name = name := by
  induction listed with
  | nil => simp [targetAppOf] at h
  | cons app rest ih =>
    rcases app with _ | app
    · simp [targetAppOf] at h
    unfold targetAppOf at h
    cases hs : app.Spec with
    | none => simp [hs] at h
    | some spec =>
      simp only [hs] at h
      by_cases hn : spec.Name = name
      · simp only [hn, if_true, Ending.returns.injEq, Option.some.injEq] at h
        subst h
        exact ⟨List.mem_cons_self _ _, spec, hs, hn⟩
      · simp only [hn, if_false] at h
        obtain ⟨hm, hx⟩ := ih h
        exact ⟨List.mem_cons_of_mem _ hm, hx⟩

theorem CreateApp_calls (ctx : retry.Context) (order : RangeOrder) (apps : godo.Apps σ)
    (client : types.Client) (envVars : types.DigitalOceanEnvVars) (cfg : config.Config)
    (s : σ) :
    ∃ rest, (CreateApp ctx order apps client envVars cfg s).calls =
      ApiCall.Create
        { Spec :=
            { Name := (resources.GenerateResourceNames client.SanitizedClientName cfg).DOApp,
              Envs := (order.AppEnvs envVars.AppEnvs).map (fun kv => kv.2), Region := "sfo",
              Services := [] } } :: rest := by
  unfold CreateApp
  simp only
  split
  · exact ⟨_, rfl⟩
  · split
    · exact ⟨_, rfl⟩
    · split
      · exact ⟨_, rfl⟩
      · split
        · exact ⟨_, rfl⟩
        · exact ⟨_, rfl⟩

theorem DeleteApp_calls (apps : godo.Apps σ) (appName : String) (cfg : config.Config)
    (s s' : σ) (listed : List (Option godo.App))
    (hlist : apps.List s = (.ok listed, s')) :
    (DeleteApp apps appName cfg s).calls =
        ApiCall.List ::
          (match targetAppOf listed (resources.GenerateResourceNames appName cfg).DOApp with
            | .returns (some targetApp) => [ApiCall.Delete targetApp.ID]
            | _ => []) ∧
      ∀ reason,
        targetAppOf listed (resources.GenerateResourceNames appName cfg).DOApp =
          .panics reason →
        (DeleteApp apps appName cfg s).ending = .panics reason := by
  have hname : (resources.GenerateResourceNames appName cfg).DOApp =
      cfg.Application.NamePrefix ++ "-" ++ appName := rfl
  rw [hname]
  unfold DeleteApp
  simp only [hlist]
  rcases targetAppOf listed (cfg.Application.NamePrefix ++ "-" ++ appName) with
    (_ | t) | reason
  · simp
  · simp only
    constructor
    · split <;> simp
    · intro _ h
      cases h
  · simp

theorem UpdateAppEnvironmentVariables_calls (order : RangeOrder) (apps : godo.Apps σ)
    (appName : String) (envVars : types.DigitalOceanEnvVars) (cfg : config.Config)
    (s s' : σ) (listed : List (Option godo.App))
    (hlist : apps.List s = (.ok listed, s')) :
    (∀ ending,
        targetAppOf listed (resources.GenerateResourceNames appName cfg).DOApp = ending →
        (∀ targetApp, ending ≠ .returns (some targetApp)) →
        (UpdateAppEnvironmentVariables order apps appName envVars cfg s).calls =
          [ApiCall.List]) ∧
      ∀ targetApp targetSpec,
        targetAppOf listed (resources.GenerateResourceNames appName cfg).DOApp =
          .returns (some targetApp) →
        targetApp.Spec = some targetSpec →
        (UpdateAppEnvironmentVariables order apps appName envVars cfg s).calls =
          ApiCall.List ::
            (match withEnvironment order envVars targetSpec with
              | .returns spec => [ApiCall.Update targetApp.ID { Spec := spec }]
              | .panics _ => []) := by
  have hname : (resources.GenerateResourceNames appName cfg).DOApp =
      cfg.Application.NamePrefix ++ "-" ++ appName := rfl
  rw [hname]
  constructor
  · intro ending h hne
    unfold UpdateAppEnvironmentVariables
    simp only [hlist, h]
    rcases ending with (_ | t) | reason
    · rfl
    · exact absurd rfl (hne t)
    · rfl
  · intro t spec h hs
    unfold UpdateAppEnvironmentVariables
    simp only [hlist, h, hs]
    rcases withEnvironment order envVars spec with spec2 | reason
    · simp only
      split <;> rfl
    · rfl

end digitalocean

namespace retry

variable {σ : Type}

end retry

namespace aws

variable {σ : Type}

end aws

namespace rollback

variable {S : Type}

theorem ExecuteRollback_manager (m : Manager S) (s : S) : (m.ExecuteRollback s).manager = m := by
  simp only [Manager.ExecuteRollback]
  split <;> rfl

end rollback

namespace cmd

variable {σ : Type}

theorem s3BucketCleanup_spec (P : Providers σ) (bucketName : String) (w : World σ) :
    (s3BucketCleanup P bucketName w).2.calls = w.calls ++ [Call.DeleteBucket bucketName] ∧
      ((s3BucketCleanup P bucketName w).1 = none ↔
        (P.DeleteBucket bucketName w.state).1 = none) := by
  unfold s3BucketCleanup perform
  rcases h : (P.DeleteBucket bucketName w.state).1 with _ | e <;> simp [h]

theorem databaseCleanup_spec (P : Providers σ) (deploymentEnv : types.DeploymentEnvironment)
    (w : World σ) :
    (databaseCleanup P deploymentEnv w).2.calls =
        w.calls ++
          [Call.DeleteClientDatabases deploymentEnv.ResourceNames.DatabaseMain
            deploymentEnv.ResourceNames.DatabaseHangfire] ∧
      ((databaseCleanup P deploymentEnv w).1 = none ↔
        (P.DeleteClientDatabases deploymentEnv.ResourceNames.DatabaseMain
          deploymentEnv.ResourceNames.DatabaseHangfire w.state).1 = none) := by
  unfold databaseCleanup perform
  rcases h : (P.DeleteClientDatabases deploymentEnv.ResourceNames.DatabaseMain
    deploymentEnv.ResourceNames.DatabaseHangfire w.state).1 with _ | e <;> simp [h]

theorem digitalOceanAppCleanup_spec (P : Providers σ) (client : types.Client)
    (cfg : config.Config) (w : World σ) :
    (digitalOceanAppCleanup P client cfg w).2.calls =
        w.calls ++ [Call.DeleteApp client.SanitizedClientName cfg] ∧
      ((digitalOceanAppCleanup P client cfg w).1 = none ↔
        (P.DeleteApp client.SanitizedClientName cfg w.state).1 = none) := by
  unfold digitalOceanAppCleanup perform
  rcases h : (P.DeleteApp client.SanitizedClientName cfg w.state).1 with _ | e <;> simp [h]

theorem vercelProjectCleanup_spec (P : Providers σ) (client : types.Client) (w : World σ) :
    (vercelProjectCleanup P client w).2.calls =
        w.calls ++ [Call.DeleteProject client.SanitizedClientName] ∧
      ((vercelProjectCleanup P client w).1 = none ↔
        (P.DeleteProject client.SanitizedClientName w.state).1 = none) := by
  unfold vercelProjectCleanup perform
  rcases h : (P.DeleteProject client.SanitizedClientName w.state).1 with _ | e <;> simp [h]

end cmd

namespace cmd

variable {σ : Type}

theorem Compensates_bucket (P : Providers σ) (bucketName : String) (calls : List Call)
    (h : Call.CreateBucket bucketName ∈ calls) :
    Compensates calls { Name := "S3 bucket cleanup", Rollback := s3BucketCleanup P bucketName } :=
  fun w => ⟨_, (s3BucketCleanup_spec P bucketName w).1, rfl, _, h, by simp [Call.undoes]⟩

theorem Compensates_database (P : Providers σ) (env : types.DeploymentEnvironment)
    (calls : List Call)
    (h : Call.CreateClientDatabases env.ResourceNames.DatabaseMain
      env.ResourceNames.DatabaseHangfire ∈ calls) :
    Compensates calls { Name := "Database cleanup", Rollback := databaseCleanup P env } :=
  fun w => ⟨_, (databaseCleanup_spec P env w).1, rfl, _, h, by simp [Call.undoes]⟩

theorem Compensates_app (P : Providers σ) (client : types.Client) (cfg : config.Config)
    (envVars : types.DigitalOceanEnvVars) (calls : List Call)
    (h : Call.CreateApp client envVars cfg ∈ calls) :
    Compensates calls
      { Name := "DigitalOcean app cleanup", Rollback := digitalOceanAppCleanup P client cfg } :=
  fun w => ⟨_, (digitalOceanAppCleanup_spec P client cfg w).1, rfl, _, h, by simp [Call.undoes]⟩

theorem Compensates_project (P : Providers σ) (client : types.Client)
    (envVars : List types.VercelEnvVariable) (cfg : config.Config) (calls : List Call)
    (h : Call.CreateProject client.SanitizedClientName envVars cfg ∈ calls) :
    Compensates calls
      { Name := "Vercel project cleanup", Rollback := vercelProjectCleanup P client } :=
  fun w => ⟨_, (vercelProjectCleanup_spec P client w).1, rfl, _, h, by simp [Call.undoes]⟩

/-- In a run of `freshInstall` from a world without earlier calls, every action the manager
holds at the return, run in any world, makes one delete call that names the resource a
create call of the run created. -/
theorem freshInstall_registered_compensate (unicodeLower : Char → Char) (P : Providers σ)
    (client : types.Client) (cfg : config.Config) (s : σ) :
    ∀ a ∈ (freshInstall unicodeLower P client cfg (World.fresh s)).rollbackMgr.actions,
      Compensates (freshInstall unicodeLower P client cfg (World.fresh s)).world.calls a := by
  cases hgen : envvars.GenerateDeploymentEnvironment unicodeLower client cfg with
  | error e => simp [freshInstall, hgen, World.fresh, rollback.NewManager]
  | ok env =>
    have hvalid := (GenerateDeploymentEnvironment_ok_iff unicodeLower client cfg).mp ⟨env, hgen⟩
    rcases h1 : P.NewS3Service cfg.AWS.Region cfg.AWS.AccessKeyID cfg.AWS.SecretAccessKey
      s with ⟨_ | e1, s1⟩
    case some => simp [freshInstall, hgen, perform, h1, World.fresh, rollback.NewManager]
    rcases h2 : P.CreateBucket env.ResourceNames.S3Bucket s1 with ⟨_ | e2, s2⟩
    case some => simp [freshInstall, hgen, perform, h1, h2, World.fresh, rollback.NewManager]
    rcases h3 : P.CreateClientDatabases env.ResourceNames.DatabaseMain
      env.ResourceNames.DatabaseHangfire s2 with ⟨_ | e3, s3⟩
    case some =>
      have hacts : (freshInstall unicodeLower P client cfg (World.fresh s)).rollbackMgr.actions =
          [{ Name := "S3 bucket cleanup",
             Rollback := s3BucketCleanup P env.ResourceNames.S3Bucket }] := by
        simp [freshInstall, hgen, perform, h1, h2, h3, World.fresh, rollback.NewManager,
          rollback.Manager.AddAction, rollback.ExecuteRollback_manager]
      rw [hacts, (freshInstall_database_fails unicodeLower P client cfg (World.fresh s) env s1 s2
        s3 e3 hgen h1 h2 h3).2.1]
      intro a ha
      simp only [List.mem_singleton] at ha
      subst ha
      exact Compensates_bucket P _ _ (by simp)
    rcases h4 : P.CreateApp client
      { AppEnvs := env.Backend.AppLevelVars, ComponentEnvs := env.Backend.ComponentLevelVars }
      cfg s3 with ⟨e4 | backendURL, s4⟩
    case error =>
      have hacts : (freshInstall unicodeLower P client cfg (World.fresh s)).rollbackMgr.actions =
          [{ Name := "S3 bucket cleanup",
             Rollback := s3BucketCleanup P env.ResourceNames.S3Bucket },
            { Name := "Database cleanup", Rollback := databaseCleanup P env }] := by
        simp [freshInstall, hgen, perform, h1, h2, h3, h4, World.fresh, rollback.NewManager,
          rollback.Manager.AddAction, rollback.ExecuteRollback_manager]
      rw [hacts, (freshInstall_app_fails unicodeLower P client cfg (World.fresh s) env s1 s2 s3
        s4 e4 hgen h1 h2 h3 h4).2.1]
      intro a ha
      simp only [List.mem_cons, List.mem_singleton, List.not_mem_nil, or_false] at ha
      rcases ha with ha | ha <;> subst ha
      · exact Compensates_bucket P _ _ (by simp)
      · exact Compensates_database P _ _ (by simp)
    obtain ⟨vars, hv1⟩ := (GenerateVercelEnvironmentVariables_ok_iff unicodeLower
      { client with BackendInfo := { client.BackendInfo with URL := backendURL } } cfg).mpr
      hvalid
    rcases h5 : P.CreateProject client.SanitizedClientName vars cfg s4 with
      ⟨e5 | frontendURL, s5⟩
    case error =>
      have hacts : (freshInstall unicodeLower P client cfg (World.fresh s)).rollbackMgr.actions =
          [{ Name := "S3 bucket cleanup",
             Rollback := s3BucketCleanup P env.ResourceNames.S3Bucket },
            { Name := "Database cleanup", Rollback := databaseCleanup P env },
            { Name := "DigitalOcean app cleanup",
              Rollback := digitalOceanAppCleanup P client cfg }] := by
        simp [freshInstall, hgen, perform, h1, h2, h3, h4, hv1, h5, World.fresh,
          rollback.NewManager, rollback.Manager.AddAction, rollback.ExecuteRollback_manager]
      rw [hacts, (freshInstall_project_fails unicodeLower P client cfg (World.fresh s) env s1 s2
        s3 s4 s5 backendURL vars e5 hgen h1 h2 h3 h4 hv1 h5).2.1]
      intro a ha
      simp only [List.mem_cons, List.mem_singleton, List.not_mem_nil, or_false] at ha
      rcases ha with ha | ha | ha <;> subst ha
      · exact Compensates_bucket P _ _ (by simp)
      · exact Compensates_database P _ _ (by simp)
      · exact Compensates_app P client cfg
          { AppEnvs := env.Backend.AppLevelVars,
            ComponentEnvs := env.Backend.ComponentLevelVars } _ (by simp)
    obtain ⟨vars2, hv2⟩ := (GenerateVercelEnvironmentVariables_ok_iff unicodeLower
      { client with
        FrontendInfo := { URL := frontendURL },
        BackendInfo := { client.BackendInfo with URL := backendURL } } cfg).mpr hvalid
    obtain ⟨env2, hv3⟩ := (GenerateDeploymentEnvironment_ok_iff unicodeLower
      { client with
        FrontendInfo := { URL := frontendURL },
        BackendInfo := { client.BackendInfo with URL := backendURL } } cfg).mpr hvalid
    have hpre := freshInstall_calls_after_project unicodeLower P client cfg (World.fresh s) env
      s1 s2 s3 s4 s5 backendURL frontendURL vars vars2 hgen h1 h2 h3 h4 hv1 h5 hv2
    have hacts : (freshInstall unicodeLower P client cfg (World.fresh s)).rollbackMgr.actions =
        [{ Name := "S3 bucket cleanup",
           Rollback := s3BucketCleanup P env.ResourceNames.S3Bucket },
          { Name := "Database cleanup", Rollback := databaseCleanup P env },
          { Name := "DigitalOcean app cleanup",
            Rollback := digitalOceanAppCleanup P client cfg },
          { Name := "Vercel project cleanup",
            Rollback := vercelProjectCleanup P
              { client with BackendInfo := { client.BackendInfo with URL := backendURL } } }] := by
      rcases h6 : P.UpdateProjectEnvironmentVariables client.SanitizedClientName vars2 s5 with
        ⟨_ | e6, s6⟩
      case some =>
        simp [freshInstall, hgen, perform, h1, h2, h3, h4, hv1, h5, hv2, h6, World.fresh,
          rollback.NewManager, rollback.Manager.AddAction]
      rcases h7 : P.CreateDeployment
        { client with
          FrontendInfo := { URL := frontendURL },
          BackendInfo := { client.BackendInfo with URL := backendURL } } cfg s6 with
        ⟨_ | e7, s7⟩
      case some =>
        simp [freshInstall, hgen, perform, h1, h2, h3, h4, hv1, h5, hv2, h6, h7, World.fresh,
          rollback.NewManager, rollback.Manager.AddAction]
      rcases h8 : P.UpdateAppEnvironmentVariables client.SanitizedClientName
        { AppEnvs := env2.Backend.AppLevelVars,
          ComponentEnvs := env2.Backend.ComponentLevelVars } cfg s7 with ⟨_ | e8, s8⟩ <;>
        simp [freshInstall, hgen, perform, h1, h2, h3, h4, hv1, h5, hv2, h6, h7, hv3, h8,
          World.fresh, rollback.NewManager, rollback.Manager.AddAction]
    rw [hacts]
    intro a ha
    simp only [List.mem_cons, List.mem_singleton, List.not_mem_nil, or_false] at ha
    rcases ha with ha | ha | ha | ha <;> subst ha
    · exact Compensates_bucket P _ _ (hpre.subset (by simp [World.fresh]))
    · exact Compensates_database P _ _ (hpre.subset (by simp [World.fresh]))
    · exact Compensates_app P client cfg
        { AppEnvs := env.Backend.AppLevelVars,
          ComponentEnvs := env.Backend.ComponentLevelVars } _
        (hpre.subset (by simp [World.fresh]))
    · exact Compensates_project P
        { client with BackendInfo := { client.BackendInfo with URL := backendURL } } vars cfg _
        (hpre.subset (by simp [World.fresh]))

end cmd

namespace cmd

end cmd

namespace cmd

/-- C23: rollback and reconfiguration re-derive the identifier the forward step created.
The create request of `CreateApp` names the app `ResourceNames.DOApp`, that is
`<prefix>-<s>` for the sanitized name `s` of the client; `DeleteApp` and
`UpdateAppEnvironmentVariables` called with `s` look for that very name among the listed
apps and act on the first app that has it (they send no delete or update when there is
none, and panic on a nil app or an app without spec met before it). `CreateProject` called with `s`
posts a project named `s`, which is `ResourceNames.VercelProject`, and `DeleteProject`
called with `s` sends its DELETE to `/v9/projects/<s>`. In a run of `freshInstall` every
delete call made names the resource a create call of the run named, and every compensating
action the manager holds at the return, executed or not, makes one delete call naming the
resource a create call of the run named: same bucket, same databases, the sanitized name of
the client whose app was created, same project. On the example run in which every step
succeeds, the four registered actions delete the bucket `easy-acme-co`, the databases
`acme-co` and `acme-co-hf`, the app of `acme-co` and the project `acme-co`. -/
theorem deletes_rederive_created_identifiers :
    (∀ (σ : Type) (ctx : retry.Context) (order : digitalocean.RangeOrder)
        (apps : godo.Apps σ) (client : types.Client) (envVars : types.DigitalOceanEnvVars)
        (cfg : config.Config) (s : σ),
        ∃ rest, (digitalocean.CreateApp ctx order apps client envVars cfg s).calls =
          digitalocean.ApiCall.Create
            { Spec :=
                { Name :=
                    (resources.GenerateResourceNames client.SanitizedClientName cfg).DOApp,
                  Envs := (order.AppEnvs envVars.AppEnvs).map (fun kv => kv.2),
                  Region := "sfo", Services := [] } } :: rest) ∧
      (∀ (σ : Type) (apps : godo.Apps σ) (appName : String) (cfg : config.Config) (s s' : σ)
        (listed : List (Option godo.App)),
        apps.List s = (.ok listed, s') →
        (digitalocean.DeleteApp apps appName cfg s).calls =
            digitalocean.ApiCall.List ::
              (match digitalocean.targetAppOf listed
                  (resources.GenerateResourceNames appName cfg).DOApp with
                | .returns (some targetApp) => [digitalocean.ApiCall.Delete targetApp.ID]
                | _ => []) ∧
          ∀ reason,
            digitalocean.targetAppOf listed
                (resources.GenerateResourceNames appName cfg).DOApp = .panics reason →
            (digitalocean.DeleteApp apps appName cfg s).ending = .panics reason) ∧
      (∀ (σ : Type) (order : digitalocean.RangeOrder) (apps : godo.Apps σ) (appName : String)
        (envVars : types.DigitalOceanEnvVars) (cfg : config.Config) (s s' : σ)
        (listed : List (Option godo.App)),
        apps.List s = (.ok listed, s') →
        (∀ ending,
            digitalocean.targetAppOf listed
                (resources.GenerateResourceNames appName cfg).DOApp = ending →
            (∀ targetApp, ending ≠ .returns (some targetApp)) →
            (digitalocean.UpdateAppEnvironmentVariables order apps appName envVars cfg
              s).calls = [digitalocean.ApiCall.List]) ∧
          ∀ targetApp targetSpec,
            digitalocean.targetAppOf listed
                (resources.GenerateResourceNames appName cfg).DOApp =
              .returns (some targetApp) →
            targetApp.Spec = some targetSpec →
            (digitalocean.UpdateAppEnvironmentVariables order apps appName envVars cfg
              s).calls =
              digitalocean.ApiCall.List ::
                (match digitalocean.withEnvironment order envVars targetSpec with
                  | .returns spec => [digitalocean.ApiCall.Update targetApp.ID { Spec := spec }]
                  | .panics _ => [])) ∧
      (∀ (listed : List (Option godo.App)) (name : String) (targetApp : godo.App),
        digitalocean.targetAppOf listed name = .returns (some targetApp) →
        some targetApp ∈ listed ∧ ∃ spec, targetApp.Spec = some spec ∧ spec.Name = name) ∧
      (∀ (s : String) (cfg : config.Config),
        (resources.GenerateResourceNames s cfg).DOApp = cfg.Application.NamePrefix ++ "-" ++ s ∧
          (resources.GenerateResourceNames s cfg).VercelProject = s) ∧
      (∀ (σ : Type) (p : vercel.ProjectService σ) (s : String)
        (envVars : List types.VercelEnvVariable) (cfg : config.Config) (n : vercel.Net σ),
        (∀ m u, p.NewRequestWithContext m u = none) →
        ∃ body rest,
          (p.CreateProject s envVars cfg n).2.sent =
            n.sent ++
              { Method := "POST",
                URL := "https://api.vercel.com" ++ "/v11/projects" ++ "?teamId=" ++
                  p.config.TeamID,
                Authorization := "Bearer " ++ p.config.Token,
                ContentType := "application/json",
                Body := some (.project body) } :: rest ∧
            body.Name = s) ∧
      (∀ (σ : Type) (p : vercel.ProjectService σ) (s : String) (n : vercel.Net σ),
        (∀ m u, p.NewRequestWithContext m u = none) →
        (p.DeleteProject s n).2.sent =
          n.sent ++
            [{ Method := "DELETE",
               URL := "https://api.vercel.com" ++ ("/v9/projects/" ++ s) ++ "?teamId=" ++
                 p.config.TeamID,
               Authorization := "Bearer " ++ p.config.Token,
               ContentType := "application/json", Body := none }]) ∧
      (∀ (σ : Type) (unicodeLower : Char → Char) (P : Providers σ) (client : types.Client)
        (cfg : config.Config) (s : σ),
        ∀ c ∈ (freshInstall unicodeLower P client cfg (World.fresh s)).world.calls,
          c.isCompensation = true →
          ∃ c' ∈ (freshInstall unicodeLower P client cfg (World.fresh s)).world.calls,
            c.undoes c' = true) ∧
      (∀ (σ : Type) (unicodeLower : Char → Char) (P : Providers σ) (client : types.Client)
        (cfg : config.Config) (s : σ),
        ∀ a ∈ (freshInstall unicodeLower P client cfg (World.fresh s)).rollbackMgr.actions,
          Compensates (freshInstall unicodeLower P client cfg (World.fresh s)).world.calls a) ∧
      (freshInstall id (scripted []) exampleClient exampleConfig
          (World.fresh ())).rollbackMgr.actions.map
          (fun a => (a.Rollback (World.fresh ())).2.calls) =
        [[Call.DeleteBucket "easy-acme-co"],
          [Call.DeleteClientDatabases "acme-co" "acme-co-hf"],
          [Call.DeleteApp "acme-co" exampleConfig],
          [Call.DeleteProject "acme-co"]] ∧
      (digitalocean.UpdateAppEnvironmentVariables digitalocean.RangeOrder.asWritten
          digitalocean.inMemory "acme-co" ⟨[], []⟩ exampleConfig
          (digitalocean.CreateApp retry.background digitalocean.RangeOrder.asWritten
            digitalocean.inMemory exampleClient ⟨[], []⟩ exampleConfig []).state).calls.map
          (fun c => match c with
            | .Update appID _ => appID
            | _ => "") = ["", "app-1"] := by
  refine ⟨?_, ?_, ?_, ?_, ?_, ?_, ?_, ?_, ?_, by decide, by decide⟩
  · intro σ ctx order apps client envVars cfg s
    exact digitalocean.CreateApp_calls ctx order apps client envVars cfg s
  · intro σ apps appName cfg s s' listed hlist
    exact digitalocean.DeleteApp_calls apps appName cfg s s' listed hlist
  · intro σ order apps appName envVars cfg s s' listed hlist
    exact digitalocean.UpdateAppEnvironmentVariables_calls order apps appName envVars cfg s s'
      listed hlist
  · intro listed name targetApp h
    exact digitalocean.targetAppOf_found listed name targetApp h
  · intro s cfg
    exact ⟨rfl, rfl⟩
  · intro σ p s envVars cfg n hnew
    exact vercel.CreateProject_sent p s envVars cfg n hnew
  · intro σ p s n hnew
    exact vercel.DeleteProject_sent p s n hnew
  · intro σ unicodeLower P client cfg s
    exact freshInstall_deletes_match_creates unicodeLower P client cfg s
  · intro σ unicodeLower P client cfg s
    exact freshInstall_registered_compensate unicodeLower P client cfg s

theorem deletes_rederive_created_identifiers_witness :
    Compensates
      (freshInstall id (scripted [Step.createDeployment]) exampleClient exampleConfig
        (World.fresh ())).world.calls
      { Name := "Vercel project cleanup",
        Rollback := vercelProjectCleanup (scripted [Step.createDeployment])
          (exampleClientWith "https://backend.example" "") } :=
  deletes_rederive_created_identifiers.2.2.2.2.2.2.2.2.1 Unit id
    (scripted [Step.createDeployment]) exampleClient exampleConfig ()
    { Name := "Vercel project cleanup",
      Rollback := vercelProjectCleanup (scripted [Step.createDeployment])
        (exampleClientWith "https://backend.example" "") }
    (by
      have h2 : (freshInstall id (scripted [Step.createDeployment]) exampleClient exampleConfig
          (World.fresh ())).rollbackMgr.actions.getLast? =
          some { Name := "Vercel project cleanup",
                 Rollback := vercelProjectCleanup (scripted [Step.createDeployment])
                   (exampleClientWith "https://backend.example" "") } := rfl
      exact List.mem_of_getLast?_eq_some h2)

end cmd

end EasyCli
